import Mathlib

/-! # yoink: the job coordination layer

A shallow embedding of the shared state of `internal/services/state.go`
(the `State` singleton `services.Global`), of the constants of
`internal/config/config.go`, and of the handlers of `internal/routes` that
admit, link, cancel and release jobs.

Conventions of the embedding.

* A Go `map[string]V` is a `GoMap V`: a list of key/value entries.  Reading a
  key returns the first entry with that key, writing a key removes every older
  entry of the key, deleting a key removes every entry of the key.  The
  iteration order of a Go map is unspecified; the list order stands for one
  such order.
* A Go `int` is an `Int`.  The counters of this development stay far below
  `2^63` (they are bounded by the configured limits), so no wrap-around is
  modelled.
* A `time.Time` is an `Int` (nanoseconds since an arbitrary epoch) and a
  `time.Duration` is an `Int` number of nanoseconds; `time.Now()` is an
  explicit argument `now` of the operation that reads the clock.
* A `float64` that holds a disk size or a percentage is a rational number.
* Every method of `State` runs under the mutex of the maps it touches, so a
  method is one atomic step `State → State` (with its result, when it has
  one).  Pointers to `ProcessInfo`, `ClientSession`, ... are stored by value
  in the map that owns them.
-/

namespace Yoink

/-! ## Go maps -/

/-- A Go `map[string]V` as a list of entries. -/
structure GoMap (V : Type) where
  entries : List (String × V)
deriving DecidableEq, Repr

namespace GoMap

variable {V : Type}

/-- The empty map, `make(map[string]V)`. -/
def empty : GoMap V := ⟨[]⟩

/-- Lookup in a list of entries: the first entry of the key. -/
def lookup (k : String) : List (String × V) → Option V
  | [] => none
  | (k', v) :: rest => if k' = k then some v else lookup k rest

/-- Removal of every entry of a key from a list of entries. -/
def erase (k : String) : List (String × V) → List (String × V)
  | [] => []
  | (k', v) :: rest => if k' = k then erase k rest else (k', v) :: erase k rest

/-- The two-valued read `v, ok := m[k]`. -/
def get? (m : GoMap V) (k : String) : Option V := lookup k m.entries

/-- The write `m[k] = v`. -/
def set (m : GoMap V) (k : String) (v : V) : GoMap V :=
  ⟨(k, v) :: erase k m.entries⟩

/-- The builtin `delete(m, k)`. -/
def del (m : GoMap V) (k : String) : GoMap V :=
  ⟨erase k m.entries⟩

/-- The builtin `len(m)`. -/
def len (m : GoMap V) : Nat := m.entries.length

/-- The keys of the map, in iteration order. -/
def keys (m : GoMap V) : List String := m.entries.map Prod.fst

end GoMap

/-! ## `internal/config/config.go` -/

/-- The variable `config.JobLimits`. -/
def JobLimits : GoMap Int :=
  ⟨[("download", 6), ("playlist", 2), ("convert", 2), ("compress", 1),
    ("transcribe", 1), ("fetchUrl", 2)]⟩

/-- The constant `config.DiskSpaceMinGB`. -/
def DiskSpaceMinGB : Int := 5

/-- The constant `config.MaxJobsPerClient`. -/
def MaxJobsPerClient : Int := 5

/-- One second as a `time.Duration` (nanoseconds). -/
def Second : Int := 1000000000

/-- The constant `config.HeartbeatTimeout`, `30 * time.Second`. -/
def HeartbeatTimeout : Int := 30 * Second

/-- The constant `config.SessionIdleTimeout`, `60 * time.Second`. -/
def SessionIdleTimeout : Int := 60 * Second

/-! ## The data of `internal/services/state.go` -/

/-- The struct `ProcessInfo`: the two flags and the job type tag.  The
subprocess handle, the context cancel function and the temp file names are
handles to the outside world and carry no state of the coordination layer. -/
structure ProcessInfo where
  cancelled : Bool := false
  finishEarly : Bool := false
  JobType : String := ""
deriving DecidableEq, Repr

/-- The struct `ClientSession`. -/
structure ClientSession where
  LastHeartbeat : Int
  LastActivity : Int
  ActiveJobs : GoMap Bool
deriving DecidableEq, Repr

/-- The struct `AsyncJob`, the fields the coordination layer reads and writes
(the Go field `Type` is `Type_` here). -/
structure AsyncJob where
  Status : String := ""
  Progress : ℚ := 0
  Message : String := ""
  CreatedAt : Int := 0
  Type_ : String := ""
  OutputPath : String := ""
  OutputFilename : String := ""
  MimeType : String := ""
  Error : String := ""
deriving DecidableEq

/-- The struct `PendingJob`, without the free-form `Options` (the Go field
`Type` is `Type_` here). -/
structure PendingJob where
  Type_ : String := ""
  URL : String := ""
  ClientID : String := ""
  Status : String := ""
  Progress : ℚ := 0
  CreatedAt : Int := 0
  Resumable : Bool := false
deriving DecidableEq

/-- The struct `State`: the registries behind `services.Global` that the
admission, session and release paths use. -/
structure State where
  activeProcesses : GoMap ProcessInfo
  jobsByType : GoMap Int
  sessions : GoMap ClientSession
  jobToClient : GoMap String
  asyncJobs : GoMap AsyncJob
  pendingJobs : GoMap PendingJob
deriving DecidableEq

/-- The value `Global` built by `init()`. -/
def init : State where
  activeProcesses := GoMap.empty
  jobsByType := ⟨[("download", 0), ("playlist", 0), ("convert", 0), ("compress", 0),
    ("transcribe", 0), ("fetchUrl", 0)]⟩
  sessions := GoMap.empty
  jobToClient := GoMap.empty
  asyncJobs := GoMap.empty
  pendingJobs := GoMap.empty

/-- The read `s.jobsByType[jobType]`: a missing key reads as `0`. -/
def State.count (s : State) (jobType : String) : Int :=
  (s.jobsByType.get? jobType).getD 0

/-- The struct `JobCheck`. -/
structure JobCheck where
  OK : Bool
  Reason : String
deriving DecidableEq, Repr

/-- The function `getDiskSpaceGB`: `disk` is what `util.GetDiskSpace` returned,
`none` for an error and `some availGB` otherwise. -/
def getDiskSpaceGB (disk : Option ℚ) : ℚ :=
  match disk with
  | none => 999
  | some availGB => availGB

/-- The rendering `%.1f` of a non-negative number: one decimal, the exact value
rounded to the nearest tenth, ties to the even tenth. -/
def formatFixed1 (x : ℚ) : String :=
  let scaled : Int := x.num * 10
  let den : Int := x.den
  let q : Int := scaled / den
  let r : Int := scaled % den
  let tenths : Int := if den < 2 * r ∨ (2 * r = den ∧ q % 2 = 1) then q + 1 else q
  toString (tenths / 10) ++ "." ++ toString (tenths % 10)

/-- The method `State.CanStartJob`; `disk` is the disk reading taken inside. -/
def CanStartJob (s : State) (jobType : String) (disk : Option ℚ) : State × JobCheck :=
  let lim : Int × Bool :=
    match JobLimits.get? jobType with
    | some l => (l, true)
    | none => (0, false)
  if lim.2 = true ∧ s.count jobType ≥ lim.1 then
    (s, ⟨false, "Too many active " ++ jobType ++ " jobs (limit: " ++ toString lim.1 ++ ")"⟩)
  else
    let availGB := getDiskSpaceGB disk
    if availGB < (DiskSpaceMinGB : ℚ) then
      (s, ⟨false, "Low disk space (" ++ formatFixed1 availGB ++ "GB free, need "
        ++ toString DiskSpaceMinGB ++ "GB)"⟩)
    else
      ({ s with jobsByType := s.jobsByType.set jobType (s.count jobType + 1) }, ⟨true, ""⟩)

/-- The method `State.DecrementJob`. -/
def DecrementJob (s : State) (jobType : String) : State :=
  if s.count jobType > 0 then
    { s with jobsByType := s.jobsByType.set jobType (s.count jobType - 1) }
  else s

/-- The method `State.SetProcess`. -/
def SetProcess (s : State) (id : String) (info : ProcessInfo) : State :=
  { s with activeProcesses := s.activeProcesses.set id info }

/-- The method `State.GetProcess` (`none` is the nil pointer). -/
def GetProcess (s : State) (id : String) : Option ProcessInfo :=
  s.activeProcesses.get? id

/-- The method `State.DeleteProcess`. -/
def DeleteProcess (s : State) (id : String) : State :=
  { s with activeProcesses := s.activeProcesses.del id }

/-- The method `State.RegisterClient`. -/
def RegisterClient (s : State) (clientID : String) (now : Int) : State :=
  match s.sessions.get? clientID with
  | none =>
    let session : ClientSession :=
      { LastHeartbeat := now, LastActivity := now, ActiveJobs := GoMap.empty }
    { s with sessions := s.sessions.set clientID session }
  | some session =>
    { s with sessions := s.sessions.set clientID { session with LastActivity := now } }

/-- The method `State.UpdateHeartbeat`. -/
def UpdateHeartbeat (s : State) (clientID : String) (now : Int) : State × Bool :=
  match s.sessions.get? clientID with
  | none => (s, false)
  | some session =>
    ({ s with sessions := s.sessions.set clientID { session with LastHeartbeat := now } }, true)

/-- The method `State.LinkJobToClient`. -/
def LinkJobToClient (s : State) (jobID clientID : String) (now : Int) : State :=
  match s.sessions.get? clientID with
  | none => s
  | some session =>
    if clientID = "" then s
    else
      let session1 : ClientSession :=
        { session with ActiveJobs := session.ActiveJobs.set jobID true, LastActivity := now }
      { s with
        sessions := s.sessions.set clientID session1
        jobToClient := s.jobToClient.set jobID clientID }

/-- The method `State.GetJobOwner`: a missing key reads as the empty string. -/
def GetJobOwner (s : State) (jobID : String) : String :=
  (s.jobToClient.get? jobID).getD ""

/-- The method `State.UnlinkJobFromClient`. -/
def UnlinkJobFromClient (s : State) (jobID : String) (now : Int) : State :=
  match s.jobToClient.get? jobID with
  | none => s
  | some clientID =>
    let sessions :=
      match s.sessions.get? clientID with
      | some session =>
        let session1 : ClientSession :=
          { session with ActiveJobs := session.ActiveJobs.del jobID, LastActivity := now }
        s.sessions.set clientID session1
      | none => s.sessions
    { s with sessions := sessions, jobToClient := s.jobToClient.del jobID }

/-- The method `State.GetClientJobCount`. -/
def GetClientJobCount (s : State) (clientID : String) : Int :=
  match s.sessions.get? clientID with
  | none => 0
  | some session => session.ActiveJobs.len

/-- The method `State.SetAsyncJob`. -/
def SetAsyncJob (s : State) (id : String) (job : AsyncJob) : State :=
  { s with asyncJobs := s.asyncJobs.set id job }

/-- The method `State.GetAsyncJob` (`none` is the nil pointer). -/
def GetAsyncJob (s : State) (id : String) : Option AsyncJob :=
  s.asyncJobs.get? id

/-- The method `State.RegisterPendingJob`. -/
def RegisterPendingJob (s : State) (jobID : String) (job : PendingJob) (now : Int) : State :=
  { s with pendingJobs := s.pendingJobs.set jobID { job with CreatedAt := now, Resumable := true } }

/-- The method `State.RemovePendingJob`. -/
def RemovePendingJob (s : State) (jobID : String) : State :=
  { s with pendingJobs := s.pendingJobs.del jobID }

/-- The method `State.ReleaseJob`. -/
def ReleaseJob (s : State) (jobID : String) (now : Int) : State × Bool :=
  match s.activeProcesses.get? jobID with
  | none => (s, false)
  | some processInfo =>
    let s1 := { s with activeProcesses := s.activeProcesses.del jobID }
    let s2 := if processInfo.JobType ≠ "" then DecrementJob s1 processInfo.JobType else s1
    let s3 := RemovePendingJob s2 jobID
    (UnlinkJobFromClient s3 jobID now, true)

/-- The struct `sessionCleanupAction`. -/
structure sessionCleanupAction where
  clientID : String
  jobIDs : List String
  idle : Bool
deriving DecidableEq, Repr

/-- The test of the first branch of the sweep loop of `StartSessionCleanup`:
the session has active jobs and its heartbeat lapsed. -/
def heartbeatTimedOut (now : Int) (session : ClientSession) : Prop :=
  session.ActiveJobs.len > 0 ∧ now - session.LastHeartbeat > HeartbeatTimeout

/-- The test of the second branch of the sweep loop of `StartSessionCleanup`:
the session has no active job and was idle for too long. -/
def idleTimedOut (now : Int) (session : ClientSession) : Prop :=
  ¬ session.ActiveJobs.len > 0 ∧ now - session.LastActivity > SessionIdleTimeout

instance (now : Int) (session : ClientSession) : Decidable (heartbeatTimedOut now session) := by
  unfold heartbeatTimedOut; infer_instance

instance (now : Int) (session : ClientSession) : Decidable (idleTimedOut now session) := by
  unfold idleTimedOut; infer_instance

/-- One iteration of `for clientID, session := range s.sessions` in
`StartSessionCleanup`, on the sessions left so far and the actions collected
so far. -/
def sweepVisit (now : Int) (acc : GoMap ClientSession × List sessionCleanupAction)
    (clientID : String) : GoMap ClientSession × List sessionCleanupAction :=
  match acc.1.get? clientID with
  | none => acc
  | some session =>
    if heartbeatTimedOut now session then
      (acc.1.del clientID,
        acc.2 ++ [{ clientID := clientID, jobIDs := session.ActiveJobs.keys, idle := false }])
    else if idleTimedOut now session then
      (acc.1.del clientID, acc.2 ++ [{ clientID := clientID, jobIDs := [], idle := true }])
    else acc

/-- The first half of a sweep cycle of `StartSessionCleanup` (under
`muSessions`): the sessions that stay and the actions to carry out. -/
def sweepSessions (now : Int) (sessions : GoMap ClientSession) :
    GoMap ClientSession × List sessionCleanupAction :=
  sessions.keys.foldl (sweepVisit now) (sessions, [])

/-- The body of `for _, jobID := range action.jobIDs` in `StartSessionCleanup`. -/
def cancelSessionJob (s : State) (jobID : String) : State :=
  let isPlaylist : Bool :=
    match GetAsyncJob s jobID with
    | some aj => decide (aj.Type_ = "playlist")
    | none => false
  if isPlaylist then
    { s with jobToClient := s.jobToClient.del jobID }
  else
    let s1 :=
      match GetProcess s jobID with
      | some info => SetProcess s jobID { info with cancelled := true }
      | none => s
    let taken : String × State :=
      match s1.activeProcesses.get? jobID with
      | some procInfo => (procInfo.JobType, { s1 with activeProcesses := s1.activeProcesses.del jobID })
      | none => ("", s1)
    let s2 := if taken.1 ≠ "" then DecrementJob taken.2 taken.1 else taken.2
    let s3 := RemovePendingJob s2 jobID
    { s3 with jobToClient := s3.jobToClient.del jobID }

/-- The body of `for _, action := range actions` in `StartSessionCleanup`. -/
def runCleanupAction (s : State) (action : sessionCleanupAction) : State :=
  if action.idle then s else action.jobIDs.foldl cancelSessionJob s

/-- One complete cycle of the ticker loop of `StartSessionCleanup`, with the
clock reading `now`. -/
def sessionCleanupCycle (s : State) (now : Int) : State :=
  let swept := sweepSessions now s.sessions
  swept.2.foldl runCleanupAction { s with sessions := swept.1 }

/-- One cycle of the ticker loop of `StartCounterReconciliation`. -/
def counterReconciliationCycle (s : State) : State :=
  if s.activeProcesses.len > 0 then s
  else
    { s with jobsByType :=
        ⟨s.jobsByType.entries.map (fun e => (e.1, if e.2 > 0 then 0 else e.2))⟩ }

/-! ## `internal/routes` -/

/-- What a handler answers: the HTTP status and the `success` and `message`
(or `error`) fields of the JSON body. -/
structure Response where
  status : Nat
  success : Bool
  message : String
deriving DecidableEq, Repr

/-- The handler `handleCancel` for `POST /api/cancel/{id}?clientId=`. -/
def handleCancel (s : State) (id clientID : String) : State × Response :=
  let owner := GetJobOwner s id
  if owner ≠ "" ∧ owner ≠ clientID then
    (s, ⟨403, false, "Not authorized to cancel this job"⟩)
  else
    match GetProcess s id with
    | some processInfo =>
      let s1 := SetProcess s id { processInfo with cancelled := true }
      (DeleteProcess s1 id, ⟨200, true, "Download cancelled"⟩)
    | none => (s, ⟨200, false, "Download not found or already completed"⟩)

/-- The release step of `handleDownloadError`, the error exit of `handleDownload`:
`services.Global.ReleaseJob(downloadID)`. -/
def handleDownloadError (s : State) (downloadID : String) (now : Int) : State :=
  (ReleaseJob s downloadID now).1

/-- The text of the per-client rejection,
`fmt.Sprintf("Too many active jobs. Maximum %d concurrent jobs per user.", config.MaxJobsPerClient)`. -/
def tooManyActiveJobs : String :=
  "Too many active jobs. Maximum " ++ toString MaxJobsPerClient ++ " concurrent jobs per user."

/-- The handler `handleDownload` for `GET /api/download`, from the per-client
check (once the URL passed `ValidateURL`) to the registration of the pending
job.  The answer is `some` response when the request is turned away and `none`
when the download goes on. -/
def handleDownload (s : State) (clientID downloadID rawURL : String) (disk : Option ℚ)
    (now : Int) : State × Option Response :=
  if clientID ≠ "" ∧ GetClientJobCount s clientID ≥ MaxJobsPerClient then
    (s, some ⟨429, false, tooManyActiveJobs⟩)
  else
    let jobCheck := CanStartJob s "download" disk
    if jobCheck.2.OK = false then
      (jobCheck.1, some ⟨503, false, jobCheck.2.Reason⟩)
    else
      let s1 :=
        if clientID ≠ "" then
          LinkJobToClient (RegisterClient jobCheck.1 clientID now) downloadID clientID now
        else jobCheck.1
      let s2 := SetProcess s1 downloadID { JobType := "download" }
      let pending : PendingJob :=
        { Type_ := "download", URL := rawURL, ClientID := clientID, Status := "starting" }
      (RegisterPendingJob s2 downloadID pending now, none)

/-- The method `AsyncJob.SetError`. -/
def AsyncJob.SetError (j : AsyncJob) (errMsg : String) : AsyncJob :=
  { j with Status := "error", Error := errMsg }

/-- The function `handleConvertAsync`, from its start to the link of the job to
its client; the result is `true` when the conversion goes on. -/
def handleConvertAsync (s : State) (clientID jobID : String) (disk : Option ℚ) (now : Int) :
    State × Bool :=
  match GetAsyncJob s jobID with
  | none => (s, false)
  | some job =>
    let convertCheck := CanStartJob s "convert" disk
    if convertCheck.2.OK = false then
      (SetAsyncJob convertCheck.1 jobID (job.SetError convertCheck.2.Reason), false)
    else if clientID ≠ "" then
      (LinkJobToClient (RegisterClient convertCheck.1 clientID now) jobID clientID now, true)
    else (convertCheck.1, true)

/-- The handler `handleConvertChunked` for `POST /api/convert-chunked`, once the
file path and the options passed validation: the job record is installed and
`handleConvertAsync` is started. -/
def handleConvertChunked (s : State) (clientID jobID : String) (disk : Option ℚ) (now : Int) :
    State × Bool :=
  let job : AsyncJob :=
    { Status := "processing", Progress := 0, Message := "Starting conversion...",
      CreatedAt := now }
  handleConvertAsync (SetAsyncJob s jobID job) clientID jobID disk now

/-- The function `handleTranscribeAsync`, from the admission (once the options
passed validation) to the registration of the `ProcessInfo`; the result is
`true` when the transcription goes on. -/
def handleTranscribeAsync (s : State) (clientID jobID : String) (disk : Option ℚ) (now : Int) :
    State × Bool :=
  match GetAsyncJob s jobID with
  | none => (s, false)
  | some job =>
    let transcribeCheck := CanStartJob s "transcribe" disk
    if transcribeCheck.2.OK = false then
      (SetAsyncJob transcribeCheck.1 jobID (job.SetError transcribeCheck.2.Reason), false)
    else
      let s1 :=
        if clientID ≠ "" then
          LinkJobToClient (RegisterClient transcribeCheck.1 clientID now) jobID clientID now
        else transcribeCheck.1
      (SetProcess s1 jobID { JobType := "transcribe" }, true)

/-- The handler `handleTranscribe` for `POST /api/transcribe`, from the
per-client check on: `some` response when the request is turned away, `none`
when the job was accepted and `handleTranscribeAsync` started. -/
def handleTranscribe (s : State) (clientID jobID : String) (disk : Option ℚ) (now : Int) :
    State × Option Response :=
  if clientID ≠ "" ∧ GetClientJobCount s clientID ≥ MaxJobsPerClient then
    (s, some ⟨429, false, tooManyActiveJobs⟩)
  else
    let job : AsyncJob :=
      { Status := "processing", Progress := 0, Message := "Starting transcription...",
        CreatedAt := now }
    ((handleTranscribeAsync (SetAsyncJob s jobID job) clientID jobID disk now).1, none)

/-- The release steps of the closure `cleanupAll` of `handleTranscribeAsync`
(the same three calls end the function on success): `DeleteProcess`,
`DecrementJob("transcribe")`, `UnlinkJobFromClient`. -/
def cleanupAll (s : State) (transcribeID : String) (now : Int) : State :=
  UnlinkJobFromClient (DecrementJob (DeleteProcess s transcribeID) "transcribe") transcribeID now

/-! ## Runs of the resource governor -/

/-- The states of the governor reachable from `init()`: any finite sequence of
`CanStartJob`, `DecrementJob` and reconciliation cycles, with any job types and
disk readings, interleaved with arbitrary changes of the process registry. -/
inductive CounterReachable : State → Prop
  | start : CounterReachable init
  | canStartJob (s : State) (jobType : String) (disk : Option ℚ) :
      CounterReachable s → CounterReachable (CanStartJob s jobType disk).1
  | decrementJob (s : State) (jobType : String) :
      CounterReachable s → CounterReachable (DecrementJob s jobType)
  | reconcile (s : State) :
      CounterReachable s → CounterReachable (counterReconciliationCycle s)
  | registry (s : State) (processes : GoMap ProcessInfo) :
      CounterReachable s → CounterReachable { s with activeProcesses := processes }

/-- A call on the governor for one fixed job type: `CanStartJob` (with the disk
reading it takes) or `DecrementJob`. -/
inductive GovernorCall where
  | canStart (disk : Option ℚ)
  | release
deriving DecidableEq

/-- The state after one call on the governor for job type `t`. -/
def applyCall (t : String) (s : State) : GovernorCall → State
  | .canStart disk => (CanStartJob s t disk).1
  | .release => DecrementJob s t

/-- The state after a sequence of calls on the governor for job type `t`. -/
def runCalls (t : String) (s : State) (calls : List GovernorCall) : State :=
  calls.foldl (applyCall t) s

/-- The number of `CanStartJob(t)` calls of the sequence that answer OK when
the sequence runs from `s`. -/
def successfulAdmits (t : String) (s : State) : List GovernorCall → Nat
  | [] => 0
  | .canStart disk :: rest =>
    (if (CanStartJob s t disk).2.OK = true then 1 else 0)
      + successfulAdmits t (CanStartJob s t disk).1 rest
  | .release :: rest => successfulAdmits t (DecrementJob s t) rest

/-- The number of `DecrementJob(t)` calls of the sequence. -/
def releases : List GovernorCall → Nat
  | [] => 0
  | .canStart _ :: rest => releases rest
  | .release :: rest => 1 + releases rest

/-! ## Sessions: consistency and reachable states -/

/-- The sweep destroys this session at time `now`: one of the two tests of the
sweep loop holds. -/
def sessionExpired (now : Int) (session : ClientSession) : Prop :=
  heartbeatTimedOut now session ∨ idleTimedOut now session

instance (now : Int) (session : ClientSession) : Decidable (sessionExpired now session) := by
  unfold sessionExpired; infer_instance

/-- What a sweep at time `now` leaves of the registry entry of one client. -/
def afterSweep (now : Int) : Option ClientSession → Option ClientSession
  | none => none
  | some session => if sessionExpired now session then none else some session

/-- Session consistency: every entry `jobToClient[j] = c` refers to an existing
session `c` whose `ActiveJobs` holds `j`. -/
def SessionConsistent (s : State) : Prop :=
  ∀ j c, s.jobToClient.get? j = some c →
    ∃ session, s.sessions.get? c = some session ∧ session.ActiveJobs.get? j = some true

/-- The states reachable from `init()` through the session operations
`RegisterClient`, `UpdateHeartbeat`, `LinkJobToClient`, `UnlinkJobFromClient`,
`ReleaseJob` and completed sweep cycles, interleaved with any operation that
leaves the session registry and the owner map alone (admission, process
registry, job records, pending jobs). -/
inductive SessionReachable : State → Prop
  | start : SessionReachable init
  | registerClient (s : State) (clientID : String) (now : Int) :
      SessionReachable s → SessionReachable (RegisterClient s clientID now)
  | updateHeartbeat (s : State) (clientID : String) (now : Int) :
      SessionReachable s → SessionReachable (UpdateHeartbeat s clientID now).1
  | linkJobToClient (s : State) (jobID clientID : String) (now : Int) :
      SessionReachable s → SessionReachable (LinkJobToClient s jobID clientID now)
  | unlinkJobFromClient (s : State) (jobID : String) (now : Int) :
      SessionReachable s → SessionReachable (UnlinkJobFromClient s jobID now)
  | releaseJob (s : State) (jobID : String) (now : Int) :
      SessionReachable s → SessionReachable (ReleaseJob s jobID now).1
  | sessionCleanup (s : State) (now : Int) :
      SessionReachable s → SessionReachable (sessionCleanupCycle s now)
  | other (s s' : State) :
      SessionReachable s → s'.sessions = s.sessions → s'.jobToClient = s.jobToClient →
      SessionReachable s'

/-! ## Scenarios -/

/-- Client `C` connected at time 0 and started the download `J`, which is
running: admitted, linked, registered. -/
def downloadRunning : State :=
  (handleDownload (RegisterClient init "C" 0) "C" "J" "https://example.com/v" (some 10) 0).1

/-- Client `C` submitted the transcription `A` at time 0 and then fell silent;
the sweeper ran at 31 s; client `D` submitted the transcription `B` at 32 s. -/
def transcribeAfterSweep : State :=
  (handleTranscribe
    (sessionCleanupCycle (handleTranscribe init "C" "A" (some 10) 0).1 (31 * Second))
    "D" "B" (some 10) (32 * Second)).1

/-- Client `C` started the five downloads `J1`, ..., `J5`, all running. -/
def fiveDownloads : State :=
  ["J1", "J2", "J3", "J4", "J5"].foldl
    (fun s j => (handleDownload s "C" j "https://example.com/v" (some 10) 0).1) init

/-! ## The session sweeper, job by job -/

/-- The `ProcessInfo` object that was registered under `jobID`, as the body of
`for _, jobID := range action.jobIDs` in `StartSessionCleanup` leaves it.  The
body drops the registry entry of a job it cancels, but the orchestrator of the
job still holds the pointer and reads the flag through `IsCancelled()`. -/
def cancelSessionJobProcess (s : State) (jobID : String) : Option ProcessInfo :=
  let isPlaylist : Bool :=
    match GetAsyncJob s jobID with
    | some aj => decide (aj.Type_ = "playlist")
    | none => false
  if isPlaylist then GetProcess s jobID
  else
    match GetProcess s jobID with
    | some info => some { info with cancelled := true }
    | none => none

/-- The handler `handlePlaylistStart` for `POST /api/playlist/start`, from the
per-client check (once the URL passed `ValidateURL`) to the registration of the
`ProcessInfo` at the start of `processPlaylistAsync`.  The answer is `some`
response when the request is turned away and `none` when the playlist job was
accepted. -/
def handlePlaylistStart (s : State) (clientID jobID : String)
    (disk : Option ℚ) (now : Int) : State × Option Response :=
  if clientID ≠ "" ∧ GetClientJobCount s clientID ≥ MaxJobsPerClient then
    (s, some ⟨429, false, tooManyActiveJobs⟩)
  else
    let jobCheck := CanStartJob s "playlist" disk
    if jobCheck.2.OK = false then
      (jobCheck.1, some ⟨503, false, jobCheck.2.Reason⟩)
    else
      let s1 :=
        if clientID ≠ "" then
          LinkJobToClient (RegisterClient jobCheck.1 clientID now) jobID clientID now
        else jobCheck.1
      let job : AsyncJob :=
        { Status := "starting", Message := "getting playlist info...", CreatedAt := now,
          Type_ := "playlist" }
      let s2 := SetAsyncJob s1 jobID job
      (SetProcess s2 jobID { JobType := "playlist" }, none)

/-- Client `C` (heartbeat at 0) runs the download `J` and the playlist `P`. -/
def downloadAndPlaylist : State :=
  (handlePlaylistStart downloadRunning "C" "P" (some 10) 0).1

/-! ## The mutators of `AsyncJob` -/

/-- The method `AsyncJob.SetStatus`. -/
def AsyncJob.SetStatus (j : AsyncJob) (status : String) : AsyncJob :=
  { j with Status := status }

/-- The method `AsyncJob.SetProgress`. -/
def AsyncJob.SetProgress (j : AsyncJob) (progress : ℚ) : AsyncJob :=
  { j with Progress := progress }

/-- The method `AsyncJob.SetMessage`. -/
def AsyncJob.SetMessage (j : AsyncJob) (message : String) : AsyncJob :=
  { j with Message := message }

/-- The method `AsyncJob.SetProgressAndMessage`. -/
def AsyncJob.SetProgressAndMessage (j : AsyncJob) (progress : ℚ) (message : String) :
    AsyncJob :=
  { j with Progress := progress, Message := message }

/-- The method `AsyncJob.SetComplete`. -/
def AsyncJob.SetComplete (j : AsyncJob) (outputPath outputFilename mimeType : String) :
    AsyncJob :=
  { j with Status := "complete", Progress := 100, OutputPath := outputPath,
           OutputFilename := outputFilename, MimeType := mimeType }

/-- A finished conversion: status `complete`, progress 100. -/
def completedJob : AsyncJob :=
  { Status := "complete", Progress := 100, Message := "Conversion complete!",
    OutputPath := "/var/tmp/yoink/convert/a-converted.mp4", OutputFilename := "a.mp4",
    MimeType := "video/mp4" }

/-! ## The ephemeral artifact store

The registry `botDownloads` of `State` has its own mutex and no method touches
it together with the registries above, so its methods are modelled on the
registry alone.  The files of the temp directories are a map from path to
content. -/

/-- The content of a file. -/
abbrev Bytes := List UInt8

/-- The files of the temp directories: path to content. -/
abbrev Files := GoMap Bytes

/-- The constant `config.BotDownloadExpiry`, `5 * time.Minute`. -/
def BotDownloadExpiry : Int := 5 * 60 * Second

/-- The constant `config.PlaylistDownloadExp`, `12 * time.Hour`. -/
def PlaylistDownloadExp : Int := 12 * 3600 * Second

/-- The struct `BotDownload`. -/
structure BotDownload where
  FilePath : String := ""
  FileName : String := ""
  FileSize : Int := 0
  MimeType : String := ""
  CreatedAt : Int := 0
  Downloaded : Bool := false
  IsWebPlaylist : Bool := false
  IsPlaylist : Bool := false
deriving DecidableEq, Repr

/-- The method `State.SetBotDownload`. -/
def SetBotDownload (botDownloads : GoMap BotDownload) (token : String) (dl : BotDownload) :
    GoMap BotDownload :=
  botDownloads.set token dl

/-- The method `State.GetBotDownload` (`none` is the nil pointer). -/
def GetBotDownload (botDownloads : GoMap BotDownload) (token : String) : Option BotDownload :=
  botDownloads.get? token

/-- The method `State.DeleteBotDownload`. -/
def DeleteBotDownload (botDownloads : GoMap BotDownload) (token : String) :
    GoMap BotDownload :=
  botDownloads.del token

/-- One iteration of `for token, dl := range s.botDownloads` in
`ForEachBotDownload`: the callback `fn` answers whether to delete the entry and
may act on the files. -/
def forEachBotDownloadVisit (fn : String → BotDownload → Files → Bool × Files)
    (acc : GoMap BotDownload × Files) (token : String) : GoMap BotDownload × Files :=
  match acc.1.get? token with
  | none => acc
  | some dl =>
    let r := fn token dl acc.2
    if r.1 = true then (acc.1.del token, r.2) else (acc.1, r.2)

/-- The method `State.ForEachBotDownload`. -/
def ForEachBotDownload (botDownloads : GoMap BotDownload)
    (fn : String → BotDownload → Files → Bool × Files) (files : Files) :
    GoMap BotDownload × Files :=
  botDownloads.keys.foldl (forEachBotDownloadVisit fn) (botDownloads, files)

/-- The test of the callback of `StartBotDownloadExpiry`. -/
def botDownloadExpired (now : Int) (dl : BotDownload) : Bool :=
  decide (now - dl.CreatedAt > BotDownloadExpiry) && !dl.IsWebPlaylist && !dl.IsPlaylist

/-- One cycle of the ticker loop of `StartBotDownloadExpiry` (every 30 s), with
the clock reading `now`: an expired entry loses its file and its registry
entry. -/
def botDownloadExpiryCycle (botDownloads : GoMap BotDownload) (files : Files) (now : Int) :
    GoMap BotDownload × Files :=
  ForEachBotDownload botDownloads
    (fun _ dl fs => if botDownloadExpired now dl = true then (true, fs.del dl.FilePath)
      else (false, fs))
    files

/-- The test of the callback of `StartPlaylistDownloadExpiry`. -/
def playlistDownloadExpired (now : Int) (dl : BotDownload) : Bool :=
  dl.IsWebPlaylist && decide (now - dl.CreatedAt > PlaylistDownloadExp)

/-- One cycle of the ticker loop of `StartPlaylistDownloadExpiry` (every 60 s),
with the clock reading `now`. -/
def playlistDownloadExpiryCycle (botDownloads : GoMap BotDownload) (files : Files)
    (now : Int) : GoMap BotDownload × Files :=
  ForEachBotDownload botDownloads
    (fun _ dl fs => if playlistDownloadExpired now dl = true then (true, fs.del dl.FilePath)
      else (false, fs))
    files

/-- The handler `handleBotFileDownload` for `GET /api/bot/download/{token}`, up
to the point where the file is streamed: 404 when the token does not resolve,
404 (and the entry is dropped) when the file is gone, 200 otherwise (the entry
is then flagged `Downloaded`). -/
def handleBotFileDownload (botDownloads : GoMap BotDownload) (files : Files) (token : String) :
    GoMap BotDownload × Response :=
  match GetBotDownload botDownloads token with
  | none => (botDownloads, ⟨404, false, "Download not found or expired"⟩)
  | some data =>
    match files.get? data.FilePath with
    | none => (DeleteBotDownload botDownloads token, ⟨404, false, "File no longer available"⟩)
    | some _ => (botDownloads.set token { data with Downloaded := true }, ⟨200, true, ""⟩)

/-- A registry with the plain artifact `T`, the bot playlist `P` and the web
playlist `W`, all created at time 0, and their files. -/
def threeArtifacts : GoMap BotDownload × Files :=
  (⟨[("T", { FilePath := "/var/tmp/yoink/bot/t.mp4", FileName := "t.mp4" }),
     ("P", { FilePath := "/var/tmp/yoink/bot/p.zip", FileName := "p.zip", IsPlaylist := true }),
     ("W", { FilePath := "/var/tmp/yoink/playlists/w.zip", FileName := "w.zip",
             IsWebPlaylist := true })]⟩,
   ⟨[("/var/tmp/yoink/bot/t.mp4", [1, 2, 3]), ("/var/tmp/yoink/bot/p.zip", [4]),
     ("/var/tmp/yoink/playlists/w.zip", [5, 6])]⟩)

/-! ## The chunked upload subsystem

The registries `chunkedUploads` and `fileRefs` of `State` have their own
mutexes; together with the files of the upload directory they form the state
of the three upload handlers. -/

/-- A Go `map[int]bool` whose entries are only ever set to `true`: the list of
its keys. -/
structure IntSet where
  keys : List Int
deriving DecidableEq, Repr

/-- The empty map, `make(map[int]bool)`. -/
def IntSet.empty : IntSet := ⟨[]⟩

/-- The write `m[k] = true`. -/
def IntSet.add (m : IntSet) (k : Int) : IntSet :=
  if k ∈ m.keys then m else ⟨k :: m.keys⟩

/-- The builtin `len(m)`. -/
def IntSet.len (m : IntSet) : Int := m.keys.length

/-- The struct `ChunkedUpload`. -/
structure ChunkedUpload where
  FileName : String
  FileSize : Int
  TotalChunks : Int
  ReceivedChunks : IntSet
  LastActivity : Int
deriving DecidableEq, Repr

/-- The struct `FileRef`. -/
structure FileRef where
  FilePath : String
  FileName : String
  CreatedAt : Int
deriving DecidableEq, Repr

/-- The method `ChunkedUpload.MarkChunkReceived`, with its result
`(received, total)`. -/
def ChunkedUpload.MarkChunkReceived (u : ChunkedUpload) (index : Int) (now : Int) :
    ChunkedUpload × Int × Int :=
  let u1 := { u with ReceivedChunks := u.ReceivedChunks.add index, LastActivity := now }
  (u1, u1.ReceivedChunks.len, u1.TotalChunks)

/-- The method `ChunkedUpload.IsComplete`, with its result
`(complete, received, total)`. -/
def ChunkedUpload.IsComplete (u : ChunkedUpload) : Bool × Int × Int :=
  (decide (u.ReceivedChunks.len = u.TotalChunks), u.ReceivedChunks.len, u.TotalChunks)

/-- The state of the upload handlers. -/
structure UploadState where
  chunkedUploads : GoMap ChunkedUpload
  fileRefs : GoMap FileRef
  files : Files
deriving DecidableEq

/-- The method `State.GetChunkedUpload` (`none` is the nil pointer). -/
def GetChunkedUpload (st : UploadState) (id : String) : Option ChunkedUpload :=
  st.chunkedUploads.get? id

/-- The method `State.SetChunkedUpload`. -/
def SetChunkedUpload (st : UploadState) (id : String) (u : ChunkedUpload) : UploadState :=
  { st with chunkedUploads := st.chunkedUploads.set id u }

/-- The method `State.DeleteChunkedUpload`. -/
def DeleteChunkedUpload (st : UploadState) (id : String) : UploadState :=
  { st with chunkedUploads := st.chunkedUploads.del id }

/-- The method `State.SetFileRef`. -/
def SetFileRef (st : UploadState) (token : String) (ref : FileRef) : UploadState :=
  { st with fileRefs := st.fileRefs.set token ref }

/-- The constant `config.FileSizeLimit`, 8 GiB. -/
def FileSizeLimit : Int := 8 * 1024 * 1024 * 1024

/-- The value of a run of decimal digits, `none` when a character is not a
digit. -/
def digitsValue : List Char → Nat → Option Nat
  | [], acc => some acc
  | c :: cs, acc =>
    if '0' ≤ c ∧ c ≤ '9' then digitsValue cs (acc * 10 + (c.toNat - '0'.toNat)) else none

/-- The method `json.Number.Int64`, that is `strconv.ParseInt(s, 10, 64)`: an
optional sign, at least one decimal digit, and a value that fits 64 bits;
`none` is the error. -/
def jsonNumberInt64 (s : String) : Option Int :=
  match s.data with
  | [] => none
  | '-' :: rest =>
    if rest = [] then none
    else (digitsValue rest 0).bind (fun n => if n ≤ 2 ^ 63 then some (-(n : Int)) else none)
  | '+' :: rest =>
    if rest = [] then none
    else (digitsValue rest 0).bind (fun n => if n < 2 ^ 63 then some (n : Int) else none)
  | cs => (digitsValue cs 0).bind (fun n => if n < 2 ^ 63 then some (n : Int) else none)

/-- The decoded JSON body of `POST /api/upload/init`. -/
structure UploadInitBody where
  FileName : String
  FileSize : String
  TotalChunks : Int
deriving DecidableEq, Repr

/-- What an upload handler answers: an error status with its `error` text, or
the 200 body of the handler. -/
inductive UploadResult where
  | rejected (status : Nat) (error : String)
  | initialized (uploadId : String)
  | received (received total : Int) (complete : Bool)
  | assembled (filePath fileName : String)
deriving DecidableEq, Repr

/-- The handler `handleUploadInit` for `POST /api/upload/init`, on the decoded
body; `uploadID` is the fresh uuid. -/
def handleUploadInit (st : UploadState) (body : UploadInitBody) (uploadID : String)
    (now : Int) : UploadState × UploadResult :=
  if body.FileName = "" ∨ body.FileSize = "" ∨ body.TotalChunks = 0 then
    (st, .rejected 400 "Missing fileName, fileSize, or totalChunks")
  else
    match jsonNumberInt64 body.FileSize with
    | none => (st, .rejected 400 "fileSize must be a positive number")
    | some fileSize =>
      if fileSize ≤ 0 then (st, .rejected 400 "fileSize must be a positive number")
      else if fileSize > FileSizeLimit then
        (st, .rejected 400 ("File too large. Maximum size is "
          ++ toString (FileSizeLimit / (1024 * 1024 * 1024)) ++ "GB"))
      else if body.TotalChunks > 200 then (st, .rejected 400 "Too many chunks (max 200)")
      else
        let u : ChunkedUpload :=
          { FileName := body.FileName, FileSize := fileSize, TotalChunks := body.TotalChunks,
            ReceivedChunks := IntSet.empty, LastActivity := now }
        (SetChunkedUpload st uploadID u, .initialized uploadID)

/-- The directory `config.TempDirs["upload"]`. -/
def uploadDir : String := "/var/tmp/yoink/uploads"

/-- The rendering `%04d`: the decimal digits, padded with zeros to four
characters (the sign of a negative number counts as one of them). -/
def fmt04d (i : Int) : String :=
  if i < 0 then
    "-" ++ String.mk (List.replicate (3 - (toString i.natAbs).length) '0') ++ toString i.natAbs
  else
    String.mk (List.replicate (4 - (toString i.toNat).length) '0') ++ toString i.toNat

/-- The path of a chunk file,
`filepath.Join(uploadDir, fmt.Sprintf("chunk-%s-%04d", uploadID, index))`. -/
def chunkPath (uploadID : String) (index : Int) : String :=
  uploadDir ++ "/" ++ ("chunk-" ++ uploadID ++ "-" ++ fmt04d index)

/-- The path of the assembled file,
`filepath.Join(uploadDir, "assembled-"+uploadID+"-"+util.SanitizeFilename(FileName))`;
`safeName` is what `util.SanitizeFilename` returned. -/
def assembledPath (uploadID safeName : String) : String :=
  uploadDir ++ "/" ++ ("assembled-" ++ uploadID ++ "-" ++ safeName)

/-- The handler `handleUploadChunk` for
`POST /api/upload/chunk/{uploadId}/{chunkIndex}`, for a request whose index is
a number and whose multipart body carries the chunk `chunk`, written to disk
without error. -/
def handleUploadChunk (st : UploadState) (uploadID : String) (index : Int) (chunk : Bytes)
    (now : Int) : UploadState × UploadResult :=
  match GetChunkedUpload st uploadID with
  | none => (st, .rejected 404 "Upload not found or expired")
  | some uploadData =>
    if index < 0 ∨ index ≥ uploadData.TotalChunks then
      (st, .rejected 400 "Invalid chunk index")
    else
      let files := st.files.set (chunkPath uploadID index) chunk
      let r := uploadData.MarkChunkReceived index now
      ({ st with files := files, chunkedUploads := st.chunkedUploads.set uploadID r.1 },
        .received r.2.1 r.2.2 (decide (r.2.1 = r.2.2)))

/-- The loop `for i := 0; i < uploadData.TotalChunks; i++` of
`handleUploadComplete` over the indices still to do: each chunk file is opened,
appended to the assembled file and removed.  When a chunk file is missing the
loop stops with the files as they are at that point (`error`). -/
def assembleChunks (uploadID out : String) : List Nat → Files → Except Files Files
  | [], files => .ok files
  | i :: rest, files =>
    match files.get? (chunkPath uploadID i) with
    | none => .error files
    | some chunk =>
      let written := files.set out ((files.get? out).getD [] ++ chunk)
      assembleChunks uploadID out rest (written.del (chunkPath uploadID i))

/-- The handler `handleUploadComplete` for `POST /api/upload/complete/{uploadId}`;
`safeName` is what `util.SanitizeFilename(uploadData.FileName)` returned and
`fileToken` is the fresh uuid. -/
def handleUploadComplete (st : UploadState) (uploadID safeName fileToken : String)
    (now : Int) : UploadState × UploadResult :=
  match GetChunkedUpload st uploadID with
  | none => (st, .rejected 404 "Upload not found or expired")
  | some uploadData =>
    let c := uploadData.IsComplete
    if c.1 = false then
      (st, .rejected 400
        ("Missing chunks: received " ++ toString c.2.1 ++ "/" ++ toString c.2.2))
    else
      let out := assembledPath uploadID safeName
      let created := st.files.set out []
      match assembleChunks uploadID out (List.range uploadData.TotalChunks.toNat) created with
      | .error files =>
        ({ st with files := files.del out }, .rejected 500 "Failed to assemble file")
      | .ok files =>
        let st1 := DeleteChunkedUpload { st with files := files } uploadID
        let ref : FileRef :=
          { FilePath := out, FileName := uploadData.FileName, CreatedAt := now }
        (SetFileRef st1 fileToken ref, .assembled fileToken uploadData.FileName)

/-- One accepted or refused chunk request: the index, the bytes and the time. -/
structure ChunkSubmission where
  index : Int
  chunk : Bytes
  now : Int
deriving DecidableEq, Repr

/-- The state after a sequence of chunk requests for one upload. -/
def submitChunks (st : UploadState) (uploadID : String) (subs : List ChunkSubmission) :
    UploadState :=
  subs.foldl (fun s sub => (handleUploadChunk s uploadID sub.index sub.chunk sub.now).1) st

/-- The value of a string of decimal digits (the inverse of `%04d` on the chunk
indices). -/
def readDecimal (s : String) : Nat :=
  s.data.foldl (fun acc c => acc * 10 + (c.toNat - '0'.toNat)) 0

/-- No upload, no file reference, no file. -/
def noUploads : UploadState := ⟨GoMap.empty, GoMap.empty, GoMap.empty⟩

/-- Scenario 5 of the specification: an upload of 4 chunks initialised as `U`,
then the chunks 0, 1 and 2 (and chunk 1 once more). -/
def threeOfFour : UploadState :=
  submitChunks (handleUploadInit noUploads ⟨"a.mp4", "10", 4⟩ "U" 0).1 "U"
    [⟨0, [1, 2], 1⟩, ⟨1, [3], 2⟩, ⟨2, [4, 5, 6], 3⟩, ⟨1, [7], 4⟩]

/-! ## URL validation (`internal/util/validation.go`) -/

/-- The constant `config.MaxURLLength`. -/
def MaxURLLength : Nat := 2048

/-- The result type `URLValidation`. -/
structure URLValidation where
  Valid : Bool
  Error : String
deriving DecidableEq, Repr

/-- A `net.IP` value: the four bytes of an address that has a 4-byte form
(`To4` is not nil), or the 128-bit number of any other 16-byte address. -/
inductive IP where
  | v4 (a b c d : Nat)
  | v6 (addr : Nat)
deriving DecidableEq, Repr

/-- The address as one number, most significant byte first. -/
def IP.value : IP → Nat
  | .v4 a b c d => ((a * 256 + b) * 256 + c) * 256 + d
  | .v6 addr => addr

/-- A `net.IPNet` as `net.ParseCIDR` builds it: the network number and the number
of leading one bits of the mask. -/
structure IPNet where
  IP : IP
  Ones : Nat
deriving DecidableEq, Repr

/-- The method `(*net.IPNet).Contains` of the Go library: the address is brought
to its 4-byte form when it has one, an address of another length than the network
number is outside, and otherwise the bytes are compared under the mask, that is,
the leading `Ones` bits are compared. -/
def IPNet.Contains (n : IPNet) (ip : Yoink.IP) : Bool :=
  match n.IP, ip with
  | .v4 _ _ _ _, .v4 _ _ _ _ =>
    decide (n.IP.value / 2 ^ (32 - n.Ones) = ip.value / 2 ^ (32 - n.Ones))
  | .v6 _, .v6 _ =>
    decide (n.IP.value / 2 ^ (128 - n.Ones) = ip.value / 2 ^ (128 - n.Ones))
  | _, _ => false

/-- The list `privateNets` that `init` parses from the CIDR strings
`127.0.0.0/8`, `10.0.0.0/8`, `172.16.0.0/12`, `192.168.0.0/16`, `0.0.0.0/8`,
`169.254.0.0/16`, `::1/128`, `fe80::/10` and `fc00::/7`. -/
def privateNets : List IPNet :=
  [⟨.v4 127 0 0 0, 8⟩, ⟨.v4 10 0 0 0, 8⟩, ⟨.v4 172 16 0 0, 12⟩, ⟨.v4 192 168 0 0, 16⟩,
   ⟨.v4 0 0 0 0, 8⟩, ⟨.v4 169 254 0 0, 16⟩, ⟨.v6 1, 128⟩, ⟨.v6 (0xfe80 * 2 ^ 112), 10⟩,
   ⟨.v6 (0xfc00 * 2 ^ 112), 7⟩]

def isPrivateIP (ip : IP) : Bool :=
  privateNets.any (fun network => network.Contains ip)

/-- What `url.Parse` returns, as far as `ValidateURL` reads it: the field `Scheme`
and the value of the method `Hostname()`. -/
structure ParsedURL where
  Scheme : String
  Hostname : String
deriving DecidableEq, Repr

/-- The functions of the Go library that `ValidateURL` calls: `url.Parse` (`none`
for an error), `strings.ToLower`, `net.ParseIP` (`none` for nil) and
`net.LookupIP` (`none` for an error). -/
structure NetLib where
  Parse : String → Option ParsedURL
  ToLower : String → String
  ParseIP : String → Option IP
  LookupIP : String → Option (List IP)

/-- The call `strings.Trim(hostname, "[]")`: leading and trailing brackets are
cut off. -/
def trimBrackets (s : String) : String :=
  String.mk (((s.data.dropWhile (fun c => c = '[' ∨ c = ']')).reverse.dropWhile
    (fun c => c = '[' ∨ c = ']')).reverse)

def isPrivateHost (lib : NetLib) (hostname : String) : Bool :=
  if hostname = "" ∨ hostname = "localhost" then true
  else
    let ip :=
      match lib.ParseIP hostname with
      | some ip => some ip
      | none => lib.ParseIP (trimBrackets hostname)
    match ip with
    | some ip => isPrivateIP ip
    | none =>
      match lib.LookupIP hostname with
      | none => true
      | some ips => ips.any isPrivateIP

/-- The function `ValidateURL`; `len(rawURL)` is the number of bytes of the
string. -/
def ValidateURL (lib : NetLib) (rawURL : String) : URLValidation :=
  if rawURL = "" then ⟨false, "URL is required"⟩
  else if rawURL.utf8ByteSize > MaxURLLength then ⟨false, "URL is too long"⟩
  else
    match lib.Parse rawURL with
    | none => ⟨false, "Invalid URL format"⟩
    | some parsed =>
      if parsed.Scheme ≠ "http" ∧ parsed.Scheme ≠ "https" then
        ⟨false, "Only HTTP/HTTPS URLs are allowed"⟩
      else
        let hostname := lib.ToLower parsed.Hostname
        if isPrivateHost lib hostname then ⟨false, "Private/local URLs are not allowed"⟩
        else ⟨true, ""⟩

/-- The answers of the Go library on the URLs of the scenarios: URLs under
`http://10.0.0.1/` and under `https://example.com/`, the latter host resolving to
one public address. -/
def sampleLib : NetLib where
  Parse := fun s =>
    if "http://10.0.0.1/".data.isPrefixOf s.data then some ⟨"http", "10.0.0.1"⟩
    else if "https://example.com/".data.isPrefixOf s.data then some ⟨"https", "example.com"⟩
    else none
  ToLower := fun s => s
  ParseIP := fun h => if h = "10.0.0.1" then some (.v4 10 0 0 1) else none
  LookupIP := fun h => if h = "example.com" then some [.v4 93 184 216 34] else none

/-- A URL under the given base, filled up with the letter `a` to `n` characters
in all. -/
def paddedURL (base : String) (n : Nat) : String :=
  base ++ String.mk (List.replicate (n - base.length) 'a')

/-! ## The convert endpoints and their validation -/

/-- The list `config.AllowedFormats`. -/
def AllowedFormats : List String :=
  ["mp4", "webm", "mkv", "mov", "mp3", "m4a", "opus", "wav", "flac"]

/-- The list `config.AllowedQualities`. -/
def AllowedQualities : List String := ["high", "medium", "low"]

/-- The list `config.AllowedReencodes`. -/
def AllowedReencodes : List String := ["auto", "always", "never"]

/-- The list `config.AllowedCropRatios`. -/
def AllowedCropRatios : List String := ["16:9", "9:16", "1:1", "4:3", "4:5"]

/-- The constant `config.MaxSegments`. -/
def MaxSegments : Nat := 20

/-- The function `config.Contains`. -/
def Contains : List String → String → Bool
  | [], _ => false
  | s :: rest, val => if s = val then true else Contains rest val

/-- The helpers `defaultStr` and `formValueOr`: the fallback stands in for an
empty value. -/
def defaultStr (s fallback : String) : String :=
  if s = "" then fallback else s

/-- The directory `config.TempDirs["convert"]`. -/
def convertDir : String := "/var/tmp/yoink/convert"

/-- How far `handleConvert` has come when the time parameters are about to be
checked and ffmpeg to be run: the state, the response if the request was turned
away, and the output path if one was built. -/
structure ConvertStart where
  state : State
  response : Option Response
  outputPath : Option String

/-- The handler `handleConvert` for `POST /api/convert`, from the reading of the
form (once `saveUploadedFile` stored the upload) to the registration of the job;
`format`, `clientID` and `cropRatio` are the form values as sent, `convertID` the
fresh identifier. -/
def handleConvert (s : State) (formFormat clientID cropRatio convertID : String)
    (disk : Option ℚ) (now : Int) : ConvertStart :=
  let format := defaultStr formFormat "mp4"
  if clientID ≠ "" ∧ GetClientJobCount s clientID ≥ MaxJobsPerClient then
    ⟨s, some ⟨429, false, tooManyActiveJobs⟩, none⟩
  else if cropRatio ≠ "" ∧ Contains AllowedCropRatios cropRatio = false then
    ⟨s, some ⟨400, false,
      "Invalid crop ratio. Allowed: " ++ ", ".intercalate AllowedCropRatios⟩, none⟩
  else
    let convertCheck := CanStartJob s "convert" disk
    if convertCheck.2.OK = false then
      ⟨convertCheck.1, some ⟨503, false, convertCheck.2.Reason⟩, none⟩
    else
      let outputPath := convertDir ++ "/" ++ (convertID ++ "-converted." ++ format)
      let s1 :=
        if clientID ≠ "" then
          LinkJobToClient (RegisterClient convertCheck.1 clientID now) convertID clientID now
        else convertCheck.1
      ⟨s1, none, some outputPath⟩

/-- The type `convertSegment`. -/
structure convertSegment where
  Start : ℚ
  End : ℚ

/-- The options of the JSON body of `POST /api/convert-chunked` that are
validated. -/
structure ConvertChunkedBody where
  Format : String := ""
  Quality : String := ""
  Reencode : String := ""
  CropRatio : String := ""
  CropX : Option Int := none
  CropY : Option Int := none
  CropW : Option Int := none
  CropH : Option Int := none
  Segments : List convertSegment := []

/-- The raw crop check of `handleConvertChunked`: made only when all four values
are present. -/
def rawCropError (body : ConvertChunkedBody) : Option String :=
  match body.CropX, body.CropY, body.CropW, body.CropH with
  | some cx, some cy, some cw, some ch =>
    if cx < 0 ∨ cy < 0 ∨ cw ≤ 0 ∨ ch ≤ 0 then
      some "Invalid crop parameters: values must be positive"
    else if cw % 2 ≠ 0 ∨ ch % 2 ≠ 0 then
      some "Invalid crop parameters: width and height must be even"
    else none
  | _, _, _, _ => none

/-- The validation of the options in `handleConvertChunked`, in the order of the
code: the 400 response of the first check that fails, or `none`. -/
def convertChunkedValidation (body : ConvertChunkedBody) : Option Response :=
  let format := defaultStr body.Format "mp4"
  let quality := defaultStr body.Quality "medium"
  let reencode := defaultStr body.Reencode "auto"
  if Contains AllowedFormats format = false then
    some ⟨400, false, "Invalid format. Allowed: " ++ ", ".intercalate AllowedFormats⟩
  else if Contains AllowedReencodes reencode = false then
    some ⟨400, false,
      "Invalid reencode option. Allowed: " ++ ", ".intercalate AllowedReencodes⟩
  else if Contains AllowedQualities quality = false then
    some ⟨400, false, "Invalid quality. Allowed: " ++ ", ".intercalate AllowedQualities⟩
  else if body.CropRatio ≠ "" ∧ Contains AllowedCropRatios body.CropRatio = false then
    some ⟨400, false,
      "Invalid crop ratio. Allowed: " ++ ", ".intercalate AllowedCropRatios⟩
  else
    match rawCropError body with
    | some msg => some ⟨400, false, msg⟩
    | none =>
      if body.Segments.length > MaxSegments then
        some ⟨400, false, "Too many segments (max " ++ toString MaxSegments ++ ")"⟩
      else if body.Segments.any (fun seg => decide (seg.End ≤ seg.Start)) then
        some ⟨400, false, "Invalid segment: each must have numeric start < end"⟩
      else none

/-- The handler `handleConvertChunked` for `POST /api/convert-chunked` with its
validation, once the file path was resolved: the 400 response of the validation,
or `none` when the job was created and `handleConvertAsync` started. -/
def handleConvertChunkedRequest (s : State) (body : ConvertChunkedBody)
    (clientID jobID : String) (disk : Option ℚ) (now : Int) : State × Option Response :=
  match convertChunkedValidation body with
  | some response => (s, some response)
  | none => ((handleConvertChunked s clientID jobID disk now).1, none)

/-! ## Error exits and alerts -/

/-- The state that `alerts.send` reads and writes: the settings
`config.DiscordAlerts` and `config.DiscordWebhookURL` and the map
`categoryCooldowns`. -/
structure AlertState where
  DiscordAlerts : Bool
  DiscordWebhookURL : String
  categoryCooldowns : GoMap Int

/-- The function `send` of `internal/alerts`, as far as the decision to post goes:
the new alert state, and whether the webhook is posted to. -/
def send (a : AlertState) (category : String) (cooldown now : Int) : AlertState × Bool :=
  if a.DiscordAlerts = false ∨ a.DiscordWebhookURL = "" then (a, false)
  else
    let coolingDown : Bool :=
      decide (cooldown > 0) &&
        (match a.categoryCooldowns.get? category with
          | some last => decide (now - last < cooldown)
          | none => false)
    if coolingDown then (a, false)
    else ({ a with categoryCooldowns := a.categoryCooldowns.set category now }, true)

/-- The alert `alerts.DownloadFailed`. -/
def DownloadFailed (a : AlertState) (now : Int) : AlertState × Bool :=
  send a "download" (5 * Second) now

/-- The alert `alerts.CompressionFailed`. -/
def CompressionFailed (a : AlertState) (now : Int) : AlertState × Bool :=
  send a "compression" (5 * Second) now

/-- What an error exit has done: the state and the alert state it leaves, whether
it posted an alert, whether it sent an `error` progress frame, the HTTP status of
its response and the text of the Go error it was called with. -/
structure ErrorExit where
  state : State
  alerts : AlertState
  alertSent : Bool
  errorFrame : Bool
  status : Nat
  err : String

/-- The whole of `handleDownloadError`: the alert, the `error` progress frame,
the release of the job and the response 500. -/
def handleDownloadErrorExit (s : State) (a : AlertState) (downloadID err : String)
    (now : Int) : ErrorExit :=
  let alert := DownloadFailed a now
  ⟨handleDownloadError s downloadID now, alert.1, alert.2, true, 500, err⟩

/-- The end of `handleDownload`, after the processing of the file: the error exit
taken when the output file is missing or the job is cancelled, or `none` when the
file is streamed. -/
def handleDownloadFinish (s : State) (a : AlertState) (downloadID : String)
    (processInfo : ProcessInfo) (outputExists : Bool) (now : Int) : Option ErrorExit :=
  if outputExists = false then
    some (handleDownloadErrorExit s a downloadID
      "Processing failed - output file not created" now)
  else if processInfo.cancelled then
    some (handleDownloadErrorExit s a downloadID "Download cancelled" now)
  else none

/-- The return of `runCrfEncode`, given what `cmd.Wait()` returned. -/
def runCrfEncode (processInfo : ProcessInfo) (waitErr : Option String) : Option String :=
  if processInfo.cancelled then some "Cancelled" else waitErr

/-- The function `compressError`: the alert, the release of the job, the `error`
progress frame unless the job is cancelled, and the response 500. -/
def compressError (s : State) (a : AlertState) (compressID : String)
    (processInfo : ProcessInfo) (err : String) (now : Int) : ErrorExit :=
  let alert := CompressionFailed a now
  ⟨(ReleaseJob s compressID now).1, alert.1, alert.2, !processInfo.cancelled, 500, err⟩

/-- The quality branch of `handleCompress` once the encoder has returned: the
error exit, or `none` when the encoding succeeded. -/
def handleCompressEncoded (s : State) (a : AlertState) (compressID : String)
    (processInfo : ProcessInfo) (waitErr : Option String) (now : Int) : Option ErrorExit :=
  match runCrfEncode processInfo waitErr with
  | some err => some (compressError s a compressID processInfo err now)
  | none => none

/-- Alerts switched on, none sent yet. -/
def alertsOn : AlertState := ⟨true, "https://discord.example/hook", GoMap.empty⟩

/-- Client `C` runs the download `J` and, beside it, the compression `K`, which
was admitted, linked and registered as `handleCompressAsync` does. -/
def downloadAndCompress : State :=
  let admitted := (CanStartJob downloadRunning "compress" (some 10)).1
  SetProcess (LinkJobToClient (RegisterClient admitted "C" 0) "K" "C" 0) "K"
    { JobType := "compress" }

/-! ## The progress stream and the pending jobs -/

/-- The method `State.UpdatePendingJob`. -/
def UpdatePendingJob (s : State) (jobID : String) (progress : ℚ) (status : String) : State :=
  match s.pendingJobs.get? jobID with
  | some job =>
    let job1 := { job with Progress := progress }
    let job2 := if status ≠ "" then { job1 with Status := status } else job1
    { s with pendingJobs := s.pendingJobs.set jobID job2 }
  | none => s

/-- The struct `ResumedJob`, without the response writer. -/
structure ResumedJob where
  Progress : ℚ := 0
  ClientReconnected : Bool := false
deriving DecidableEq

/-- The registry `resumedJobs` of `State`; `init()` makes it empty. -/
abbrev ResumedJobs := GoMap ResumedJob

/-- The method `State.GetResumedJob`. -/
def GetResumedJob (resumedJobs : ResumedJobs) (id : String) : Option ResumedJob :=
  resumedJobs.get? id

/-- The method `State.DeleteResumedJob`. -/
def DeleteResumedJob (resumedJobs : ResumedJobs) (id : String) : ResumedJobs :=
  resumedJobs.del id

/-- The JSON object of a frame of the progress stream: the stage, the message
and, when the key is present, the progress. -/
structure ProgressFrame where
  stage : String
  message : String
  progress : Option ℚ
deriving DecidableEq

/-- The handler `handleProgress` for `GET /api/progress/{id}`, up to its first
frame: the registry of resumed jobs as it leaves it, and the frame. -/
def handleProgress (resumedJobs : ResumedJobs) (id : String) : ResumedJobs × ProgressFrame :=
  match GetResumedJob resumedJobs id with
  | some resumedJob =>
    (resumedJobs.set id { resumedJob with ClientReconnected := true },
      ⟨"resuming", "Reconnected! Resuming download...", some resumedJob.Progress⟩)
  | none => (resumedJobs, ⟨"connected", "Connected to progress stream", none⟩)

/-- The registries of resumed jobs that the program can reach: the repository
calls nothing on `resumedJobs` but `init()`, `GetResumedJob` (inside
`handleProgress`) and `DeleteResumedJob`. -/
inductive ResumedReachable : ResumedJobs → Prop
  | start : ResumedReachable GoMap.empty
  | progress (r : ResumedJobs) (id : String) :
      ResumedReachable r → ResumedReachable (handleProgress r id).1
  | delete (r : ResumedJobs) (id : String) :
      ResumedReachable r → ResumedReachable (DeleteResumedJob r id)

/-- A download `J` registered as pending and updated to 40 percent. -/
def pendingAtForty : State :=
  let job : PendingJob :=
    { Type_ := "download", URL := "https://example.com/v", Status := "starting" }
  UpdatePendingJob (RegisterPendingJob init "J" job 0) "J" 40 "downloading"

/-! ## The tunnel fallback (`internal/services/cobalt.go`) -/

/-- The list `config.CobaltAPIs`. -/
def CobaltAPIs : List String :=
  ["https://nuko-c.meowing.de", "https://subito-c.meowing.de", "https://cessi-c.meowing.de"]

/-- The directory `config.TempDirs["download"]`. -/
def downloadDir : String := "/var/tmp/yoink/downloads"

/-- The struct `CobaltDownloadResult`. -/
structure CobaltDownloadResult where
  FilePath : String
  Ext : String
  DownloadURL : String
deriving DecidableEq, Repr

/-- The fields of `CobaltDownloadOpts` that the retry loop reads. -/
structure CobaltDownloadOpts where
  OutputDir : String := ""
  MaxRetries : Int := 0

/-- How the read loop of one attempt ends: at the end of the body, on a read
error, or on a cancelled context. -/
inductive ReadEnd where
  | eof
  | failed (err : String)
  | cancelled

/-- What one attempt of `DownloadViaCobalt` meets, step by step: whether the
context is already cancelled, the error of `cobaltPost` or the download URL
taken from its answer (empty when there is none), the size of the `.part`
file, the error of the file request or its HTTP status, the error of
`os.OpenFile`, and the end of the read loop. -/
structure CobaltAttempt where
  ctxErr : Bool := false
  post : Except String String := .ok "https://tunnel.example/file"
  startByte : Int := 0
  fileResp : Except String Int := .ok 200
  openErr : Option String := none
  read : ReadEnd := .eof

/-- Where one attempt leaves the loops: a `return`, or a `continue` with the
value of `lastErr`. -/
inductive CobaltStep where
  | returned (r : Except String CobaltDownloadResult)
  | next (lastErr : Option String)

/-- The body of the inner loop of `DownloadViaCobalt`, for one endpoint. -/
def cobaltAttempt (outputPath ext : String) (lastErr : Option String) (a : CobaltAttempt) :
    CobaltStep :=
  if a.ctxErr then .returned (.error "Cancelled")
  else
    match a.post with
    | .error err =>
      if err = "Cancelled" then .returned (.error err) else .next (some err)
    | .ok downloadURL =>
      if downloadURL = "" then .next (some "No download URL from Cobalt")
      else
        match a.fileResp with
        | .error err => .next (some err)
        | .ok status =>
          if status ≠ 200 ∧ status ≠ 206 then
            if status = 416 ∧ a.startByte > 0 then
              .returned (.ok ⟨outputPath, ext, downloadURL⟩)
            else .next (some ("File download failed: HTTP " ++ toString status))
          else
            match a.openErr with
            | some err => .next (some err)
            | none =>
              match a.read with
              | .cancelled => .returned (.error "Cancelled")
              | .failed readErr => .next (some readErr)
              | .eof =>
                match lastErr with
                | some err => .next (some err)
                | none => .returned (.ok ⟨outputPath, ext, downloadURL⟩)

/-- The inner loop `for _, apiURL := range config.CobaltAPIs`, over the attempts
of one round. -/
def cobaltRound (outputPath ext : String) : Option String → List CobaltAttempt → CobaltStep
  | lastErr, [] => .next lastErr
  | lastErr, a :: rest =>
    match cobaltAttempt outputPath ext lastErr a with
    | .returned r => .returned r
    | .next err => cobaltRound outputPath ext err rest

/-- The outer loop `for retry := 0; retry < opts.MaxRetries; retry++` over the
rounds still to run, and the return after it; `world retry apiURL` is what the
attempt on `apiURL` in round `retry` meets, `waitCancelled retry` whether the
context is cancelled during the pause after round `retry`. -/
def cobaltRetryLoop (world : Nat → String → CobaltAttempt) (waitCancelled : Nat → Bool)
    (outputPath ext : String) (MaxRetries : Int) :
    List Nat → Option String → Except String CobaltDownloadResult
  | [], lastErr =>
    match lastErr with
    | some err => .error err
    | none => .error "All Cobalt instances failed"
  | retry :: rest, lastErr =>
    match cobaltRound outputPath ext lastErr (CobaltAPIs.map (world retry)) with
    | .returned r => r
    | .next err =>
      if (retry : Int) < MaxRetries - 1 ∧ waitCancelled retry = true then .error "Cancelled"
      else cobaltRetryLoop world waitCancelled outputPath ext MaxRetries rest err

/-- The function `DownloadViaCobalt`. -/
def DownloadViaCobalt (world : Nat → String → CobaltAttempt) (waitCancelled : Nat → Bool)
    (jobID : String) (isAudio : Bool) (opts : CobaltDownloadOpts) :
    Except String CobaltDownloadResult :=
  let OutputDir := if opts.OutputDir = "" then downloadDir else opts.OutputDir
  let MaxRetries := if opts.MaxRetries ≤ 0 then 3 else opts.MaxRetries
  let ext := if isAudio then "mp3" else "mp4"
  let outputPath := OutputDir ++ "/" ++ (jobID ++ "-cobalt." ++ ext)
  cobaltRetryLoop world waitCancelled outputPath ext MaxRetries
    (List.range MaxRetries.toNat) none

/-- The tunnels as they answer in the scenario: every endpoint answers
`HTTP 500`, until in the third round the last endpoint gives a direct URL whose
file downloads to the end (no `.part` file exists before). -/
def lastAttemptSucceeds (retry : Nat) (apiURL : String) : CobaltAttempt :=
  if retry = 2 ∧ apiURL = "https://cessi-c.meowing.de" then { }
  else { post := .error "HTTP 500" }

/-! ## The playlist pipeline (`routes/playlist.go`, `services/downloader.go`) -/

/-- The constant `config.MaxPlaylistVideos`. -/
def MaxPlaylistVideos : Int := 1000

/-- The struct `PlaylistEntry`. -/
structure PlaylistEntry where
  Title : String := ""
  URL : String := ""
  ID : String := ""
deriving DecidableEq, Repr

/-- The struct `rawPlaylist` that the output of the downloader is parsed into;
`PlaylistCount` is 0 when the key `playlist_count` is absent. -/
structure rawPlaylist where
  Title : String := ""
  Entries : List PlaylistEntry := []
  PlaylistCount : Int := 0

/-- The struct `PlaylistInfo`. -/
structure PlaylistInfo where
  Title : String
  Entries : List PlaylistEntry
  Count : Int

/-- The helper `OrDefault`. -/
def OrDefault (s fallback : String) : String :=
  if s = "" then fallback else s

/-- The end of `GetPlaylistInfo`, once the output of the downloader is parsed. -/
def GetPlaylistInfo (raw : rawPlaylist) : PlaylistInfo :=
  let count := if raw.PlaylistCount = 0 then (raw.Entries.length : Int) else raw.PlaylistCount
  ⟨OrDefault raw.Title "Playlist", raw.Entries, count⟩

/-- The index `startIdx` that `processPlaylistAsync` computes from `resumeFrom`
and the number of entries. -/
def playlistStartIdx (resumeFrom n : Int) : Int :=
  let startIdx := resumeFrom - 1
  let startIdx := if startIdx ≥ n then n - 1 else startIdx
  if startIdx < 0 then 0 else startIdx

/-- The per-video loop `for i := startIdx; i < len(playlistInfo.Entries); i++`
of `processPlaylistAsync`, over the indices still to visit: the error of the
cancelled exit, or the entries that the loop has gone through, each with its
`videoNum`; `flags i` is the `ProcessInfo` as iteration `i` finds it.  What the
download of an entry returns is left out. -/
def playlistLoop (entries : List PlaylistEntry) (flags : Int → ProcessInfo) :
    List Int → List (Int × PlaylistEntry) → Except String (List (Int × PlaylistEntry))
  | [], visited => .ok visited
  | i :: rest, visited =>
    if (flags i).cancelled then .error "Download cancelled"
    else if (flags i).finishEarly then .ok visited
    else
      match entries.get? i.toNat with
      | some entry => playlistLoop entries flags rest (visited ++ [(i + 1, entry)])
      | none => playlistLoop entries flags rest visited

/-- The function `processPlaylistAsync` from the size check to the end of the
per-video loop. -/
def processPlaylistAsync (playlistInfo : PlaylistInfo) (resumeFrom : Int)
    (flags : Int → ProcessInfo) : Except String (List (Int × PlaylistEntry)) :=
  if playlistInfo.Count > MaxPlaylistVideos then
    .error ("Playlist too large. Maximum " ++ toString MaxPlaylistVideos
      ++ " videos allowed. This playlist has " ++ toString playlistInfo.Count ++ " videos.")
  else
    let n : Int := playlistInfo.Entries.length
    let startIdx := playlistStartIdx resumeFrom n
    playlistLoop playlistInfo.Entries flags
      ((List.range (n - startIdx).toNat).map (fun j : Nat => startIdx + j)) []

/-- The playlist pipeline from the request on: `handlePlaylistStart` raises a
`resumeFrom` below 1 to 1 and starts `processPlaylistAsync` on the listing that
`GetPlaylistInfo` returns. -/
def playlistPipeline (raw : rawPlaylist) (ResumeFrom : Int) (flags : Int → ProcessInfo) :
    Except String (List (Int × PlaylistEntry)) :=
  let resumeFrom := if ResumeFrom < 1 then 1 else ResumeFrom
  processPlaylistAsync (GetPlaylistInfo raw) resumeFrom flags

/-- A run in which the job is neither cancelled nor asked to finish early. -/
def noFlags (_ : Int) : ProcessInfo := { JobType := "playlist" }

/-- A listing of `n` entries whose `playlist_count` is `count`. -/
def listingOf (n : Nat) (count : Int) : rawPlaylist :=
  { Title := "mix", Entries := List.replicate n { ID := "abc" }, PlaylistCount := count }

/-- A listing of three videos. -/
def threeVideos : rawPlaylist :=
  { Title := "three", Entries := [{ ID := "a" }, { ID := "b" }, { ID := "c" }] }

/-! ## The error mapper (`internal/util/errors.go`) -/

/-- The function `strings.Contains` of the Go library: `substr` occurs in `s`. -/
def stringsContains (s substr : String) : Bool :=
  s.data.tails.any (fun t => substr.data.isPrefixOf t)

/-- The function `ToUserError`; `ToLower` is `strings.ToLower` of the Go
library. -/
def ToUserError (ToLower : String → String) (message : String) : String :=
  let msg := ToLower message
  if stringsContains msg "cancelled" || stringsContains msg "canceled" then
    "Download cancelled"
  else if stringsContains msg "content.video.unavailable"
      || stringsContains msg "video unavailable" || stringsContains msg "private video"
      || stringsContains msg "this content is private" then
    "This video is unavailable or has been removed"
  else if stringsContains msg "content.video.live" || stringsContains msg "live stream" then
    "Live streams can't be downloaded yet"
  else if stringsContains msg "content.video.age" || stringsContains msg "age-restricted"
      || stringsContains msg "age restricted" then
    "This video is age-restricted"
  else if stringsContains msg "content.too_long" || stringsContains msg "too_long" then
    "Video is too long (3+ hours)"
  else if stringsContains msg "api.youtube.login" || stringsContains msg "youtube.login" then
    "YouTube requires login for this video"
  else if stringsContains msg "api.rate_limited" then
    "Rate limited, try again in a minute"
  else if stringsContains msg "api.link.unsupported" then
    "This link type isn't supported"
  else if stringsContains msg "sign in to confirm"
      || stringsContains msg "sign in to verify" then
    "YouTube is blocking this request, try again later"
  else if stringsContains msg "geo restricted" || stringsContains msg "geo-restricted"
      || stringsContains msg "not available in your country" then
    "This video isn't available in the server's region"
  else if stringsContains msg "copyright" then
    "This video was removed for copyright"
  else if stringsContains msg "members only" || stringsContains msg "members-only" then
    "This is a members-only video"
  else if stringsContains msg "premium" then
    "This video requires YouTube Premium"
  else if stringsContains msg "http error 403" || stringsContains msg "403 forbidden" then
    "Access denied, the site is blocking downloads"
  else if stringsContains msg "http error 404" || stringsContains msg "404 not found" then
    "Video not found, it may have been deleted"
  else if stringsContains msg "unsupported url" then
    "This website isn't supported"
  else if stringsContains msg "no video formats"
      || stringsContains msg "requested format not available" then
    "No downloadable formats found"
  else if stringsContains msg "rate" && !stringsContains msg "format" then
    "Rate limited, please wait and try again"
  else if stringsContains msg "econnreset" || stringsContains msg "fetch failed"
      || (stringsContains msg "connection" && !stringsContains msg "connected") then
    "Connection dropped, try again"
  else if stringsContains msg "etimedout" || stringsContains msg "timed out"
      || stringsContains msg "timeout" then
    "Connection timed out, try again"
  else if stringsContains msg "enotfound" || stringsContains msg "dns" then
    "Couldn't reach the server, try again"
  else if stringsContains msg "processing failed"
      || stringsContains msg "encoding failed" then
    "Processing failed"
  else if stringsContains msg "download interrupted" then
    "Download interrupted"
  else if stringsContains msg "no videos were successfully downloaded" then
    "No videos were successfully downloaded"
  else if stringsContains msg "downloaded file not found"
      || stringsContains msg "file not found" then
    "Download failed"
  else if stringsContains msg "playlist too large" then
    message
  else if stringsContains msg "too many active jobs" then
    message
  else "Download failed"

/-- The patterns of the branches of `ToUserError` that come before the two
branches returning the message itself, tested on the lower-cased message. -/
def matchesEarlierPattern (msg : String) : Bool :=
  List.any
    [(stringsContains msg "cancelled" || stringsContains msg "canceled"),
     (stringsContains msg "content.video.unavailable" || stringsContains msg "video unavailable"
       || stringsContains msg "private video" || stringsContains msg "this content is private"),
     (stringsContains msg "content.video.live" || stringsContains msg "live stream"),
     (stringsContains msg "content.video.age" || stringsContains msg "age-restricted"
       || stringsContains msg "age restricted"),
     (stringsContains msg "content.too_long" || stringsContains msg "too_long"),
     (stringsContains msg "api.youtube.login" || stringsContains msg "youtube.login"),
     (stringsContains msg "api.rate_limited"),
     (stringsContains msg "api.link.unsupported"),
     (stringsContains msg "sign in to confirm" || stringsContains msg "sign in to verify"),
     (stringsContains msg "geo restricted" || stringsContains msg "geo-restricted"
       || stringsContains msg "not available in your country"),
     (stringsContains msg "copyright"),
     (stringsContains msg "members only" || stringsContains msg "members-only"),
     (stringsContains msg "premium"),
     (stringsContains msg "http error 403" || stringsContains msg "403 forbidden"),
     (stringsContains msg "http error 404" || stringsContains msg "404 not found"),
     (stringsContains msg "unsupported url"),
     (stringsContains msg "no video formats" || stringsContains msg "requested format not available"),
     (stringsContains msg "rate" && !stringsContains msg "format"),
     (stringsContains msg "econnreset" || stringsContains msg "fetch failed"
       || (stringsContains msg "connection" && !stringsContains msg "connected")),
     (stringsContains msg "etimedout" || stringsContains msg "timed out"
       || stringsContains msg "timeout"),
     (stringsContains msg "enotfound" || stringsContains msg "dns"),
     (stringsContains msg "processing failed" || stringsContains msg "encoding failed"),
     (stringsContains msg "download interrupted"),
     (stringsContains msg "no videos were successfully downloaded"),
     (stringsContains msg "downloaded file not found" || stringsContains msg "file not found")]
    id

/-- The lower-cased messages that `ToUserError` hands back as they came: those
that match no earlier pattern and contain `playlist too large` or
`too many active jobs`. -/
def passesThrough (msg : String) : Bool :=
  !matchesEarlierPattern msg
    && (stringsContains msg "playlist too large" || stringsContains msg "too many active jobs")

/-- What `strings.ToLower` does to a string of ASCII characters. -/
def asciiToLower (s : String) : String :=
  String.mk (s.data.map Char.toLower)

/-! ## Encoding parameters (`internal/util/ffmpeg.go`) -/

/-- The map `config.BitrateThresholds`, read at a height (0 for a missing key). -/
def BitrateThresholds (height : Int) : Int :=
  if height = 1080 then 2500
  else if height = 720 then 1500
  else if height = 480 then 800
  else if height = 360 then 400
  else 0

/-- The struct `ResolutionResult`. -/
structure ResolutionResult where
  Width : Int
  Height : Int
  NeedsScale : Bool
deriving DecidableEq, Repr

/-- A row of the table `resolutions` of `SelectResolution`. -/
structure resolutionRow where
  W : Int
  H : Int
  MinBitrate : Int
deriving DecidableEq, Repr

/-- The table `resolutions` of `SelectResolution`. -/
def resolutions : List resolutionRow :=
  [⟨1920, 1080, BitrateThresholds 1080⟩, ⟨1280, 720, BitrateThresholds 720⟩,
   ⟨854, 480, BitrateThresholds 480⟩, ⟨640, 360, BitrateThresholds 360⟩]

/-- The first loop of `SelectResolution` over the rows still to try. -/
def selectFitting (width height availableBitrateK : Int) :
    List resolutionRow → Option ResolutionResult
  | [] => none
  | r :: rest =>
    if width < r.W ∧ height < r.H then selectFitting width height availableBitrateK rest
    else if availableBitrateK ≥ r.MinBitrate then some ⟨r.W, r.H, decide (width > r.W)⟩
    else selectFitting width height availableBitrateK rest

/-- The second loop of `SelectResolution` over the rows still to try. -/
def selectByBitrate (width availableBitrateK : Int) :
    List resolutionRow → Option ResolutionResult
  | [] => none
  | r :: rest =>
    if availableBitrateK ≥ r.MinBitrate then some ⟨r.W, r.H, decide (width > r.W)⟩
    else selectByBitrate width availableBitrateK rest

/-- The function `SelectResolution`. -/
def SelectResolution (width height availableBitrateK : Int) : ResolutionResult :=
  match selectFitting width height availableBitrateK resolutions with
  | some result => result
  | none =>
    match selectByBitrate width availableBitrateK resolutions with
    | some result => result
    | none => ⟨640, 360, decide (width > 640)⟩

/-! ## Float64 arithmetic

Go's `float64` is IEEE 754 binary64.  Each operation of the source is one
operation here, rounded on its own to nearest with ties to even, as the amd64
build computes it; no two operations are fused. -/

/-- A value of the type `float64` of Go (IEEE 754 binary64): not a number, an
infinity, or the finite value `(-1)^neg * m * 2^e`.  Every finite `float64` has
this form with `m < 2^53` and `-1074 ≤ e ≤ 971`; the zero with `neg` set is the
negative zero. -/
inductive Float64 where
  | nan
  | inf (neg : Bool)
  | fin (neg : Bool) (m : Nat) (e : Int)
deriving DecidableEq, Repr

/-- The number of binary digits of `n`, found in at most `fuel` halvings. -/
def bitLength : Nat → Nat → Nat
  | 0, _ => 0
  | fuel + 1, n => if n = 0 then 0 else bitLength fuel (n / 2) + 1

/-- The integer `⌊log2 (n / d)⌋`, for positive `n` and `d`: the difference `k` of
the numbers of binary digits, or one less. -/
def floorLog2 (n d : Nat) : Int :=
  let k : Int := (bitLength n n : Int) - (bitLength d d : Int)
  if k ≥ 0 then (if d * 2 ^ k.toNat ≤ n then k else k - 1)
  else (if d ≤ n * 2 ^ (-k).toNat then k else k - 1)

/-- The rounding of IEEE 754 binary64 arithmetic, to nearest with ties to even:
the `float64` value for the exact result `(-1)^neg * (n / d) * 2^e` of an
operation (`d` positive).  The last place has the exponent `p`, 52 below the
leading bit and never below -1074; a result of `2^1024` or more is an
infinity. -/
def Float64.round (neg : Bool) (n d : Nat) (e : Int) : Float64 :=
  if n = 0 then .fin neg 0 0
  else
    let p := max (floorLog2 n d + e) (-1022) - 52
    let s := p - e
    let num := if s ≤ 0 then n * 2 ^ (-s).toNat else n
    let den := if s ≤ 0 then d else d * 2 ^ s.toNat
    let q := num / den
    let r := num % den
    let q := if 2 * r > den ∨ (2 * r = den ∧ q % 2 = 1) then q + 1 else q
    if p ≥ 0 ∧ q * 2 ^ p.toNat ≥ 2 ^ 1024 then .inf neg else .fin neg q p

/-- The conversion `float64(n)` of an integer. -/
def Float64.ofInt (n : Int) : Float64 :=
  Float64.round (decide (n < 0)) n.natAbs 1 0

/-- The integer `(-1)^neg * m * 2^k`. -/
def Float64.scaled (neg : Bool) (m : Nat) (k : Int) : Int :=
  if neg then -((m * 2 ^ k.toNat : Nat) : Int) else ((m * 2 ^ k.toNat : Nat) : Int)

/-- The test `math.IsNaN`. -/
def Float64.isNaN : Float64 → Bool
  | .nan => true
  | _ => false

/-- The comparison `x <= y` of two `float64` values (false when one is not a
number). -/
def Float64.le : Float64 → Float64 → Bool
  | .nan, _ => false
  | _, .nan => false
  | .inf a, .inf b => a || !b
  | .inf a, .fin _ _ _ => a
  | .fin _ _ _, .inf b => !b
  | .fin a m1 e1, .fin b m2 e2 =>
    decide (Float64.scaled a m1 (e1 - min e1 e2) ≤ Float64.scaled b m2 (e2 - min e1 e2))

/-- The product `x * y`. -/
def Float64.mul : Float64 → Float64 → Float64
  | .nan, _ => .nan
  | _, .nan => .nan
  | .inf a, .inf b => .inf (xor a b)
  | .inf a, .fin b m _ => if m = 0 then .nan else .inf (xor a b)
  | .fin a m _, .inf b => if m = 0 then .nan else .inf (xor a b)
  | .fin a m1 e1, .fin b m2 e2 => Float64.round (xor a b) (m1 * m2) 1 (e1 + e2)

/-- The difference `x - y`. -/
def Float64.sub : Float64 → Float64 → Float64
  | .nan, _ => .nan
  | _, .nan => .nan
  | .inf a, .inf b => if a = b then .nan else .inf a
  | .inf a, .fin _ _ _ => .inf a
  | .fin _ _ _, .inf b => .inf (!b)
  | .fin a m1 e1, .fin b m2 e2 =>
    let d := Float64.scaled a m1 (e1 - min e1 e2) - Float64.scaled b m2 (e2 - min e1 e2)
    if d = 0 then .fin (a && !b) 0 0
    else Float64.round (decide (d < 0)) d.natAbs 1 (min e1 e2)

/-- The quotient `x / y`. -/
def Float64.div : Float64 → Float64 → Float64
  | .nan, _ => .nan
  | _, .nan => .nan
  | .inf _, .inf _ => .nan
  | .inf a, .fin b _ _ => .inf (xor a b)
  | .fin a _ _, .inf b => .fin (xor a b) 0 0
  | .fin a m1 e1, .fin b m2 e2 =>
    if m2 = 0 then (if m1 = 0 then .nan else .inf (xor a b))
    else Float64.round (xor a b) m1 m2 (e1 - e2)

/-- The function `math.Floor`. -/
def Float64.floor : Float64 → Float64
  | .fin neg m e =>
    if e ≥ 0 then .fin neg m e
    else if neg ∧ m % 2 ^ (-e).toNat ≠ 0 then .fin true (m / 2 ^ (-e).toNat + 1) 0
    else .fin neg (m / 2 ^ (-e).toNat) 0
  | x => x

/-- The conversion `int(x)` to the 64-bit `int`: the value cut towards zero,
and `none` where no `int` holds it (not a number, an infinity, a value out of
range) and Go leaves the result to the implementation. -/
def Float64.toInt : Float64 → Option Int
  | .fin neg m e =>
    let t : Int := if e ≥ 0 then ((m * 2 ^ e.toNat : Nat) : Int) else ((m / 2 ^ (-e).toNat : Nat) : Int)
    let v := if neg then -t else t
    if -(2 : Int) ^ 63 ≤ v ∧ v < (2 : Int) ^ 63 then some v else none
  | _ => none

/-- The value `targetMB * 1024 * 1024 * 0.95` of `CalculateTargetBitrate`. -/
def targetBytes (targetMB : Float64) : Float64 :=
  ((targetMB.mul (Float64.ofInt 1024)).mul (Float64.ofInt 1024)).mul (Float64.round false 95 100 0)

/-- The value `float64(audioBitrateK*1000/8) * durationSec` of
`CalculateTargetBitrate`; the integer division is that of Go on the
non-negative values it is used on. -/
def audioBytes (durationSec : Float64) (audioBitrateK : Int) : Float64 :=
  (Float64.ofInt (audioBitrateK * 1000 / 8)).mul durationSec

/-- The value `(videoBytes * 8) / durationSec / 1000` that `CalculateTargetBitrate`
hands to `math.Floor`. -/
def videoKbps (targetMB durationSec : Float64) (audioBitrateK : Int) : Float64 :=
  let videoBytes := (targetBytes targetMB).sub (audioBytes durationSec audioBitrateK)
  ((videoBytes.mul (Float64.ofInt 8)).div durationSec).div (Float64.ofInt 1000)

/-- The function `CalculateTargetBitrate`. -/
def CalculateTargetBitrate (targetMB durationSec : Float64) (audioBitrateK : Int) :
    Option Int :=
  (videoKbps targetMB durationSec audioBitrateK).floor.toInt

/-- What the size mode of `handleCompressAsync` does with a file: it turns the
request away, remuxes a file that is already small enough, or calls
`runTwoPassEncodeAsync` with the video bitrate in kbit/s, which that function
writes into the `-b:v` argument of both passes. -/
inductive CompressPlan where
  | rejected (error : String)
  | remux
  | twoPass (videoBitrateK : Option Int)
deriving DecidableEq

/-- The size mode of `handleCompressAsync`, from the checks of the target size
and the duration to the bitrate handed to `runTwoPassEncodeAsync`. -/
def compressSizeMode (targetMB videoDuration sourceFileSizeMB : Float64) : CompressPlan :=
  if targetMB.isNaN ∨ targetMB.le (Float64.ofInt 0) then .rejected "Invalid target size"
  else if videoDuration.isNaN ∨ videoDuration.le (Float64.ofInt 0) then
    .rejected "Invalid video duration"
  else if sourceFileSizeMB.le targetMB then .remux
  else .twoPass (CalculateTargetBitrate targetMB videoDuration 96)


/-- The values that are zero or negative (or not a number). -/
def Float64.nonpos : Float64 → Bool
  | .nan => true
  | .inf neg => neg
  | .fin neg m _ => neg || decide (m = 0)

/-- The values above zero. -/
def Float64.pos : Float64 → Bool
  | .nan => false
  | .inf neg => !neg
  | .fin neg m _ => !neg && decide (m ≠ 0)

/-- A run of the two artifact sweepers in any interleaving: each step is one
cycle of `StartBotDownloadExpiry` (`true`) or of `StartPlaylistDownloadExpiry`
(`false`) with the clock reading given. -/
def runArtifactSweeps (botDownloads : GoMap BotDownload) (files : Files) :
    List (Bool × Int) → GoMap BotDownload × Files
  | [] => (botDownloads, files)
  | (short, now) :: rest =>
    let next :=
      if short then botDownloadExpiryCycle botDownloads files now
      else playlistDownloadExpiryCycle botDownloads files now
    runArtifactSweeps next.1 next.2 rest

/-- The registry after `processBotPlaylistAsync` stored the zip of a playlist
under the token `P` at time 0, beside a plain artifact `T` of the same age. -/
def botPlaylistStored : GoMap BotDownload × Files :=
  (SetBotDownload
    (SetBotDownload GoMap.empty "T"
      { FilePath := "/var/tmp/yoink/bot/t.mp4", FileName := "t.mp4" })
    "P" { FilePath := "/var/tmp/yoink/bot/p.zip", FileName := "p.zip",
          MimeType := "application/zip", IsPlaylist := true },
   (GoMap.empty.set "/var/tmp/yoink/bot/t.mp4" [1]).set "/var/tmp/yoink/bot/p.zip" [2])

/-! ## Time parameters of `POST /api/convert` -/

/-- The pieces of a list of characters between the occurrences of `sep`. -/
def splitOnChar (sep : Char) : List Char → List (List Char)
  | [] => [[]]
  | c :: rest =>
    if c = sep then [] :: splitOnChar sep rest
    else
      match splitOnChar sep rest with
      | [] => [[c]]
      | piece :: pieces => (c :: piece) :: pieces

/-- The pattern `\d+`: one or more decimal digits. -/
def isDigits (l : List Char) : Bool :=
  !l.isEmpty && l.all Char.isDigit

/-- The pattern `\d{1,2}`: one or two decimal digits. -/
def isOneOrTwoDigits (l : List Char) : Bool :=
  (l.length == 1 || l.length == 2) && l.all Char.isDigit

/-- The test `numRe.MatchString`, for the pattern `^\d+(\.\d+)?$`. -/
def numReMatch (value : String) : Bool :=
  match splitOnChar '.' value.data with
  | [whole] => isDigits whole
  | [whole, fraction] => isDigits whole && isDigits fraction
  | _ => false

/-- The test `timeRe.MatchString`, for the pattern
`^(?:(\d{1,2}):)?(\d{1,2}):(\d{1,2}(?:\.\d+)?)$`. -/
def timeReMatch (value : String) : Bool :=
  let seconds := fun (l : List Char) =>
    match splitOnChar '.' l with
    | [whole] => isOneOrTwoDigits whole
    | [whole, fraction] => isOneOrTwoDigits whole && isDigits fraction
    | _ => false
  match splitOnChar ':' value.data with
  | [minutes, sec] => isOneOrTwoDigits minutes && seconds sec
  | [hours, minutes, sec] =>
    isOneOrTwoDigits hours && isOneOrTwoDigits minutes && seconds sec
  | _ => false

/-- The function `strings.TrimSpace` of the Go library, on the blank, tab,
carriage return and newline. -/
def TrimSpace (s : String) : String :=
  String.mk (((s.data.dropWhile Char.isWhitespace).reverse.dropWhile
    Char.isWhitespace).reverse)

/-- The function `ValidateTimeParam`. -/
def ValidateTimeParam (value : String) : String :=
  let value := TrimSpace value
  if value = "" then ""
  else if numReMatch value then value
  else if timeReMatch value then value
  else ""

/-- The value `f` of `f, _ := strconv.ParseFloat(value, 64)` on the strings that
`ValidateTimeParam` returns: the number that `digits` or `digits.digits`
denotes (taken exactly), and 0, which `ParseFloat` returns beside its syntax
error, for a string with a colon. -/
def ParseFloat (value : String) : ℚ :=
  match splitOnChar '.' value.data with
  | [whole] =>
    if isDigits whole then (readDecimal (String.mk whole) : ℚ) else 0
  | [whole, fraction] =>
    if isDigits whole && isDigits fraction then
      (readDecimal (String.mk whole) : ℚ)
        + (readDecimal (String.mk fraction) : ℚ) / (10 : ℚ) ^ fraction.length
    else 0
  | _ => 0

/-- The checks of the time parameters in `handleConvert`, after the job was
admitted: the 400 response of the first check that fails, or `none`. -/
def handleConvertTimes (startTime endTime : String) : Option Response :=
  let validStartTime := ValidateTimeParam startTime
  let validEndTime := ValidateTimeParam endTime
  if startTime ≠ "" ∧ validStartTime = "" then
    some ⟨400, false, "Invalid startTime format. Use seconds or HH:MM:SS"⟩
  else if endTime ≠ "" ∧ validEndTime = "" then
    some ⟨400, false, "Invalid endTime format. Use seconds or HH:MM:SS"⟩
  else if validStartTime ≠ "" ∧ validEndTime ≠ ""
      ∧ ParseFloat validEndTime ≤ ParseFloat validStartTime then
    some ⟨400, false, "endTime must be greater than startTime"⟩
  else none

/-! ## The denoise filter (`GetDenoiseFilter`) -/

/-- The map `config.DenoiseFilters`, read at a key (the empty string for a
missing key). -/
def DenoiseFilters (key : String) : String :=
  if key = "none" then ""
  else if key = "light" then "hqdn3d=2:1.5:3:2.25"
  else if key = "moderate" then "hqdn3d=4:3:6:4.5"
  else if key = "heavy" then "hqdn3d=6:4:9:6"
  else ""

/-- The map `expectedBitrate` of `GetDenoiseFilter`, read at a height. -/
def expectedBitrate (height : Int) : ℚ :=
  if height = 360 then 1
  else if height = 480 then 3 / 2
  else if height = 720 then 3
  else if height = 1080 then 6
  else if height = 1440 then 12
  else if height = 2160 then 25
  else 0

/-- The keys of the map `expectedBitrate`. -/
def expectedBitrateKeys : List Int := [360, 480, 720, 1080, 1440, 2160]

/-- One iteration of `for h := range expectedBitrate`: the pair of `closest`
and `minDiff` (`none` for `math.MaxFloat64`). -/
def closestStep (sourceHeight : Int) (acc : Int × Option Int) (h : Int) : Int × Option Int :=
  let diff := |h - sourceHeight|
  match acc.2 with
  | none => (h, some diff)
  | some minDiff => if diff < minDiff then (h, some diff) else acc

/-- The function `GetDenoiseFilter`; `order` is the order in which the loop
`for h := range expectedBitrate` meets the keys of the map, which Go leaves
open. -/
def GetDenoiseFilter (order : List Int) (denoise : String) (sourceHeight : Int)
    (sourceBitrateMbps : ℚ) (presetDenoise : String) : String :=
  if denoise = "none" ∨ presetDenoise = "none" then ""
  else if denoise ≠ "auto" then DenoiseFilters denoise
  else if presetDenoise ≠ "auto" then DenoiseFilters presetDenoise
  else
    let closest := (order.foldl (closestStep sourceHeight) (360, none)).1
    if sourceBitrateMbps > expectedBitrate closest * (5 / 2) then DenoiseFilters "heavy"
    else if sourceBitrateMbps > expectedBitrate closest * (3 / 2) then
      DenoiseFilters "moderate"
    else DenoiseFilters "light"

/-! ## Lemmas on Go maps -/

namespace GoMap

variable {V : Type}

theorem lookup_erase_self (k : String) (l : List (String × V)) :
    lookup k (erase k l) = none := by
  induction l with
  | nil => rfl
  | cons e rest ih =>
    obtain ⟨k', v⟩ := e
    by_cases h : k' = k
    · simp [erase, h, ih]
    · simp [erase, lookup, h, ih]

theorem lookup_erase_ne {k k' : String} (h : k ≠ k') (l : List (String × V)) :
    lookup k (erase k' l) = lookup k l := by
  induction l with
  | nil => rfl
  | cons e rest ih =>
    obtain ⟨k1, v⟩ := e
    by_cases h1 : k1 = k'
    · subst h1
      have h2 : ¬ k1 = k := fun h3 => h h3.symm
      simp [erase, lookup, h2, ih]
    · by_cases h2 : k1 = k
      · subst h2
        simp [erase, lookup, h1]
      · simp [erase, lookup, h1, h2, ih]

@[simp] theorem get?_empty (k : String) : (empty : GoMap V).get? k = none := rfl

@[simp] theorem get?_set_self (m : GoMap V) (k : String) (v : V) :
    (m.set k v).get? k = some v := by
  simp [get?, set, lookup]

theorem get?_set_ne (m : GoMap V) {k k' : String} (v : V) (h : k ≠ k') :
    (m.set k' v).get? k = m.get? k := by
  have h1 : ¬ k' = k := fun h2 => h h2.symm
  simp [get?, set, lookup, h1, lookup_erase_ne h]

@[simp] theorem get?_del_self (m : GoMap V) (k : String) : (m.del k).get? k = none := by
  simp [get?, del, lookup_erase_self]

theorem get?_del_ne (m : GoMap V) {k k' : String} (h : k ≠ k') :
    (m.del k').get? k = m.get? k := by
  simp [get?, del, lookup_erase_ne h]

end GoMap

/-! ## The resource governor -/

theorem count_set_self (s : State) (t : String) (v : Int) :
    State.count { s with jobsByType := s.jobsByType.set t v } t = v := by
  simp [State.count]

theorem count_set_ne (s : State) {t u : String} (v : Int) (h : u ≠ t) :
    State.count { s with jobsByType := s.jobsByType.set t v } u = s.count u := by
  simp [State.count, GoMap.get?_set_ne _ _ h]

/-- C1: for a job type `t` with a configured limit, `CanStartJob` rejects with
the reason naming the type and the limit and leaves the state unchanged when
`count[t] >= limit`; otherwise it rejects with the low-disk-space reason and
leaves the state unchanged when the free disk space is below 5 GB; otherwise it
answers OK, raises `count[t]` by exactly one and leaves every other counter
(and every other registry) unchanged. -/
theorem CanStartJob_contract (s : State) (t : String) (limit : Int) (disk : Option ℚ)
    (hl : JobLimits.get? t = some limit) :
    (limit ≤ s.count t →
      CanStartJob s t disk =
        (s, ⟨false, "Too many active " ++ t ++ " jobs (limit: " ++ toString limit ++ ")"⟩)) ∧
    (s.count t < limit → getDiskSpaceGB disk < 5 →
      CanStartJob s t disk =
        (s, ⟨false, "Low disk space (" ++ formatFixed1 (getDiskSpaceGB disk)
          ++ "GB free, need 5GB)"⟩)) ∧
    (s.count t < limit → 5 ≤ getDiskSpaceGB disk →
      (CanStartJob s t disk).2 = ⟨true, ""⟩ ∧
      (CanStartJob s t disk).1.count t = s.count t + 1 ∧
      (∀ u, u ≠ t → (CanStartJob s t disk).1.count u = s.count u) ∧
      (CanStartJob s t disk).1.activeProcesses = s.activeProcesses ∧
      (CanStartJob s t disk).1.sessions = s.sessions ∧
      (CanStartJob s t disk).1.jobToClient = s.jobToClient) := by
  have h5 : ((DiskSpaceMinGB : Int) : ℚ) = 5 := by norm_num [DiskSpaceMinGB]
  have hs : toString DiskSpaceMinGB = "5" := by decide
  refine ⟨fun h => ?_, fun h hd => ?_, fun h hd => ?_⟩
  · simp [CanStartJob, hl, h]
  · have h' : ¬ limit ≤ s.count t := not_le.mpr h
    have he : "GB free, need " ++ "5" ++ "GB)" = "GB free, need 5GB)" := by decide
    simp only [CanStartJob, hl, h5, hs]
    simp only [ge_iff_le, h', and_false, if_false, hd, if_true]
    rw [← he]
    simp only [String.append_assoc]
  · have h' : ¬ limit ≤ s.count t := not_le.mpr h
    have hd' : ¬ getDiskSpaceGB disk < 5 := not_lt.mpr hd
    have e : CanStartJob s t disk =
        ({ s with jobsByType := s.jobsByType.set t (s.count t + 1) }, ⟨true, ""⟩) := by
      simp only [CanStartJob, hl, h5]
      simp only [ge_iff_le, h', and_false, if_false, hd']
    rw [e]
    exact ⟨rfl, count_set_self s t _, fun u hu => count_set_ne s _ hu, rfl, rfl, rfl⟩

/-- C1, on the end-to-end scenario of the specification: with 6 downloads
active (limit 6) and 10 GB free, `CanStartJob("download")` rejects, naming
"download" and "6", and changes nothing. -/
theorem CanStartJob_contract_witness :
    JobLimits.get? "download" = some 6 ∧
    (let s6 : State := { init with jobsByType := init.jobsByType.set "download" 6 }
     CanStartJob s6 "download" (some 10) =
        (s6, ⟨false, "Too many active download jobs (limit: 6)"⟩)) :=
  ⟨by decide,
   (CanStartJob_contract { init with jobsByType := init.jobsByType.set "download" 6 }
      "download" 6 (some 10) (by decide)).1 (by decide)⟩

/-- C2: on a counter state (counters are never negative), `DecrementJob(t)`
sets `count[t]` to `max(count[t] - 1, 0)` and leaves the counter of every
other job type unchanged; at count 0 the whole state is unchanged. -/
theorem DecrementJob_contract (s : State) (t : String) (h : 0 ≤ s.count t) :
    (DecrementJob s t).count t = max (s.count t - 1) 0 ∧
    (∀ u, u ≠ t → (DecrementJob s t).count u = s.count u) ∧
    (s.count t = 0 → DecrementJob s t = s) := by
  by_cases hp : s.count t > 0
  · refine ⟨?_, fun u hu => ?_, fun h0 => ?_⟩
    · simp only [DecrementJob, hp, if_true, count_set_self]
      rw [max_eq_left (by omega)]
    · simp only [DecrementJob, hp, if_true]
      exact count_set_ne s _ hu
    · omega
  · have h0 : s.count t = 0 := by omega
    refine ⟨?_, fun u _ => ?_, fun _ => ?_⟩ <;> simp [DecrementJob, hp, h0]

/-- C2 at two concrete states: a release at count 2 gives count 1, and a
release at count 0 changes nothing. -/
theorem DecrementJob_contract_witness :
    (0 : Int) ≤ State.count { init with jobsByType := init.jobsByType.set "convert" 2 } "convert" ∧
    (DecrementJob { init with jobsByType := init.jobsByType.set "convert" 2 } "convert").count
      "convert" = 1 ∧
    DecrementJob init "convert" = init :=
  ⟨by decide,
   by
    have h := (DecrementJob_contract
      { init with jobsByType := init.jobsByType.set "convert" 2 } "convert" (by decide)).1
    rw [h]; decide,
   (DecrementJob_contract init "convert" (by decide)).2.2 (by decide)⟩

theorem JobLimits_nonneg {t : String} {limit : Int} (h : JobLimits.get? t = some limit) :
    0 ≤ limit := by
  simp only [JobLimits, GoMap.get?, GoMap.lookup] at h
  split_ifs at h <;> simp at h <;> omega

theorem lookup_map_reset (k : String) (l : List (String × Int)) :
    GoMap.lookup k (l.map (fun e => (e.1, if e.2 > 0 then 0 else e.2))) =
      (GoMap.lookup k l).map (fun c => if c > 0 then 0 else c) := by
  induction l with
  | nil => rfl
  | cons e rest ih =>
    obtain ⟨k1, c⟩ := e
    by_cases hk : k1 = k <;> by_cases hc : c > 0 <;> simp [GoMap.lookup, hk, hc, ih]

theorem count_reconcile_empty (s : State) (h : ¬ s.activeProcesses.len > 0) (t : String) :
    (counterReconciliationCycle s).count t = if s.count t > 0 then 0 else s.count t := by
  simp only [counterReconciliationCycle, h, if_false, State.count, GoMap.get?, lookup_map_reset]
  cases GoMap.lookup t s.jobsByType.entries <;> simp

theorem CanStartJob_cases (s : State) (t : String) (disk : Option ℚ) :
    ((CanStartJob s t disk).1 = s ∧ (CanStartJob s t disk).2.OK = false) ∨
    CanStartJob s t disk =
      ({ s with jobsByType := s.jobsByType.set t (s.count t + 1) }, ⟨true, ""⟩) := by
  simp only [CanStartJob]
  split_ifs <;> simp

theorem count_CanStartJob (s : State) (t : String) (disk : Option ℚ) (u : String) :
    (CanStartJob s t disk).1.count u =
      if (CanStartJob s t disk).2.OK = true ∧ u = t then s.count u + 1 else s.count u := by
  rcases CanStartJob_cases s t disk with ⟨h1, h2⟩ | h
  · simp [h1, h2]
  · rw [h]
    by_cases hu : u = t
    · subst hu
      simp [count_set_self]
    · simp [hu, count_set_ne s _ hu]

theorem count_DecrementJob (s : State) (t u : String) :
    (DecrementJob s t).count u =
      if u = t ∧ s.count t > 0 then s.count u - 1 else s.count u := by
  unfold DecrementJob
  split_ifs with h1 h2 h2
  · rw [h2.1]; exact count_set_self s t _
  · have hu : u ≠ t := fun h => h2 ⟨h, h1⟩
    exact count_set_ne s _ hu
  · exact absurd h2.2 h1
  · rfl

theorem CanStartJob_ok_below_limit (s : State) (t : String) (disk : Option ℚ) (limit : Int)
    (hl : JobLimits.get? t = some limit) (hok : (CanStartJob s t disk).2.OK = true) :
    s.count t < limit := by
  by_contra h
  have h' : limit ≤ s.count t := not_lt.mp h
  simp [CanStartJob, hl, h'] at hok

/-- The invariant of the governor: no counter is negative and no counter of a
limited job type exceeds its limit. -/
theorem CounterReachable.bounds {s : State} (h : CounterReachable s) :
    (∀ t, 0 ≤ s.count t) ∧
    (∀ t limit, JobLimits.get? t = some limit → s.count t ≤ limit) := by
  induction h with
  | start =>
    constructor
    · intro t
      simp only [init, State.count, GoMap.get?, GoMap.lookup]
      split_ifs <;> simp
    · intro t limit hl
      have h0 := JobLimits_nonneg hl
      simp only [init, State.count, GoMap.get?, GoMap.lookup]
      split_ifs <;> simpa using h0
  | canStartJob s jobType disk _ ih =>
    constructor
    · intro t
      rw [count_CanStartJob]
      have := ih.1 t
      split_ifs <;> omega
    · intro t limit hl
      rw [count_CanStartJob]
      have := ih.2 t limit hl
      split_ifs with hc
      · have := CanStartJob_ok_below_limit s jobType disk limit (hc.2 ▸ hl) hc.1
        rw [hc.2]; omega
      · exact this
  | decrementJob s jobType _ ih =>
    constructor
    · intro t
      rw [count_DecrementJob]
      have := ih.1 t
      split_ifs with hc
      · have := hc.2; rw [← hc.1] at this; omega
      · exact this
    · intro t limit hl
      rw [count_DecrementJob]
      have := ih.2 t limit hl
      split_ifs <;> omega
  | reconcile s _ ih =>
    by_cases hp : s.activeProcesses.len > 0
    · simpa [counterReconciliationCycle, hp] using ih
    · constructor
      · intro t
        rw [count_reconcile_empty s hp]
        have := ih.1 t
        split_ifs <;> omega
      · intro t limit hl
        rw [count_reconcile_empty s hp]
        have := ih.2 t limit hl
        have := JobLimits_nonneg hl
        split_ifs <;> omega
  | registry s processes _ ih => exact ih

/-- C3: in every state reachable from the all-zero counters by `CanStartJob`,
`DecrementJob` and reconciliation steps (any job types, disk readings and
process registry contents), every job type with a configured limit has
`0 <= count[t] <= limit[t]`. -/
theorem counters_within_limits (s : State) (h : CounterReachable s) (t : String) (limit : Int)
    (hl : JobLimits.get? t = some limit) : 0 ≤ s.count t ∧ s.count t ≤ limit :=
  ⟨h.bounds.1 t, h.bounds.2 t limit hl⟩

/-- C3 on a concrete run: two admitted compress requests (the second is
refused, limit 1), a release and a reconciliation. -/
theorem counters_within_limits_witness :
    CounterReachable
      (counterReconciliationCycle (DecrementJob
        (CanStartJob (CanStartJob init "compress" (some 10)).1 "compress" (some 10)).1
        "compress")) ∧
    JobLimits.get? "compress" = some 1 ∧
    (0 ≤ (CanStartJob (CanStartJob init "compress" (some 10)).1 "compress" (some 10)).1.count
        "compress" ∧
      (CanStartJob (CanStartJob init "compress" (some 10)).1 "compress" (some 10)).1.count
        "compress" ≤ 1) :=
  ⟨.reconcile _ (.decrementJob _ _ (.canStartJob _ _ _ (.canStartJob _ _ _ .start))),
   by decide,
   counters_within_limits _ (.canStartJob _ _ _ (.canStartJob _ _ _ .start)) "compress" 1
    (by decide)⟩

/-- C4: one reconciliation cycle, on a counter state (counters are never
negative): with an empty process registry every counter is zero afterwards,
with a non-empty registry nothing changes. -/
theorem counterReconciliationCycle_contract (s : State) (h : ∀ t, 0 ≤ s.count t) :
    (s.activeProcesses.len = 0 → ∀ t, (counterReconciliationCycle s).count t = 0) ∧
    (s.activeProcesses.len > 0 → counterReconciliationCycle s = s) := by
  constructor
  · intro he t
    have hp : ¬ s.activeProcesses.len > 0 := by omega
    rw [count_reconcile_empty s hp]
    have := h t
    split_ifs <;> omega
  · intro hp
    simp [counterReconciliationCycle, hp]

/-- C4 on the leak the reconciler is there for: a download was admitted but no
`ProcessInfo` is registered; the cycle brings the counter back to zero. -/
theorem counterReconciliationCycle_contract_witness :
    (∀ t, 0 ≤ (CanStartJob init "download" (some 10)).1.count t) ∧
    (CanStartJob init "download" (some 10)).1.count "download" = 1 ∧
    (∀ t, (counterReconciliationCycle (CanStartJob init "download" (some 10)).1).count t = 0) :=
  ⟨(CounterReachable.canStartJob _ _ _ .start).bounds.1,
   by decide,
   (counterReconciliationCycle_contract (CanStartJob init "download" (some 10)).1
      (CounterReachable.canStartJob _ _ _ .start).bounds.1).1 (by decide)⟩

/-! ## Sequential accounting -/

theorem runCalls_count (t : String) (calls : List GovernorCall) :
    ∀ s : State,
      (∀ n, (releases (calls.take n) : Int) ≤ s.count t + successfulAdmits t s (calls.take n)) →
      (runCalls t s calls).count t = s.count t + successfulAdmits t s calls - releases calls := by
  induction calls with
  | nil => intro s _; simp [runCalls, successfulAdmits, releases]
  | cons c rest ih =>
    intro s hpre
    cases c with
    | canStart disk =>
      have hs : runCalls t s (.canStart disk :: rest) = runCalls t (CanStartJob s t disk).1 rest :=
        rfl
      have hc : (CanStartJob s t disk).1.count t =
          s.count t + ((if (CanStartJob s t disk).2.OK = true then 1 else 0 : Nat) : Int) := by
        rw [count_CanStartJob]
        by_cases hok : (CanStartJob s t disk).2.OK = true
        · simp [hok]
        · simp [hok]
      rw [hs, ih (CanStartJob s t disk).1]
      · simp only [successfulAdmits, releases, hc]
        push_cast
        ring
      · intro n
        have := hpre (n + 1)
        simp only [List.take_succ_cons, successfulAdmits, releases] at this
        rw [hc]
        push_cast at this ⊢
        linarith
    | release =>
      have hs : runCalls t s (.release :: rest) = runCalls t (DecrementJob s t) rest := rfl
      have hc := count_DecrementJob s t t
      have h1 := hpre 1
      simp [successfulAdmits, releases] at h1
      have hpos : s.count t > 0 := by omega
      simp only [hpos, and_self, if_true] at hc
      rw [hs, ih (DecrementJob s t)]
      · simp only [successfulAdmits, releases]
        rw [hc]; push_cast; omega
      · intro n
        have := hpre (n + 1)
        simp only [List.take_succ_cons, successfulAdmits, releases] at this
        rw [hc]; push_cast at this ⊢; omega

/-- C7: for every job type `t` and every finite sequence of `CanStartJob(t)`
and `DecrementJob(t)` calls run from a state with `count[t] = 0`, in which no
prefix holds more releases than successful admits, the final `count[t]` is the
number of successful admits minus the number of releases. -/
theorem sequential_accounting (t : String) (s : State) (calls : List GovernorCall)
    (h0 : s.count t = 0)
    (hpre : ∀ n, releases (calls.take n) ≤ successfulAdmits t s (calls.take n)) :
    (runCalls t s calls).count t = (successfulAdmits t s calls : Int) - releases calls := by
  have h := runCalls_count t calls s (fun n => by rw [h0]; have := hpre n; omega)
  rw [h, h0]; ring

/-- C7 on a concrete run for "convert" (limit 2): three admits of which the
third is refused, then two releases and one more admit. -/
theorem sequential_accounting_witness :
    State.count init "convert" = 0 ∧
    (runCalls "convert" init
      [.canStart (some 10), .canStart (some 10), .canStart (some 10), .release, .release,
        .canStart (some 10)]).count "convert" = 1 :=
  ⟨by decide,
   by
    have h := sequential_accounting "convert" init
      [.canStart (some 10), .canStart (some 10), .canStart (some 10), .release, .release,
        .canStart (some 10)] (by decide)
      (fun n => by
        rcases n with _ | _ | _ | _ | _ | _ | _ | n
        all_goals first | decide | (simp only [List.take]; decide))
    rw [h]; decide⟩

/-! ## Cancelling and releasing -/

/-- After an authorized `handleCancel` of a registered job, `ReleaseJob` finds
no `ProcessInfo` any more: it answers `false` and changes nothing, whatever the
state was. -/
theorem ReleaseJob_after_handleCancel (s : State) (id clientID : String) (now : Int)
    (info : ProcessInfo) (hp : GetProcess s id = some info)
    (hauth : ¬ (GetJobOwner s id ≠ "" ∧ GetJobOwner s id ≠ clientID)) :
    ReleaseJob (handleCancel s id clientID).1 id now = ((handleCancel s id clientID).1, false) ∧
    (handleCancel s id clientID).1.jobsByType = s.jobsByType := by
  simp only [handleCancel, hauth, if_false, hp, ReleaseJob, DeleteProcess, SetProcess,
    GoMap.get?_del_self, and_self]

theorem UnlinkJobFromClient_jobsByType (s : State) (jobID : String) (now : Int) :
    (UnlinkJobFromClient s jobID now).jobsByType = s.jobsByType := by
  unfold UnlinkJobFromClient
  cases s.jobToClient.get? jobID <;> rfl

/-- The closure `cleanupAll` decrements the transcribe counter whether or not
the job is still registered. -/
theorem cleanupAll_count (s : State) (transcribeID : String) (now : Int) :
    (cleanupAll s transcribeID now).count "transcribe" =
      if s.count "transcribe" > 0 then s.count "transcribe" - 1 else s.count "transcribe" := by
  have h : (cleanupAll s transcribeID now).count "transcribe" =
      (DecrementJob (DeleteProcess s transcribeID) "transcribe").count "transcribe" := by
    simp only [cleanupAll, State.count, UnlinkJobFromClient_jobsByType]
  rw [h, count_DecrementJob]
  simp [DeleteProcess, State.count]

/-- C5: the download `J` of client `C` is running and counted
(`count["download"] = 1`); `C` cancels it through `handleCancel`, which answers
success; the error exit of the orchestrator then calls `ReleaseJob("J")`,
which finds no `ProcessInfo` and releases nothing: the download counter is
still 1, not one lower, and `J` is still linked to `C`. -/
theorem handleCancel_leaks_download_counter :
    downloadRunning.count "download" = 1 ∧
    GetProcess downloadRunning "J" = some { JobType := "download" } ∧
    GetJobOwner downloadRunning "J" = "C" ∧
    (handleCancel downloadRunning "J" "C").2 = ⟨200, true, "Download cancelled"⟩ ∧
    (ReleaseJob (handleCancel downloadRunning "J" "C").1 "J" Second).2 = false ∧
    (handleDownloadError (handleCancel downloadRunning "J" "C").1 "J" Second).count "download"
      = 1 ∧
    GetClientJobCount
      (handleDownloadError (handleCancel downloadRunning "J" "C").1 "J" Second) "C" = 1 := by
  decide

/-- C6: the transcription `A` of the silent client `C` was cancelled by the
sweeper, which released the counter (1 to 0); the transcription `B` of client
`D` was then admitted (0 to 1).  When the orchestrator of `A` now runs
`cleanupAll`, it calls `DecrementJob("transcribe")` a second time for `A`: the
counter drops to 0 while `B` is still registered and running, and a further
transcription would be admitted beside it. -/
theorem transcribe_released_twice :
    (sessionCleanupCycle (handleTranscribe init "C" "A" (some 10) 0).1 (31 * Second)).count
      "transcribe" = 0 ∧
    transcribeAfterSweep.count "transcribe" = 1 ∧
    (cleanupAll transcribeAfterSweep "A" (33 * Second)).count "transcribe" = 0 ∧
    GetProcess (cleanupAll transcribeAfterSweep "A" (33 * Second)) "B"
      = some { JobType := "transcribe" } ∧
    (CanStartJob (cleanupAll transcribeAfterSweep "A" (33 * Second)) "transcribe"
      (some 10)).2.OK = true := by
  decide

/-- C8: client `C` has five running downloads; a sixth `/api/download` is
turned away with 429, but a `/api/convert-chunked` submission is accepted
without any per-client check and linked: `C` then has six active jobs, more
than `MaxJobsPerClient`. -/
theorem convert_chunked_exceeds_client_cap :
    GetClientJobCount fiveDownloads "C" = 5 ∧
    (handleDownload fiveDownloads "C" "J6" "https://example.com/v" (some 10) 0).2
      = some ⟨429, false, "Too many active jobs. Maximum 5 concurrent jobs per user."⟩ ∧
    (handleConvertChunked fiveDownloads "C" "K" (some 10) 0).2 = true ∧
    GetClientJobCount (handleConvertChunked fiveDownloads "C" "K" (some 10) 0).1 "C" = 6 ∧
    MaxJobsPerClient = 5 := by
  decide

/-! ## The session registry -/

theorem GoMap.mem_keys_of_lookup {V : Type} {k : String} {v : V} :
    ∀ {l : List (String × V)}, GoMap.lookup k l = some v → k ∈ l.map Prod.fst := by
  intro l
  induction l with
  | nil => intro h; simp [GoMap.lookup] at h
  | cons e rest ih =>
    obtain ⟨k1, v1⟩ := e
    intro h
    by_cases hk : k1 = k
    · simp [hk]
    · simp only [GoMap.lookup, hk, if_false] at h
      simp [ih h]

theorem GoMap.mem_keys_of_get? {V : Type} {m : GoMap V} {k : String} {v : V}
    (h : m.get? k = some v) : k ∈ m.keys :=
  GoMap.mem_keys_of_lookup h

theorem GoMap.get?_eq_none_of_len_zero {V : Type} {m : GoMap V} (h : ¬ m.len > 0) (k : String) :
    m.get? k = none := by
  obtain ⟨l⟩ := m
  cases l with
  | nil => rfl
  | cons e rest => simp [GoMap.len] at h

theorem afterSweep_idem (now : Int) (o : Option ClientSession) :
    afterSweep now (afterSweep now o) = afterSweep now o := by
  cases o with
  | none => rfl
  | some session =>
    by_cases h : sessionExpired now session <;> simp [afterSweep, h]

theorem sweepVisit_get?_self (now : Int) (acc : GoMap ClientSession × List sessionCleanupAction)
    (k : String) : (sweepVisit now acc k).1.get? k = afterSweep now (acc.1.get? k) := by
  unfold sweepVisit
  cases hk : acc.1.get? k with
  | none => simp [afterSweep, hk]
  | some session =>
    by_cases h1 : heartbeatTimedOut now session
    · simp [afterSweep, sessionExpired, h1]
    · by_cases h2 : idleTimedOut now session
      · simp [afterSweep, sessionExpired, h1, h2]
      · simp [afterSweep, sessionExpired, h1, h2, hk]

theorem sweepVisit_get?_ne (now : Int) (acc : GoMap ClientSession × List sessionCleanupAction)
    {k c : String} (h : c ≠ k) : (sweepVisit now acc k).1.get? c = acc.1.get? c := by
  unfold sweepVisit
  cases acc.1.get? k with
  | none => rfl
  | some session =>
    by_cases h1 : heartbeatTimedOut now session
    · simp [h1, GoMap.get?_del_ne _ h]
    · by_cases h2 : idleTimedOut now session
      · simp [h1, h2, GoMap.get?_del_ne _ h]
      · simp [h1, h2]

theorem sweepFold_get? (now : Int) (c : String) (ks : List String) :
    ∀ acc : GoMap ClientSession × List sessionCleanupAction,
      (ks.foldl (sweepVisit now) acc).1.get? c =
        if c ∈ ks then afterSweep now (acc.1.get? c) else acc.1.get? c := by
  induction ks with
  | nil => intro acc; simp
  | cons k rest ih =>
    intro acc
    rw [List.foldl_cons, ih]
    by_cases hck : c = k
    · subst hck
      simp only [sweepVisit_get?_self, afterSweep_idem, List.mem_cons, true_or, if_true]
      split_ifs <;> rfl
    · simp [sweepVisit_get?_ne now acc hck, hck]

/-- What the first half of a sweep leaves of each registry entry. -/
theorem sweepSessions_get? (now : Int) (sessions : GoMap ClientSession) (c : String) :
    (sweepSessions now sessions).1.get? c = afterSweep now (sessions.get? c) := by
  unfold sweepSessions
  rw [sweepFold_get?]
  split_ifs with h
  · rfl
  · cases hc : sessions.get? c with
    | none => rfl
    | some session => exact absurd (GoMap.mem_keys_of_get? hc) h

theorem sweepVisit_actions_mono (now : Int) (acc : GoMap ClientSession × List sessionCleanupAction)
    (k : String) (a : sessionCleanupAction) (h : a ∈ acc.2) : a ∈ (sweepVisit now acc k).2 := by
  unfold sweepVisit
  cases acc.1.get? k with
  | none => exact h
  | some session =>
    by_cases h1 : heartbeatTimedOut now session
    · simp [h1, h]
    · by_cases h2 : idleTimedOut now session
      · simp [h1, h2, h]
      · simp [h1, h2, h]

theorem sweepFold_actions_mono (now : Int) (ks : List String) (a : sessionCleanupAction) :
    ∀ acc : GoMap ClientSession × List sessionCleanupAction,
      a ∈ acc.2 → a ∈ (ks.foldl (sweepVisit now) acc).2 := by
  induction ks with
  | nil => intro acc h; exact h
  | cons k rest ih =>
    intro acc h
    rw [List.foldl_cons]
    exact ih _ (sweepVisit_actions_mono now acc k a h)

theorem sweepFold_actions (now : Int) (c : String) (session : ClientSession)
    (ht : heartbeatTimedOut now session) (ks : List String) :
    ∀ acc : GoMap ClientSession × List sessionCleanupAction,
      c ∈ ks → acc.1.get? c = some session →
      { clientID := c, jobIDs := session.ActiveJobs.keys, idle := false }
        ∈ (ks.foldl (sweepVisit now) acc).2 := by
  induction ks with
  | nil => intro acc h; simp at h
  | cons k rest ih =>
    intro acc hmem hget
    rw [List.foldl_cons]
    by_cases hck : c = k
    · subst hck
      apply sweepFold_actions_mono
      simp [sweepVisit, hget, ht]
    · have hrest : c ∈ rest := by
        rcases List.mem_cons.mp hmem with h | h
        · exact absurd h hck
        · exact h
      exact ih _ hrest (by rw [sweepVisit_get?_ne now acc hck]; exact hget)

/-- Every session whose heartbeat timed out yields the action that cancels all
of its active jobs. -/
theorem sweepSessions_actions (now : Int) (sessions : GoMap ClientSession) (c : String)
    (session : ClientSession) (hget : sessions.get? c = some session)
    (ht : heartbeatTimedOut now session) :
    { clientID := c, jobIDs := session.ActiveJobs.keys, idle := false }
      ∈ (sweepSessions now sessions).2 :=
  sweepFold_actions now c session ht _ _ (GoMap.mem_keys_of_get? hget) hget

theorem DecrementJob_sessions (s : State) (t : String) :
    (DecrementJob s t).sessions = s.sessions ∧
    (DecrementJob s t).jobToClient = s.jobToClient := by
  unfold DecrementJob
  split_ifs <;> exact ⟨rfl, rfl⟩

theorem cancelSessionJob_sessions (s : State) (jobID : String) :
    (cancelSessionJob s jobID).sessions = s.sessions ∧
    (cancelSessionJob s jobID).jobToClient = s.jobToClient.del jobID := by
  simp only [cancelSessionJob, GetAsyncJob, GetProcess, SetProcess, RemovePendingJob]
  split_ifs with h1 h2
  · exact ⟨rfl, rfl⟩
  · rw [(DecrementJob_sessions _ _).1, (DecrementJob_sessions _ _).2]
    cases h : s.activeProcesses.get? jobID <;> simp [h]
  · cases h : s.activeProcesses.get? jobID <;> simp [h]

theorem cancelFold_sessions (ids : List String) :
    ∀ s : State, (ids.foldl cancelSessionJob s).sessions = s.sessions := by
  induction ids with
  | nil => intro s; rfl
  | cons i rest ih => intro s; rw [List.foldl_cons, ih, (cancelSessionJob_sessions s i).1]

theorem cancelFold_jobToClient (j : String) (ids : List String) :
    ∀ s : State, (ids.foldl cancelSessionJob s).jobToClient.get? j =
      if j ∈ ids then none else s.jobToClient.get? j := by
  induction ids with
  | nil => intro s; simp
  | cons i rest ih =>
    intro s
    rw [List.foldl_cons, ih, (cancelSessionJob_sessions s i).2]
    by_cases hji : j = i
    · subst hji; simp
    · simp [hji, GoMap.get?_del_ne _ hji]

theorem runCleanupAction_sessions (s : State) (a : sessionCleanupAction) :
    (runCleanupAction s a).sessions = s.sessions := by
  unfold runCleanupAction
  split_ifs
  · rfl
  · exact cancelFold_sessions _ s

theorem runCleanupAction_jobToClient (s : State) (a : sessionCleanupAction) (j : String) :
    (runCleanupAction s a).jobToClient.get? j =
      if a.idle = false ∧ j ∈ a.jobIDs then none else s.jobToClient.get? j := by
  unfold runCleanupAction
  by_cases hi : a.idle = true
  · simp [hi]
  · have hf : a.idle = false := by simpa using hi
    simp [hf, cancelFold_jobToClient]

theorem actionsFold_sessions (acts : List sessionCleanupAction) :
    ∀ s : State, (acts.foldl runCleanupAction s).sessions = s.sessions := by
  induction acts with
  | nil => intro s; rfl
  | cons a rest ih => intro s; rw [List.foldl_cons, ih, runCleanupAction_sessions]

/-- The second half of a sweep only removes entries of the owner map. -/
theorem actionsFold_jobToClient_sub (j : String) (acts : List sessionCleanupAction) :
    ∀ s : State, ∀ c, (acts.foldl runCleanupAction s).jobToClient.get? j = some c →
      s.jobToClient.get? j = some c := by
  induction acts with
  | nil => intro s c h; exact h
  | cons a rest ih =>
    intro s c h
    rw [List.foldl_cons] at h
    have h1 := ih _ c h
    rw [runCleanupAction_jobToClient] at h1
    split_ifs at h1
    exact h1

/-- The second half of a sweep removes the owner entry of every job of every
action that is not an idle expiry. -/
theorem actionsFold_jobToClient_none (j : String) (acts : List sessionCleanupAction) :
    ∀ s : State, ∀ a ∈ acts, a.idle = false → j ∈ a.jobIDs →
      (acts.foldl runCleanupAction s).jobToClient.get? j = none := by
  induction acts with
  | nil => intro s a ha; simp at ha
  | cons b rest ih =>
    intro s a ha hidle hj
    rw [List.foldl_cons]
    rcases List.mem_cons.mp ha with h | h
    · subst h
      cases hr : (rest.foldl runCleanupAction (runCleanupAction s a)).jobToClient.get? j with
      | none => rfl
      | some c =>
        have h1 := actionsFold_jobToClient_sub j rest _ c hr
        rw [runCleanupAction_jobToClient] at h1
        simp [hidle, hj] at h1
    · exact ih _ a h hidle hj

theorem sessionCleanupCycle_sessions (s : State) (now : Int) :
    (sessionCleanupCycle s now).sessions = (sweepSessions now s.sessions).1 := by
  simp only [sessionCleanupCycle, actionsFold_sessions]

/-- C10: a sweep at time `now` destroys the session `c` exactly when `c` has at
least one active job and `now - LastHeartbeat > 30 s`, or `c` has no active job
and `now - LastActivity > 60 s`; every other session stays in the registry
unchanged (so a lapse of exactly 30 s, or an idle time of exactly 60 s, does
not destroy it). -/
theorem session_sweep_contract (s : State) (now : Int) (c : String) (session : ClientSession)
    (h : s.sessions.get? c = some session) :
    ((sessionCleanupCycle s now).sessions.get? c = none ↔
      (session.ActiveJobs.len ≥ 1 ∧ now - session.LastHeartbeat > 30 * 1000000000) ∨
      (session.ActiveJobs.len = 0 ∧ now - session.LastActivity > 60 * 1000000000)) ∧
    (¬ ((session.ActiveJobs.len ≥ 1 ∧ now - session.LastHeartbeat > 30 * 1000000000) ∨
        (session.ActiveJobs.len = 0 ∧ now - session.LastActivity > 60 * 1000000000)) →
      (sessionCleanupCycle s now).sessions.get? c = some session) := by
  have hexp : sessionExpired now session ↔
      (session.ActiveJobs.len ≥ 1 ∧ now - session.LastHeartbeat > 30 * 1000000000) ∨
      (session.ActiveJobs.len = 0 ∧ now - session.LastActivity > 60 * 1000000000) := by
    simp only [sessionExpired, heartbeatTimedOut, idleTimedOut, HeartbeatTimeout,
      SessionIdleTimeout, Second]
    constructor
    · rintro (⟨h1, h2⟩ | ⟨h1, h2⟩)
      · exact Or.inl ⟨h1, h2⟩
      · exact Or.inr ⟨by omega, h2⟩
    · rintro (⟨h1, h2⟩ | ⟨h1, h2⟩)
      · exact Or.inl ⟨h1, h2⟩
      · exact Or.inr ⟨by omega, h2⟩
  rw [sessionCleanupCycle_sessions, sweepSessions_get?, h, ← hexp]
  by_cases he : sessionExpired now session <;> simp [afterSweep, he]

/-- C10 on the boundary: client `C` (heartbeat at 0, one active job) survives
the sweep at exactly 30 s and is destroyed by the sweep one nanosecond later. -/
theorem session_sweep_contract_witness :
    downloadRunning.sessions.get? "C" = some ⟨0, 0, ⟨[("J", true)]⟩⟩ ∧
    (sessionCleanupCycle downloadRunning (30 * Second)).sessions.get? "C"
      = some ⟨0, 0, ⟨[("J", true)]⟩⟩ ∧
    (sessionCleanupCycle downloadRunning (30 * Second + 1)).sessions.get? "C" = none :=
  ⟨by decide,
   (session_sweep_contract downloadRunning (30 * Second) "C" ⟨0, 0, ⟨[("J", true)]⟩⟩
      (by decide)).2 (by decide),
   (session_sweep_contract downloadRunning (30 * Second + 1) "C" ⟨0, 0, ⟨[("J", true)]⟩⟩
      (by decide)).1.mpr (by decide)⟩

/-! ## Session consistency -/

theorem SessionConsistent.congr {s s' : State} (h : SessionConsistent s)
    (h1 : s'.sessions = s.sessions) (h2 : s'.jobToClient = s.jobToClient) :
    SessionConsistent s' := by
  intro j c hj
  rw [h2] at hj
  rw [h1]
  exact h j c hj

theorem SessionConsistent.registerClient {s : State} (h : SessionConsistent s)
    (clientID : String) (now : Int) : SessionConsistent (RegisterClient s clientID now) := by
  intro j c hj
  unfold RegisterClient at hj ⊢
  cases hs : s.sessions.get? clientID with
  | none =>
    simp only [hs] at hj ⊢
    obtain ⟨session, h1, h2⟩ := h j c hj
    have hc : c ≠ clientID := by
      intro hc; rw [hc, hs] at h1; exact Option.noConfusion h1
    exact ⟨session, by simp [GoMap.get?_set_ne _ _ hc, h1], h2⟩
  | some session0 =>
    simp only [hs] at hj ⊢
    obtain ⟨session, h1, h2⟩ := h j c hj
    by_cases hc : c = clientID
    · subst hc
      rw [hs] at h1
      cases h1
      exact ⟨_, GoMap.get?_set_self _ _ _, h2⟩
    · exact ⟨session, by simp [GoMap.get?_set_ne _ _ hc, h1], h2⟩

theorem SessionConsistent.updateHeartbeat {s : State} (h : SessionConsistent s)
    (clientID : String) (now : Int) : SessionConsistent (UpdateHeartbeat s clientID now).1 := by
  intro j c hj
  unfold UpdateHeartbeat at hj ⊢
  cases hs : s.sessions.get? clientID with
  | none =>
    simp only [hs] at hj ⊢
    exact h j c hj
  | some session0 =>
    simp only [hs] at hj ⊢
    obtain ⟨session, h1, h2⟩ := h j c hj
    by_cases hc : c = clientID
    · subst hc
      rw [hs] at h1
      cases h1
      exact ⟨_, GoMap.get?_set_self _ _ _, h2⟩
    · exact ⟨session, by simp [GoMap.get?_set_ne _ _ hc, h1], h2⟩

theorem SessionConsistent.linkJobToClient {s : State} (h : SessionConsistent s)
    (jobID clientID : String) (now : Int) :
    SessionConsistent (LinkJobToClient s jobID clientID now) := by
  intro j c hj
  unfold LinkJobToClient at hj ⊢
  cases hs : s.sessions.get? clientID with
  | none =>
    simp only [hs] at hj ⊢
    exact h j c hj
  | some session0 =>
    simp only [hs] at hj ⊢
    by_cases he : clientID = ""
    · simp only [he, if_true] at hj ⊢
      exact h j c hj
    · simp only [he, if_false] at hj ⊢
      by_cases hjj : j = jobID
      · subst hjj
        rw [GoMap.get?_set_self] at hj
        cases hj
        exact ⟨_, GoMap.get?_set_self _ _ _, GoMap.get?_set_self _ _ _⟩
      · rw [GoMap.get?_set_ne _ _ hjj] at hj
        obtain ⟨session, h1, h2⟩ := h j c hj
        by_cases hc : c = clientID
        · subst hc
          rw [hs] at h1
          cases h1
          exact ⟨_, GoMap.get?_set_self _ _ _, by simp [GoMap.get?_set_ne _ _ hjj, h2]⟩
        · exact ⟨session, by simp [GoMap.get?_set_ne _ _ hc, h1], h2⟩

theorem SessionConsistent.unlinkJobFromClient {s : State} (h : SessionConsistent s)
    (jobID : String) (now : Int) : SessionConsistent (UnlinkJobFromClient s jobID now) := by
  intro j c hj
  unfold UnlinkJobFromClient at hj ⊢
  cases ho : s.jobToClient.get? jobID with
  | none =>
    simp only [ho] at hj ⊢
    exact h j c hj
  | some owner =>
    simp only [ho] at hj ⊢
    have hjj : j ≠ jobID := by
      intro hjj; rw [hjj, GoMap.get?_del_self] at hj; exact Option.noConfusion hj
    rw [GoMap.get?_del_ne _ hjj] at hj
    obtain ⟨session, h1, h2⟩ := h j c hj
    cases hs : s.sessions.get? owner with
    | none => exact ⟨session, h1, h2⟩
    | some session0 =>
      simp only []
      by_cases hc : c = owner
      · subst hc
        rw [hs] at h1
        cases h1
        exact ⟨_, GoMap.get?_set_self _ _ _, by simp [GoMap.get?_del_ne _ hjj, h2]⟩
      · exact ⟨session, by simp [GoMap.get?_set_ne _ _ hc, h1], h2⟩

theorem SessionConsistent.releaseJob {s : State} (h : SessionConsistent s)
    (jobID : String) (now : Int) : SessionConsistent (ReleaseJob s jobID now).1 := by
  unfold ReleaseJob
  cases s.activeProcesses.get? jobID with
  | none => exact h
  | some processInfo =>
    simp only []
    apply SessionConsistent.unlinkJobFromClient
    apply h.congr
    · simp only [RemovePendingJob]
      split_ifs
      · exact (DecrementJob_sessions _ _).1
      · rfl
    · simp only [RemovePendingJob]
      split_ifs
      · exact (DecrementJob_sessions _ _).2
      · rfl

theorem SessionConsistent.sessionCleanupCycle {s : State} (h : SessionConsistent s)
    (now : Int) : SessionConsistent (sessionCleanupCycle s now) := by
  intro j c hj
  rw [sessionCleanupCycle_sessions, sweepSessions_get?]
  have hj0 : ((sweepSessions now s.sessions).2.foldl runCleanupAction
      { s with sessions := (sweepSessions now s.sessions).1 }).jobToClient.get? j = some c := hj
  have hsub0 := actionsFold_jobToClient_sub j _ _ c hj0
  have hsub : s.jobToClient.get? j = some c := hsub0
  obtain ⟨session, h1, h2⟩ := h j c hsub
  refine ⟨session, ?_, h2⟩
  rw [h1]
  by_cases he : sessionExpired now session
  · exfalso
    rcases he with ht | hi
    · have hact := sweepSessions_actions now s.sessions c session h1 ht
      have hnone := actionsFold_jobToClient_none j _
        { s with sessions := (sweepSessions now s.sessions).1 } _ hact rfl
        (GoMap.mem_keys_of_get? h2)
      have hj' : (Yoink.sessionCleanupCycle s now).jobToClient.get? j = none := hnone
      rw [hj'] at hj
      exact Option.noConfusion hj
    · rw [GoMap.get?_eq_none_of_len_zero hi.1] at h2
      exact Option.noConfusion h2
  · simp [afterSweep, he]

theorem SessionReachable.consistent {s : State} (h : SessionReachable s) :
    SessionConsistent s := by
  induction h with
  | start => intro j c hj; simp [init] at hj
  | registerClient s clientID now _ ih => exact ih.registerClient clientID now
  | updateHeartbeat s clientID now _ ih => exact ih.updateHeartbeat clientID now
  | linkJobToClient s jobID clientID now _ ih => exact ih.linkJobToClient jobID clientID now
  | unlinkJobFromClient s jobID now _ ih => exact ih.unlinkJobFromClient jobID now
  | releaseJob s jobID now _ ih => exact ih.releaseJob jobID now
  | sessionCleanup s now _ ih => exact ih.sessionCleanupCycle now
  | other s s' _ h1 h2 ih => exact ih.congr h1 h2

/-- C9: in every state reachable through `RegisterClient`, `LinkJobToClient`,
`UnlinkJobFromClient`, `ReleaseJob` and completed session-sweep cycles, every
entry `jobToClient[j] = c` refers to an existing session `c` whose `ActiveJobs`
set holds `j`. -/
theorem session_consistency (s : State) (h : SessionReachable s) (j c : String)
    (hj : s.jobToClient.get? j = some c) :
    ∃ session, s.sessions.get? c = some session ∧ session.ActiveJobs.get? j = some true :=
  h.consistent j c hj

/-- C9 on a concrete run: client `C` registers and is linked to the job `J`;
the owner entry of `J` points to the session of `C`, which holds `J`. -/
theorem session_consistency_witness :
    SessionReachable (LinkJobToClient (RegisterClient init "C" 0) "J" "C" 0) ∧
    (LinkJobToClient (RegisterClient init "C" 0) "J" "C" 0).jobToClient.get? "J" = some "C" ∧
    ∃ session,
      (LinkJobToClient (RegisterClient init "C" 0) "J" "C" 0).sessions.get? "C" = some session ∧
      session.ActiveJobs.get? "J" = some true :=
  ⟨.linkJobToClient _ _ _ _ (.registerClient _ _ _ .start),
   by decide,
   session_consistency _ (.linkJobToClient _ _ _ _ (.registerClient _ _ _ .start)) "J" "C"
    (by decide)⟩

/-! ## The session sweeper, job by job -/

theorem GoMap.erase_erase_self {V : Type} (k : String) (l : List (String × V)) :
    GoMap.erase k (GoMap.erase k l) = GoMap.erase k l := by
  induction l with
  | nil => rfl
  | cons e rest ih =>
    obtain ⟨k1, v⟩ := e
    by_cases h : k1 = k
    · simp [GoMap.erase, h, ih]
    · simp [GoMap.erase, h, ih]

theorem GoMap.del_set_self {V : Type} (m : GoMap V) (k : String) (v : V) :
    (m.set k v).del k = m.del k := by
  simp [GoMap.set, GoMap.del, GoMap.erase, GoMap.erase_erase_self]

theorem cancelSessionJob_playlist (s : State) (jobID : String) (aj : AsyncJob)
    (h : GetAsyncJob s jobID = some aj) (hp : aj.Type_ = "playlist") :
    cancelSessionJob s jobID = { s with jobToClient := s.jobToClient.del jobID } := by
  simp [cancelSessionJob, h, hp]

theorem cancelSessionJob_other (s : State) (jobID : String)
    (h : ¬ ∃ aj, GetAsyncJob s jobID = some aj ∧ aj.Type_ = "playlist") :
    cancelSessionJob s jobID =
      match GetProcess s jobID with
      | some info =>
        let s1 : State := { s with activeProcesses := s.activeProcesses.del jobID }
        let s2 := if info.JobType ≠ "" then DecrementJob s1 info.JobType else s1
        { s2 with pendingJobs := s2.pendingJobs.del jobID,
                  jobToClient := s2.jobToClient.del jobID }
      | none =>
        { s with pendingJobs := s.pendingJobs.del jobID,
                 jobToClient := s.jobToClient.del jobID } := by
  have hnp : (match GetAsyncJob s jobID with
      | some aj => decide (aj.Type_ = "playlist")
      | none => false) = false := by
    cases hj : GetAsyncJob s jobID with
    | none => rfl
    | some aj =>
      have : ¬ aj.Type_ = "playlist" := fun hp => h ⟨aj, hj, hp⟩
      simp [this]
  simp only [cancelSessionJob, hnp]
  cases hg : GetProcess s jobID with
  | none =>
    have hg' : s.activeProcesses.get? jobID = none := hg
    simp [hg', RemovePendingJob, DecrementJob]
  | some info =>
    by_cases ht : info.JobType = ""
    · simp [SetProcess, RemovePendingJob, ht, GoMap.del_set_self]
    · simp [SetProcess, RemovePendingJob, ht, GoMap.del_set_self]

/-- C11: when the sweeper times out a session, it schedules the loop body for
every job the session owned, and the loop body does this on the job `jobID`:
if the job record has type playlist, the `ProcessInfo` stays registered and
untouched, every counter is unchanged and the id leaves `jobToClient`;
otherwise the `ProcessInfo` (when present) is marked cancelled and leaves the
process registry, the counter of its job type is decremented once (by
`DecrementJob`, so not below zero), the pending-job entry is removed and the
id leaves `jobToClient`. -/
theorem sweeper_job_contract (s : State) (now : Int) (c : String) (session : ClientSession)
    (hc : s.sessions.get? c = some session) (ht : heartbeatTimedOut now session) :
    (∃ a ∈ (sweepSessions now s.sessions).2,
      a.clientID = c ∧ a.jobIDs = session.ActiveJobs.keys ∧
      ∀ s0, runCleanupAction s0 a = session.ActiveJobs.keys.foldl cancelSessionJob s0) ∧
    (∀ (s0 : State) (jobID : String),
      (∀ aj, GetAsyncJob s0 jobID = some aj → aj.Type_ = "playlist" →
        GetProcess (cancelSessionJob s0 jobID) jobID = GetProcess s0 jobID ∧
        cancelSessionJobProcess s0 jobID = GetProcess s0 jobID ∧
        (∀ t, (cancelSessionJob s0 jobID).count t = s0.count t) ∧
        (cancelSessionJob s0 jobID).jobToClient.get? jobID = none) ∧
      ((¬ ∃ aj, GetAsyncJob s0 jobID = some aj ∧ aj.Type_ = "playlist") →
        GetProcess (cancelSessionJob s0 jobID) jobID = none ∧
        (cancelSessionJob s0 jobID).pendingJobs.get? jobID = none ∧
        (cancelSessionJob s0 jobID).jobToClient.get? jobID = none ∧
        (∀ info, GetProcess s0 jobID = some info →
          cancelSessionJobProcess s0 jobID = some { info with cancelled := true } ∧
          ∀ t, (cancelSessionJob s0 jobID).count t =
            if t = info.JobType ∧ info.JobType ≠ "" ∧ s0.count t > 0 then s0.count t - 1
            else s0.count t) ∧
        (GetProcess s0 jobID = none →
          cancelSessionJobProcess s0 jobID = none ∧
          ∀ t, (cancelSessionJob s0 jobID).count t = s0.count t))) := by
  refine ⟨⟨_, sweepSessions_actions now s.sessions c session hc ht, rfl, rfl, fun s0 => rfl⟩,
    fun s0 jobID => ⟨fun aj haj hp => ?_, fun hnp => ?_⟩⟩
  · rw [cancelSessionJob_playlist s0 jobID aj haj hp]
    refine ⟨rfl, ?_, fun t => rfl, GoMap.get?_del_self _ _⟩
    simp [cancelSessionJobProcess, haj, hp]
  · have hflag : (match GetAsyncJob s0 jobID with
        | some aj => decide (aj.Type_ = "playlist")
        | none => false) = false := by
      cases hj : GetAsyncJob s0 jobID with
      | none => rfl
      | some aj =>
        have : ¬ aj.Type_ = "playlist" := fun hp => hnp ⟨aj, hj, hp⟩
        simp [this]
    rw [cancelSessionJob_other s0 jobID hnp]
    cases hg : GetProcess s0 jobID with
    | none =>
      refine ⟨hg, GoMap.get?_del_self _ _, GoMap.get?_del_self _ _, fun info hi => ?_, fun _ => ?_⟩
      · exact Option.noConfusion hi
      · exact ⟨by simp [cancelSessionJobProcess, hflag, hg], fun t => rfl⟩
    | some info =>
      refine ⟨?_, GoMap.get?_del_self _ _, GoMap.get?_del_self _ _, fun info' hi => ?_,
        fun h => Option.noConfusion h⟩
      · by_cases hjt : info.JobType = ""
        · simp [GetProcess, hjt]
        · simp only [GetProcess, ne_eq, hjt, not_false_eq_true, if_true]
          unfold DecrementJob
          split_ifs <;> simp
      · cases hi
        refine ⟨by simp [cancelSessionJobProcess, hflag, hg], fun t => ?_⟩
        by_cases hjt : info.JobType = ""
        · simp [hjt, State.count]
        · simp only [ne_eq, hjt, not_false_eq_true, if_true, true_and]
          have := count_DecrementJob
            { s0 with activeProcesses := s0.activeProcesses.del jobID } info.JobType t
          simp only [State.count] at this ⊢
          rw [this]
          by_cases htt : t = info.JobType
          · subst htt; simp
          · simp [htt]

/-- C11 on scenario 4 of the specification: client `C` (heartbeat at 0) owns
the download `J` and the playlist `P`; at 31 s its heartbeat has timed out.
The loop body leaves the `ProcessInfo` of `P` registered and drops its owner
entry; it marks the `ProcessInfo` of `J` cancelled, drops it from the registry
and brings the download counter from 1 to 0. -/
theorem sweeper_job_contract_witness :
    downloadAndPlaylist.sessions.get? "C" = some ⟨0, 0, ⟨[("P", true), ("J", true)]⟩⟩ ∧
    heartbeatTimedOut (31 * Second) ⟨0, 0, ⟨[("P", true), ("J", true)]⟩⟩ ∧
    (GetProcess (cancelSessionJob downloadAndPlaylist "P") "P"
        = GetProcess downloadAndPlaylist "P" ∧
      (cancelSessionJob downloadAndPlaylist "P").jobToClient.get? "P" = none) ∧
    (GetProcess (cancelSessionJob downloadAndPlaylist "J") "J" = none ∧
      cancelSessionJobProcess downloadAndPlaylist "J"
        = some { cancelled := true, JobType := "download" } ∧
      (cancelSessionJob downloadAndPlaylist "J").count "download" = 0) := by
  have h := sweeper_job_contract downloadAndPlaylist (31 * Second) "C"
    ⟨0, 0, ⟨[("P", true), ("J", true)]⟩⟩ (by decide) (by decide)
  refine ⟨by decide, by decide, ?_, ?_⟩
  · have hp := (h.2 downloadAndPlaylist "P").1
      { Status := "starting", Message := "getting playlist info...", CreatedAt := 0,
        Type_ := "playlist" } (by decide) (by decide)
    exact ⟨hp.1, hp.2.2.2⟩
  · have hj := (h.2 downloadAndPlaylist "J").2 (by decide)
    have hi := hj.2.2.2.1 { JobType := "download" } (by decide)
    refine ⟨hj.1, hi.1, ?_⟩
    rw [hi.2 "download"]
    decide

/-! ## The mutators of `AsyncJob` -/

/-- C12 fails on the code: the record `completedJob` is terminal (status
`complete`, progress 100), yet `SetStatus("processing")` changes its status,
`SetProgress(5)` and `SetProgressAndMessage(5, _)` change its progress and
`SetError` turns it into an `error` record. -/
theorem terminal_record_is_mutable :
    completedJob.Status = "complete" ∧
    (completedJob.SetStatus "processing").Status ≠ completedJob.Status ∧
    (completedJob.SetProgress 5).Progress ≠ completedJob.Progress ∧
    (completedJob.SetProgressAndMessage 5 "Encoding...").Progress ≠ completedJob.Progress ∧
    (completedJob.SetError "Cancelled").Status ≠ completedJob.Status := by
  decide

/-- C12 as amended: the mutators are unconditional setters, on every record and
so on every terminal one.  `SetMessage` leaves status and progress unchanged;
`SetStatus(x)` sets the status to `x` and keeps the progress; `SetProgress(p)`
and `SetProgressAndMessage(p, m)` set the progress to `p` and keep the status;
`SetError` sets the status to `error` and keeps the progress; `SetComplete`
sets the status to `complete` and the progress to 100. -/
theorem mutators_are_setters (j : AsyncJob) (x m e o f t : String) (p : ℚ) :
    ((j.SetMessage m).Status = j.Status ∧ (j.SetMessage m).Progress = j.Progress) ∧
    ((j.SetStatus x).Status = x ∧ (j.SetStatus x).Progress = j.Progress) ∧
    ((j.SetProgress p).Status = j.Status ∧ (j.SetProgress p).Progress = p) ∧
    ((j.SetProgressAndMessage p m).Status = j.Status ∧
      (j.SetProgressAndMessage p m).Progress = p) ∧
    ((j.SetError e).Status = "error" ∧ (j.SetError e).Progress = j.Progress) ∧
    ((j.SetComplete o f t).Status = "complete" ∧ (j.SetComplete o f t).Progress = 100) :=
  ⟨⟨rfl, rfl⟩, ⟨rfl, rfl⟩, ⟨rfl, rfl⟩, ⟨rfl, rfl⟩, ⟨rfl, rfl⟩, ⟨rfl, rfl⟩⟩

/-! ## The ephemeral artifact store -/

theorem forEachBotDownloadVisit_get?_self (fn : String → BotDownload → Files → Bool × Files)
    (p : String → BotDownload → Bool) (hp : ∀ t dl fs, (fn t dl fs).1 = p t dl)
    (acc : GoMap BotDownload × Files) (k : String) :
    (forEachBotDownloadVisit fn acc k).1.get? k =
      (acc.1.get? k).bind (fun dl => if p k dl = true then none else some dl) := by
  unfold forEachBotDownloadVisit
  cases hk : acc.1.get? k with
  | none => simp [hk]
  | some dl =>
    by_cases h : p k dl = true
    · simp [hp, h]
    · simp [hp, h, hk]

theorem forEachBotDownloadVisit_get?_ne (fn : String → BotDownload → Files → Bool × Files)
    (acc : GoMap BotDownload × Files) {k c : String} (h : c ≠ k) :
    (forEachBotDownloadVisit fn acc k).1.get? c = acc.1.get? c := by
  unfold forEachBotDownloadVisit
  cases acc.1.get? k with
  | none => rfl
  | some dl =>
    by_cases h1 : (fn k dl acc.2).1 = true
    · simp [h1, GoMap.get?_del_ne _ h]
    · simp [h1]

theorem forEachBotDownloadFold_get? (fn : String → BotDownload → Files → Bool × Files)
    (p : String → BotDownload → Bool) (hp : ∀ t dl fs, (fn t dl fs).1 = p t dl)
    (c : String) (ks : List String) :
    ∀ acc : GoMap BotDownload × Files,
      (ks.foldl (forEachBotDownloadVisit fn) acc).1.get? c =
        if c ∈ ks then (acc.1.get? c).bind (fun dl => if p c dl = true then none else some dl)
        else acc.1.get? c := by
  induction ks with
  | nil => intro acc; simp
  | cons k rest ih =>
    intro acc
    rw [List.foldl_cons, ih]
    by_cases hck : c = k
    · subst hck
      rw [forEachBotDownloadVisit_get?_self fn p hp]
      cases hg : acc.1.get? c with
      | none => simp
      | some dl => by_cases h : p c dl = true <;> simp [h]
    · simp [forEachBotDownloadVisit_get?_ne fn acc hck, hck]

/-- What `ForEachBotDownload` leaves of each registry entry, when the answer of
the callback depends on the entry only. -/
theorem ForEachBotDownload_get? (fn : String → BotDownload → Files → Bool × Files)
    (p : String → BotDownload → Bool) (hp : ∀ t dl fs, (fn t dl fs).1 = p t dl)
    (botDownloads : GoMap BotDownload) (files : Files) (c : String) :
    (ForEachBotDownload botDownloads fn files).1.get? c =
      (botDownloads.get? c).bind (fun dl => if p c dl = true then none else some dl) := by
  unfold ForEachBotDownload
  rw [forEachBotDownloadFold_get? fn p hp]
  split_ifs with h
  · rfl
  · cases hc : botDownloads.get? c with
    | none => rfl
    | some dl => exact absurd (GoMap.mem_keys_of_get? hc) h

theorem botDownloadExpiryCycle_get? (botDownloads : GoMap BotDownload) (files : Files)
    (now : Int) (c : String) :
    (botDownloadExpiryCycle botDownloads files now).1.get? c =
      (botDownloads.get? c).bind
        (fun dl => if botDownloadExpired now dl = true then none else some dl) := by
  unfold botDownloadExpiryCycle
  apply ForEachBotDownload_get? _ (fun _ dl => botDownloadExpired now dl)
  intro t dl fs
  by_cases h : botDownloadExpired now dl = true <;> simp [h]

/-- C13: after one run of the short-TTL sweeper at time `now`, the registry
holds exactly the previous entries that are flagged is-web-playlist, or flagged
is-playlist, or whose age `now - CreatedAt` is at most 5 minutes; an evicted
token no longer resolves, so the download endpoint answers 404; and no token
that did not resolve before resolves afterwards. -/
theorem short_ttl_sweep_contract (botDownloads : GoMap BotDownload) (files : Files)
    (now : Int) (token : String) :
    (∀ dl, GetBotDownload botDownloads token = some dl →
      (dl.IsWebPlaylist = true ∨ dl.IsPlaylist = true ∨
          now - dl.CreatedAt ≤ 5 * 60 * 1000000000 →
        GetBotDownload (botDownloadExpiryCycle botDownloads files now).1 token = some dl) ∧
      (¬ (dl.IsWebPlaylist = true ∨ dl.IsPlaylist = true ∨
            now - dl.CreatedAt ≤ 5 * 60 * 1000000000) →
        GetBotDownload (botDownloadExpiryCycle botDownloads files now).1 token = none ∧
        (handleBotFileDownload (botDownloadExpiryCycle botDownloads files now).1
            (botDownloadExpiryCycle botDownloads files now).2 token).2.status = 404)) ∧
    (GetBotDownload botDownloads token = none →
      GetBotDownload (botDownloadExpiryCycle botDownloads files now).1 token = none) := by
  have hexp : ∀ dl : BotDownload, botDownloadExpired now dl = true ↔
      ¬ (dl.IsWebPlaylist = true ∨ dl.IsPlaylist = true ∨
          now - dl.CreatedAt ≤ 5 * 60 * 1000000000) := by
    intro dl
    simp only [botDownloadExpired, BotDownloadExpiry, Second, Bool.and_eq_true,
      decide_eq_true_eq, Bool.not_eq_true', not_or, not_le]
    constructor
    · rintro ⟨⟨h1, h2⟩, h3⟩
      exact ⟨by simp [h2], by simp [h3], by omega⟩
    · rintro ⟨h1, h2, h3⟩
      exact ⟨⟨by omega, by simpa using h1⟩, by simpa using h2⟩
  simp only [GetBotDownload, botDownloadExpiryCycle_get?]
  refine ⟨fun dl hdl => ⟨fun hk => ?_, fun hk => ?_⟩, fun hn => by simp [hn]⟩
  · have : ¬ botDownloadExpired now dl = true := fun h => (hexp dl).mp h hk
    simp [hdl, this]
  · have he : botDownloadExpired now dl = true := (hexp dl).mpr hk
    have hnone : (botDownloadExpiryCycle botDownloads files now).1.get? token = none := by
      rw [botDownloadExpiryCycle_get?]; simp [hdl, he]
    refine ⟨by simp [hdl, he], ?_⟩
    simp [handleBotFileDownload, GetBotDownload, hnone]

/-- C13 on scenario 6 of the specification: the plain token `T` created at
t=0 is gone after the sweep at t=301 s and its download answers 404, while it
is still there after a sweep at exactly 300 s. -/
theorem short_ttl_sweep_contract_witness :
    GetBotDownload threeArtifacts.1 "T"
      = some { FilePath := "/var/tmp/yoink/bot/t.mp4", FileName := "t.mp4" } ∧
    (GetBotDownload
        (botDownloadExpiryCycle threeArtifacts.1 threeArtifacts.2 (301 * Second)).1 "T" = none ∧
      (handleBotFileDownload
        (botDownloadExpiryCycle threeArtifacts.1 threeArtifacts.2 (301 * Second)).1
        (botDownloadExpiryCycle threeArtifacts.1 threeArtifacts.2 (301 * Second)).2
        "T").2.status = 404) ∧
    GetBotDownload
        (botDownloadExpiryCycle threeArtifacts.1 threeArtifacts.2 (300 * Second)).1 "T"
      = some { FilePath := "/var/tmp/yoink/bot/t.mp4", FileName := "t.mp4" } :=
  ⟨by decide,
   ((short_ttl_sweep_contract threeArtifacts.1 threeArtifacts.2 (301 * Second) "T").1
      { FilePath := "/var/tmp/yoink/bot/t.mp4", FileName := "t.mp4" } (by decide)).2
      (by decide),
   ((short_ttl_sweep_contract threeArtifacts.1 threeArtifacts.2 (300 * Second) "T").1
      { FilePath := "/var/tmp/yoink/bot/t.mp4", FileName := "t.mp4" } (by decide)).1
      (by decide)⟩

/-! ## The chunked upload subsystem -/

/-- C16: upload init answers 400 and registers nothing whenever `totalChunks`
exceeds 200 or `fileSize` exceeds 8 GiB (or is no 64-bit integer at all), and
it accepts a request with a non-empty `fileName`, `0 < fileSize <= 8 GiB` and
`totalChunks = 200`: the upload is registered under the returned `uploadId`
with that name, size and chunk count and no chunk received. -/
theorem upload_init_contract (st : UploadState) (body : UploadInitBody) (uploadID : String)
    (now : Int) :
    ((body.TotalChunks > 200 ∨ jsonNumberInt64 body.FileSize = none ∨
        ∃ n, jsonNumberInt64 body.FileSize = some n ∧ n > 8 * 1024 * 1024 * 1024) →
      ∃ msg, handleUploadInit st body uploadID now = (st, .rejected 400 msg)) ∧
    (∀ n, body.FileName ≠ "" → jsonNumberInt64 body.FileSize = some n → 0 < n →
        n ≤ 8 * 1024 * 1024 * 1024 → body.TotalChunks = 200 →
      handleUploadInit st body uploadID now =
        ({ st with chunkedUploads :=
            st.chunkedUploads.set uploadID ⟨body.FileName, n, 200, IntSet.empty, now⟩ },
          .initialized uploadID)) := by
  constructor
  · intro h
    by_cases h1 : body.FileName = "" ∨ body.FileSize = "" ∨ body.TotalChunks = 0
    · exact ⟨_, by simp only [handleUploadInit, h1, if_true]; rfl⟩
    · cases hp : jsonNumberInt64 body.FileSize with
      | none => exact ⟨_, by simp only [handleUploadInit, h1, if_false, hp]; rfl⟩
      | some fileSize =>
        by_cases h2 : fileSize ≤ 0
        · exact ⟨_, by simp only [handleUploadInit, h1, if_false, hp, h2, if_true]; rfl⟩
        · by_cases h3 : fileSize > FileSizeLimit
          · exact ⟨_, by simp only [handleUploadInit, h1, if_false, hp, h2, h3, if_true]; rfl⟩
          · by_cases h4 : body.TotalChunks > 200
            · exact ⟨_, by simp only [handleUploadInit, h1, if_false, hp, h2, h3, h4, if_true]; rfl⟩
            · exfalso
              rcases h with h | h | ⟨n, hn, hgt⟩
              · exact h4 h
              · rw [hp] at h; exact Option.noConfusion h
              · rw [hp] at hn
                cases hn
                exact h3 (by simpa [FileSizeLimit] using hgt)
  · intro n hname hp hpos hle hchunks
    have hsize : body.FileSize ≠ "" := by
      intro he
      rw [he] at hp
      exact Option.noConfusion hp
    have h1 : ¬ (body.FileName = "" ∨ body.FileSize = "" ∨ body.TotalChunks = 0) := by
      rintro (h | h | h)
      · exact hname h
      · exact hsize h
      · rw [hchunks] at h; exact absurd h (by decide)
    have h2 : ¬ n ≤ 0 := by omega
    have h3 : ¬ n > FileSizeLimit := by simp only [FileSizeLimit]; omega
    have h4 : ¬ body.TotalChunks > 200 := by omega
    simp only [handleUploadInit, h1, if_false, hp, h2, h3, h4, SetChunkedUpload]
    rw [hchunks]

/-- C16 on the boundary of the specification: 200 chunks of an 8 GiB file are
accepted, 201 chunks are refused, and so is one byte more than 8 GiB. -/
theorem upload_init_contract_witness :
    (handleUploadInit noUploads ⟨"a.mp4", "8589934592", 200⟩ "U" 0).2 = .initialized "U" ∧
    GetChunkedUpload (handleUploadInit noUploads ⟨"a.mp4", "8589934592", 200⟩ "U" 0).1 "U"
      = some ⟨"a.mp4", 8589934592, 200, IntSet.empty, 0⟩ ∧
    (∃ msg, handleUploadInit noUploads ⟨"a.mp4", "10", 201⟩ "U" 0
      = (noUploads, .rejected 400 msg)) ∧
    (∃ msg, handleUploadInit noUploads ⟨"a.mp4", "8589934593", 200⟩ "U" 0
      = (noUploads, .rejected 400 msg)) := by
  have h := (upload_init_contract noUploads ⟨"a.mp4", "8589934592", 200⟩ "U" 0).2
    8589934592 (by decide) (by decide) (by decide) (by decide) rfl
  refine ⟨by rw [h], by rw [h]; decide, ?_, ?_⟩
  · exact (upload_init_contract noUploads ⟨"a.mp4", "10", 201⟩ "U" 0).1 (Or.inl (by decide))
  · exact (upload_init_contract noUploads ⟨"a.mp4", "8589934593", 200⟩ "U" 0).1
      (Or.inr (Or.inr ⟨8589934593, by decide, by decide⟩))

theorem IntSet.mem_add (m : IntSet) (i k : Int) :
    k ∈ (m.add i).keys ↔ k = i ∨ k ∈ m.keys := by
  unfold IntSet.add
  split_ifs with h
  · constructor
    · exact Or.inr
    · rintro (rfl | h1)
      · exact h
      · exact h1
  · simp

theorem IntSet.nodup_add (m : IntSet) (i : Int) (h : m.keys.Nodup) : (m.add i).keys.Nodup := by
  unfold IntSet.add
  split_ifs with hi
  · exact h
  · exact List.nodup_cons.mpr ⟨hi, h⟩

theorem GoMap.isSome_get?_set {V : Type} (m : GoMap V) (a b : String) (v : V)
    (h : (m.get? b).isSome = true) : ((m.set a v).get? b).isSome = true := by
  by_cases hab : b = a
  · subst hab; simp
  · rw [GoMap.get?_set_ne _ _ hab]; exact h

/-- A duplicate-free list of indices below `n` has `n` elements exactly when it
holds every index below `n`. -/
theorem length_eq_iff_covers (keys : List Int) (n : Int) (hn : 0 ≤ n) (hnd : keys.Nodup)
    (hr : ∀ k ∈ keys, 0 ≤ k ∧ k < n) :
    (keys.length : Int) = n ↔ ∀ i : Int, 0 ≤ i → i < n → i ∈ keys := by
  have hsub : keys.toFinset ⊆ Finset.Ico 0 n := by
    intro k hk
    have := hr k (List.mem_toFinset.mp hk)
    exact Finset.mem_Ico.mpr this
  have hcard : keys.toFinset.card = keys.length := List.toFinset_card_of_nodup hnd
  have hIco : (Finset.Ico (0 : Int) n).card = n.toNat := by simp
  constructor
  · intro hlen i h0 hi
    have hle : (Finset.Ico (0 : Int) n).card ≤ keys.toFinset.card := by
      rw [hcard, hIco]; omega
    have heq := Finset.eq_of_subset_of_card_le hsub hle
    have : i ∈ keys.toFinset := by rw [heq]; exact Finset.mem_Ico.mpr ⟨h0, hi⟩
    exact List.mem_toFinset.mp this
  · intro hall
    have hsup : Finset.Ico (0 : Int) n ⊆ keys.toFinset := by
      intro i hi
      have := Finset.mem_Ico.mp hi
      exact List.mem_toFinset.mpr (hall i this.1 this.2)
    have heq : keys.toFinset = Finset.Ico 0 n := Finset.Subset.antisymm hsub hsup
    have : keys.length = n.toNat := by rw [← hcard, heq, hIco]
    omega

/-- Two descriptions of the same set of indices count the same number. -/
theorem length_eq_dedup_length (keys l : List Int) (hnd : keys.Nodup)
    (hmem : ∀ k, k ∈ keys ↔ k ∈ l) : keys.length = l.dedup.length := by
  have h1 : keys.toFinset = l.toFinset := by
    ext k; simp [hmem]
  rw [← List.toFinset_card_of_nodup hnd, h1, List.card_toFinset]

theorem handleUploadChunk_refused (st : UploadState) (U : String) (u : ChunkedUpload)
    (index : Int) (chunk : Bytes) (now : Int) (hu : st.chunkedUploads.get? U = some u)
    (hr : index < 0 ∨ index ≥ u.TotalChunks) :
    handleUploadChunk st U index chunk now = (st, .rejected 400 "Invalid chunk index") := by
  simp [handleUploadChunk, GetChunkedUpload, hu, hr]

theorem handleUploadChunk_accepted (st : UploadState) (U : String) (u : ChunkedUpload)
    (index : Int) (chunk : Bytes) (now : Int) (hu : st.chunkedUploads.get? U = some u)
    (hr : ¬ (index < 0 ∨ index ≥ u.TotalChunks)) :
    (handleUploadChunk st U index chunk now).1 =
      { st with
        files := st.files.set (chunkPath U index) chunk
        chunkedUploads := st.chunkedUploads.set U
          ({ u with ReceivedChunks := u.ReceivedChunks.add index, LastActivity := now }) } := by
  simp [handleUploadChunk, GetChunkedUpload, hu, hr, ChunkedUpload.MarkChunkReceived]

/-- What a run of chunk requests leaves of an upload: the record keeps its
name, size and chunk count, its received set is duplicate-free and holds, beside
what it held, exactly the submitted indices that are in range, and every
received index has its chunk file. -/
theorem submitChunks_inv (U : String) (subs : List ChunkSubmission) :
    ∀ (st : UploadState) (u : ChunkedUpload), st.chunkedUploads.get? U = some u →
      u.ReceivedChunks.keys.Nodup →
      (∀ k ∈ u.ReceivedChunks.keys, (st.files.get? (chunkPath U k)).isSome = true) →
      ∃ u', (submitChunks st U subs).chunkedUploads.get? U = some u' ∧
        u'.TotalChunks = u.TotalChunks ∧ u'.FileName = u.FileName ∧
        u'.FileSize = u.FileSize ∧ u'.ReceivedChunks.keys.Nodup ∧
        (∀ k, k ∈ u'.ReceivedChunks.keys ↔
          k ∈ u.ReceivedChunks.keys ∨
            (k ∈ subs.map (fun sub => sub.index) ∧ 0 ≤ k ∧ k < u.TotalChunks)) ∧
        (∀ k ∈ u'.ReceivedChunks.keys,
          ((submitChunks st U subs).files.get? (chunkPath U k)).isSome = true) := by
  induction subs with
  | nil =>
    intro st u hu hnd hf
    exact ⟨u, hu, rfl, rfl, rfl, hnd, fun k => by simp, hf⟩
  | cons sub rest ih =>
    intro st u hu hnd hf
    have hstep : submitChunks st U (sub :: rest) =
        submitChunks (handleUploadChunk st U sub.index sub.chunk sub.now).1 U rest := rfl
    rw [hstep]
    by_cases hr : sub.index < 0 ∨ sub.index ≥ u.TotalChunks
    · rw [handleUploadChunk_refused st U u _ _ _ hu hr]
      obtain ⟨u', h1, h2, h3, h4, h5, h6, h7⟩ := ih st u hu hnd hf
      refine ⟨u', h1, h2, h3, h4, h5, fun k => ?_, h7⟩
      rw [h6 k]
      constructor
      · rintro (h | ⟨ha, hb, hc⟩)
        · exact Or.inl h
        · exact Or.inr ⟨List.mem_cons_of_mem _ ha, hb, hc⟩
      · rintro (h | ⟨ha, hb, hc⟩)
        · exact Or.inl h
        · rcases List.mem_cons.mp ha with he | he
          · exfalso
            have he' : k = sub.index := he
            omega
          · exact Or.inr ⟨he, hb, hc⟩
    · rw [handleUploadChunk_accepted st U u _ _ _ hu hr]
      have hu1 : (st.chunkedUploads.set U
          ({ u with ReceivedChunks := u.ReceivedChunks.add sub.index,
                    LastActivity := sub.now })).get? U = some
          ({ u with ReceivedChunks := u.ReceivedChunks.add sub.index,
                    LastActivity := sub.now }) := GoMap.get?_set_self _ _ _
      obtain ⟨u', h1, h2, h3, h4, h5, h6, h7⟩ := ih
        { st with
          files := st.files.set (chunkPath U sub.index) sub.chunk
          chunkedUploads := st.chunkedUploads.set U
            ({ u with ReceivedChunks := u.ReceivedChunks.add sub.index,
                      LastActivity := sub.now }) }
        ({ u with ReceivedChunks := u.ReceivedChunks.add sub.index, LastActivity := sub.now })
        hu1 (IntSet.nodup_add _ _ hnd)
        (fun k hk => by
          rcases (IntSet.mem_add _ _ _).mp hk with he | he
          · subst he; simp
          · exact GoMap.isSome_get?_set _ _ _ _ (hf k he))
      refine ⟨u', h1, h2, h3, h4, h5, fun k => ?_, h7⟩
      rw [h6 k]
      simp only [IntSet.mem_add, List.map_cons, List.mem_cons]
      constructor
      · rintro ((h | h) | ⟨ha, hb, hc⟩)
        · right
          refine ⟨Or.inl h, ?_⟩
          rw [h]; omega
        · exact Or.inl h
        · exact Or.inr ⟨Or.inr ha, hb, hc⟩
      · rintro (h | ⟨ha | ha, hb, hc⟩)
        · exact Or.inl (Or.inr h)
        · exact Or.inl (Or.inl ha)
        · exact Or.inr ⟨ha, hb, hc⟩

theorem String.append_cancel_left' (a b c : String) (h : a ++ b = a ++ c) : b = c := by
  have h1 := congrArg String.data h
  simp only [String.data_append] at h1
  exact String.ext (List.append_cancel_left h1)

set_option maxRecDepth 100000 in
theorem readDecimal_fmt04d : ∀ i : Nat, i < 200 → readDecimal (fmt04d i) = i := by
  decide

/-- Distinct chunk indices below 200 have distinct chunk files. -/
theorem chunkPath_injective (U : String) (i j : Nat) (hi : i < 200) (hj : j < 200)
    (h : chunkPath U i = chunkPath U j) : i = j := by
  unfold chunkPath at h
  have h1 := String.append_cancel_left' _ _ _ h
  rw [String.append_assoc, String.append_assoc, String.append_assoc, String.append_assoc] at h1
  have h2 := String.append_cancel_left' _ _ _ h1
  have h3 := String.append_cancel_left' _ _ _ h2
  have h4 := String.append_cancel_left' _ _ _ h3
  have h5 := congrArg readDecimal h4
  rwa [readDecimal_fmt04d i hi, readDecimal_fmt04d j hj] at h5

/-- The assembled file is none of the chunk files. -/
theorem assembledPath_ne_chunkPath (U safeName : String) (i : Int) :
    assembledPath U safeName ≠ chunkPath U i := by
  intro h
  unfold assembledPath chunkPath at h
  have h1 := String.append_cancel_left' _ _ _ h
  have h2 := congrArg String.data h1
  simp only [String.data_append] at h2
  simp at h2

theorem Option.exists_of_isSome' {α : Type} {o : Option α} (h : o.isSome = true) :
    ∃ a, o = some a := by
  cases o with
  | none => simp at h
  | some a => exact ⟨a, rfl⟩

/-- The assembly loop: when the chunk files of the remaining indices all exist,
the loop ends without error and the output file holds what it held followed by
the chunks in index order. -/
theorem assembleChunks_spec (U out : String) (hout : ∀ i : Int, out ≠ chunkPath U i) :
    ∀ (L : List Nat) (files : Files) (c : Bytes), L.Nodup → (∀ i ∈ L, i < 200) →
      (∀ i ∈ L, (files.get? (chunkPath U (i : Nat))).isSome = true) →
      files.get? out = some c →
      ∃ files', assembleChunks U out L files = .ok files' ∧
        files'.get? out =
          some (c ++ (L.map (fun i : Nat => (files.get? (chunkPath U i)).getD [])).flatten) := by
  intro L
  induction L with
  | nil =>
    intro files c _ _ _ hc
    exact ⟨files, rfl, by simp [hc]⟩
  | cons i rest ih =>
    intro files c hnd hlt hex hc
    obtain ⟨chunk, hchunk⟩ := Option.exists_of_isSome' (hex i (List.mem_cons_self i rest))
    have hnd' := List.nodup_cons.mp hnd
    have hne : ∀ j ∈ rest, chunkPath U (j : Nat) ≠ chunkPath U (i : Nat) := by
      intro j hj h
      have := chunkPath_injective U j i (hlt j (List.mem_cons_of_mem _ hj))
        (hlt i (List.mem_cons_self i rest)) h
      rw [this] at hj
      exact hnd'.1 hj
    have hkeep : ∀ j ∈ rest,
        ((files.set out (c ++ chunk)).del (chunkPath U (i : Nat))).get? (chunkPath U (j : Nat))
          = files.get? (chunkPath U (j : Nat)) := by
      intro j hj
      rw [GoMap.get?_del_ne _ (hne j hj), GoMap.get?_set_ne _ _ (fun h => hout j h.symm)]
    have hout1 : ((files.set out (c ++ chunk)).del (chunkPath U (i : Nat))).get? out
        = some (c ++ chunk) := by
      rw [GoMap.get?_del_ne _ (hout i), GoMap.get?_set_self]
    obtain ⟨files', h1, h2⟩ := ih
      ((files.set out (c ++ chunk)).del (chunkPath U (i : Nat))) (c ++ chunk) hnd'.2
      (fun j hj => hlt j (List.mem_cons_of_mem _ hj))
      (fun j hj => by rw [hkeep j hj]; exact hex j (List.mem_cons_of_mem _ hj))
      hout1
    have hstep : assembleChunks U out (i :: rest) files =
        assembleChunks U out rest
          ((files.set out (c ++ chunk)).del (chunkPath U (i : Nat))) := by
      simp [assembleChunks, hchunk, hc]
    refine ⟨files', by rw [hstep]; exact h1, ?_⟩
    · rw [h2]
      have hmap : rest.map (fun j : Nat =>
            (((files.set out (c ++ chunk)).del (chunkPath U (i : Nat))).get?
              (chunkPath U j)).getD [])
          = rest.map (fun j : Nat => (files.get? (chunkPath U j)).getD []) :=
        List.map_congr_left (fun j hj => by rw [hkeep j hj])
      rw [hmap]
      simp [hchunk, List.append_assoc]

theorem handleUploadInit_initialized (st st1 : UploadState) (body : UploadInitBody)
    (U id : String) (now : Int)
    (h : handleUploadInit st body U now = (st1, .initialized id)) :
    ∃ fileSize, jsonNumberInt64 body.FileSize = some fileSize ∧ body.TotalChunks ≤ 200 ∧
      st1 = SetChunkedUpload st U
        ⟨body.FileName, fileSize, body.TotalChunks, IntSet.empty, now⟩ := by
  unfold handleUploadInit at h
  by_cases h1 : body.FileName = "" ∨ body.FileSize = "" ∨ body.TotalChunks = 0
  · simp [h1] at h
  · cases hp : jsonNumberInt64 body.FileSize with
    | none => simp [h1, hp] at h
    | some fileSize =>
      by_cases h2 : fileSize ≤ 0
      · simp [h1, hp, h2] at h
      · by_cases h3 : fileSize > FileSizeLimit
        · simp [h1, hp, h2, h3] at h
        · by_cases h4 : body.TotalChunks > 200
          · simp [h1, hp, h2, h3, h4] at h
          · simp only [h1, if_false, hp, h2, h3, h4, Prod.mk.injEq] at h
            exact ⟨fileSize, rfl, by omega, h.1.symm⟩

/-- The handler `handleUploadComplete` on an upload whose received set is
duplicate-free, in range and backed by chunk files. -/
theorem handleUploadComplete_spec (st : UploadState) (U safeName token : String) (now : Int)
    (u : ChunkedUpload) (hu : st.chunkedUploads.get? U = some u)
    (hnd : u.ReceivedChunks.keys.Nodup)
    (hr : ∀ k ∈ u.ReceivedChunks.keys, 0 ≤ k ∧ k < u.TotalChunks)
    (hf : ∀ k ∈ u.ReceivedChunks.keys, (st.files.get? (chunkPath U k)).isSome = true)
    (h0 : 0 ≤ u.TotalChunks) (h200 : u.TotalChunks ≤ 200) :
    ((∀ i : Int, 0 ≤ i → i < u.TotalChunks → i ∈ u.ReceivedChunks.keys) →
      (handleUploadComplete st U safeName token now).2 = .assembled token u.FileName ∧
        (handleUploadComplete st U safeName token now).1.files.get? (assembledPath U safeName) =
          some ((List.range u.TotalChunks.toNat).map
            (fun i : Nat => (st.files.get? (chunkPath U i)).getD [])).flatten ∧
        (handleUploadComplete st U safeName token now).1.fileRefs.get? token
          = some ⟨assembledPath U safeName, u.FileName, now⟩) ∧
    (¬ (∀ i : Int, 0 ≤ i → i < u.TotalChunks → i ∈ u.ReceivedChunks.keys) →
      handleUploadComplete st U safeName token now =
        (st, .rejected 400 ("Missing chunks: received "
          ++ toString (u.ReceivedChunks.keys.length : Int) ++ "/"
          ++ toString u.TotalChunks))) := by
  have hiff := length_eq_iff_covers u.ReceivedChunks.keys u.TotalChunks h0 hnd hr
  constructor
  · intro hall
    have hlen : u.ReceivedChunks.len = u.TotalChunks := hiff.mpr hall
    have hout : ∀ i : Int, assembledPath U safeName ≠ chunkPath U i :=
      fun i => assembledPath_ne_chunkPath U safeName i
    have hmem : ∀ i ∈ List.range u.TotalChunks.toNat, ((i : Nat) : Int) ∈ u.ReceivedChunks.keys := by
      intro i hi
      have := List.mem_range.mp hi
      exact hall i (by omega) (by omega)
    obtain ⟨files', ha, hb⟩ := assembleChunks_spec U (assembledPath U safeName) hout
      (List.range u.TotalChunks.toNat) (st.files.set (assembledPath U safeName) []) []
      (List.nodup_range _)
      (fun i hi => by have := List.mem_range.mp hi; omega)
      (fun i hi => GoMap.isSome_get?_set _ _ _ _ (hf _ (hmem i hi)))
      (GoMap.get?_set_self _ _ _)
    have hmap : (List.range u.TotalChunks.toNat).map (fun i : Nat =>
          ((st.files.set (assembledPath U safeName) []).get? (chunkPath U i)).getD [])
        = (List.range u.TotalChunks.toNat).map
          (fun i : Nat => (st.files.get? (chunkPath U i)).getD []) :=
      List.map_congr_left (fun i _ => by
        rw [GoMap.get?_set_ne _ _ (fun h => hout i h.symm)])
    rw [hmap, List.nil_append] at hb
    have hc : handleUploadComplete st U safeName token now =
        (SetFileRef (DeleteChunkedUpload { st with files := files' } U) token
            ⟨assembledPath U safeName, u.FileName, now⟩,
          .assembled token u.FileName) := by
      simp only [handleUploadComplete, GetChunkedUpload, hu, ChunkedUpload.IsComplete, hlen,
        decide_True, Bool.true_eq_false, if_false, ha]
    rw [hc]
    refine ⟨rfl, hb, ?_⟩
    simp [SetFileRef, DeleteChunkedUpload, GoMap.get?_set_self]
  · intro hnot
    have hlen : ¬ u.ReceivedChunks.len = u.TotalChunks := fun h => hnot (hiff.mp h)
    have hlen' : ¬ (u.ReceivedChunks.keys.length : Int) = u.TotalChunks := hlen
    simp only [handleUploadComplete, GetChunkedUpload, hu, ChunkedUpload.IsComplete,
      IntSet.len, hlen', decide_False, if_true]

/-- The handler `handleUploadComplete` after an initialisation and a run of
accepted chunk submissions: it assembles the stored chunk files in index order
when every index was submitted, and answers 400 otherwise. -/
theorem complete_after_submissions (st0 st1 : UploadState) (body : UploadInitBody)
    (U : String) (now0 : Int)
    (hinit : handleUploadInit st0 body U now0 = (st1, .initialized U))
    (hn : 1 ≤ body.TotalChunks) (subs : List ChunkSubmission)
    (hacc : ∀ sub ∈ subs, 0 ≤ sub.index ∧ sub.index < body.TotalChunks)
    (safeName token : String) (now : Int) :
    ((∀ i : Int, 0 ≤ i → i < body.TotalChunks → i ∈ subs.map (fun sub => sub.index)) →
      (handleUploadComplete (submitChunks st1 U subs) U safeName token now).2
        = .assembled token body.FileName ∧
      (handleUploadComplete (submitChunks st1 U subs) U safeName token now).1.files.get?
          (assembledPath U safeName) =
        some ((List.range body.TotalChunks.toNat).map (fun i : Nat =>
          ((submitChunks st1 U subs).files.get? (chunkPath U i)).getD [])).flatten ∧
      (handleUploadComplete (submitChunks st1 U subs) U safeName token now).1.fileRefs.get?
          token = some ⟨assembledPath U safeName, body.FileName, now⟩) ∧
    (¬ (∀ i : Int, 0 ≤ i → i < body.TotalChunks → i ∈ subs.map (fun sub => sub.index)) →
      handleUploadComplete (submitChunks st1 U subs) U safeName token now =
        (submitChunks st1 U subs, .rejected 400 ("Missing chunks: received "
          ++ toString (((subs.map (fun sub => sub.index)).dedup.length : Nat) : Int) ++ "/"
          ++ toString body.TotalChunks))) := by
  obtain ⟨fileSize, _, h200, hst1⟩ := handleUploadInit_initialized st0 st1 body U U now0 hinit
  have hu0 : st1.chunkedUploads.get? U
      = some ⟨body.FileName, fileSize, body.TotalChunks, IntSet.empty, now0⟩ := by
    rw [hst1]; exact GoMap.get?_set_self _ _ _
  obtain ⟨u, hu, hT, hN, _, hnd, hkeys, hfiles⟩ :=
    submitChunks_inv U subs st1 _ hu0 List.nodup_nil (fun k hk => by cases hk)
  have hT' : u.TotalChunks = body.TotalChunks := hT
  have hN' : u.FileName = body.FileName := hN
  have hmem : ∀ k, k ∈ u.ReceivedChunks.keys ↔ k ∈ subs.map (fun sub => sub.index) := by
    intro k
    rw [hkeys k]
    constructor
    · rintro (h | h)
      · cases h
      · exact h.1
    · intro h
      obtain ⟨sub, hsub, rfl⟩ := List.mem_map.mp h
      exact Or.inr ⟨h, hacc sub hsub⟩
  have hr : ∀ k ∈ u.ReceivedChunks.keys, 0 ≤ k ∧ k < u.TotalChunks := by
    intro k hk
    obtain ⟨sub, hsub, rfl⟩ := List.mem_map.mp ((hmem k).mp hk)
    rw [hT']; exact hacc sub hsub
  have hspec := handleUploadComplete_spec (submitChunks st1 U subs) U safeName token now u hu
    hnd hr hfiles (by omega) (by omega)
  have hlen := length_eq_dedup_length _ _ hnd hmem
  rw [hT', hN'] at hspec
  constructor
  · intro hall
    exact hspec.1 (fun i h0 h1 => (hmem i).mpr (hall i h0 h1))
  · intro hnot
    have := hspec.2 (fun hall => hnot (fun i h0 h1 => (hmem i).mp (hall i h0 h1)))
    rw [this, hlen]

/-- C14: for every chunked upload initialised with `totalChunks = n ≥ 1` and every
sequence of accepted chunk submissions (indices in `[0, n)`, repeats allowed),
`complete` succeeds, answering the file token and the file name, when every index
of `[0, n)` has been submitted; otherwise it leaves the state as it is and answers
400 with `Missing chunks: received r/n`, `r` the number of distinct indices
submitted. -/
theorem upload_complete_contract (st0 st1 : UploadState) (body : UploadInitBody)
    (U : String) (now0 : Int)
    (hinit : handleUploadInit st0 body U now0 = (st1, .initialized U))
    (hn : 1 ≤ body.TotalChunks) (subs : List ChunkSubmission)
    (hacc : ∀ sub ∈ subs, 0 ≤ sub.index ∧ sub.index < body.TotalChunks)
    (safeName token : String) (now : Int) :
    ((∀ i : Int, 0 ≤ i → i < body.TotalChunks → i ∈ subs.map (fun sub => sub.index)) →
      (handleUploadComplete (submitChunks st1 U subs) U safeName token now).2
        = .assembled token body.FileName) ∧
    (¬ (∀ i : Int, 0 ≤ i → i < body.TotalChunks → i ∈ subs.map (fun sub => sub.index)) →
      handleUploadComplete (submitChunks st1 U subs) U safeName token now =
        (submitChunks st1 U subs, .rejected 400 ("Missing chunks: received "
          ++ toString (((subs.map (fun sub => sub.index)).dedup.length : Nat) : Int) ++ "/"
          ++ toString body.TotalChunks))) :=
  have h := complete_after_submissions st0 st1 body U now0 hinit hn subs hacc safeName token now
  ⟨fun hall => (h.1 hall).1, h.2⟩

/-- C14 on scenario 5 of the specification: after the chunks 0, 1, 2 (chunk 1
twice) of 4, `complete` answers 400 with `Missing chunks: received 3/4`; once
chunk 3 has arrived too it answers the token and the file name. -/
theorem upload_complete_contract_witness :
    handleUploadComplete threeOfFour "U" "a.mp4" "TOK" 9
      = (threeOfFour, .rejected 400 "Missing chunks: received 3/4") ∧
    (handleUploadComplete
      (submitChunks (handleUploadInit noUploads ⟨"a.mp4", "10", 4⟩ "U" 0).1 "U"
        [⟨0, [1, 2], 1⟩, ⟨1, [3], 2⟩, ⟨2, [4, 5, 6], 3⟩, ⟨1, [7], 4⟩, ⟨3, [8], 5⟩])
      "U" "a.mp4" "TOK" 9).2 = .assembled "TOK" "a.mp4" :=
  ⟨(upload_complete_contract noUploads _ ⟨"a.mp4", "10", 4⟩ "U" 0 rfl (by decide)
      [⟨0, [1, 2], 1⟩, ⟨1, [3], 2⟩, ⟨2, [4, 5, 6], 3⟩, ⟨1, [7], 4⟩] (by decide)
      "a.mp4" "TOK" 9).2
      (fun h => absurd (h 3 (by decide) (by decide)) (by decide)),
   (upload_complete_contract noUploads _ ⟨"a.mp4", "10", 4⟩ "U" 0 rfl (by decide)
      [⟨0, [1, 2], 1⟩, ⟨1, [3], 2⟩, ⟨2, [4, 5, 6], 3⟩, ⟨1, [7], 4⟩, ⟨3, [8], 5⟩] (by decide)
      "a.mp4" "TOK" 9).1
      (fun i h0 h1 => by
        have : i = 0 ∨ i = 1 ∨ i = 2 ∨ i = 3 := by
          have h4 : i < 4 := h1
          omega
        rcases this with rfl | rfl | rfl | rfl <;> decide)⟩

/-- C15 fails: an upload declared with `fileSize = 10` and one chunk, whose only
chunk holds 3 bytes, is completed with success, and the assembled file is 3
bytes long. -/
theorem assembled_length_differs :
    GetChunkedUpload
        (submitChunks (handleUploadInit noUploads ⟨"a.mp4", "10", 1⟩ "U" 0).1 "U"
          [⟨0, [1, 2, 3], 1⟩]) "U"
      = some ⟨"a.mp4", 10, 1, ⟨[0]⟩, 1⟩ ∧
    (handleUploadComplete
        (submitChunks (handleUploadInit noUploads ⟨"a.mp4", "10", 1⟩ "U" 0).1 "U"
          [⟨0, [1, 2, 3], 1⟩]) "U" "a.mp4" "TOK" 2).2 = .assembled "TOK" "a.mp4" ∧
    (handleUploadComplete
        (submitChunks (handleUploadInit noUploads ⟨"a.mp4", "10", 1⟩ "U" 0).1 "U"
          [⟨0, [1, 2, 3], 1⟩]) "U" "a.mp4" "TOK" 2).1.files.get?
        (assembledPath "U" "a.mp4") = some [1, 2, 3] := by
  decide

/-- C15 as the code has it: for every chunked upload initialised with
`totalChunks = n ≥ 1` and every sequence of accepted chunk submissions, whenever
`complete` succeeds the assembled file is the concatenation, in index order, of
the chunk files stored for the indices of `[0, n)`, and its length is the sum of
their lengths; the `fileSize` declared at init plays no part. -/
theorem assembled_is_concatenation (st0 st1 : UploadState) (body : UploadInitBody)
    (U : String) (now0 : Int)
    (hinit : handleUploadInit st0 body U now0 = (st1, .initialized U))
    (hn : 1 ≤ body.TotalChunks) (subs : List ChunkSubmission)
    (hacc : ∀ sub ∈ subs, 0 ≤ sub.index ∧ sub.index < body.TotalChunks)
    (safeName token : String) (now : Int)
    (hok : (handleUploadComplete (submitChunks st1 U subs) U safeName token now).2
      = .assembled token body.FileName) :
    ∃ content : Bytes,
      (handleUploadComplete (submitChunks st1 U subs) U safeName token now).1.files.get?
        (assembledPath U safeName) = some content ∧
      content = ((List.range body.TotalChunks.toNat).map (fun i : Nat =>
        ((submitChunks st1 U subs).files.get? (chunkPath U i)).getD [])).flatten ∧
      content.length = ((List.range body.TotalChunks.toNat).map (fun i : Nat =>
        (((submitChunks st1 U subs).files.get? (chunkPath U i)).getD []).length)).sum := by
  have h := complete_after_submissions st0 st1 body U now0 hinit hn subs hacc safeName token now
  by_cases hall : ∀ i : Int, 0 ≤ i → i < body.TotalChunks → i ∈ subs.map (fun sub => sub.index)
  · refine ⟨_, (h.1 hall).2.1, rfl, ?_⟩
    rw [List.length_flatten, List.map_map]
    rfl
  · rw [h.2 hall] at hok
    cases hok

/-- C15 as the code has it, on an upload of two chunks declared with
`fileSize = 10`: the assembled file is the 2 bytes of chunk 0 followed by the 1
byte of chunk 1, whatever order they arrived in. -/
theorem assembled_is_concatenation_witness :
    ∃ content : Bytes,
      (handleUploadComplete
        (submitChunks (handleUploadInit noUploads ⟨"a.mp4", "10", 2⟩ "U" 0).1 "U"
          [⟨1, [3], 1⟩, ⟨0, [1, 2], 2⟩]) "U" "a.mp4" "TOK" 3).1.files.get?
        (assembledPath "U" "a.mp4") = some content ∧
      content = ((List.range (2 : Int).toNat).map (fun i : Nat =>
        ((submitChunks (handleUploadInit noUploads ⟨"a.mp4", "10", 2⟩ "U" 0).1 "U"
          [⟨1, [3], 1⟩, ⟨0, [1, 2], 2⟩]).files.get? (chunkPath "U" i)).getD [])).flatten ∧
      content.length = ((List.range (2 : Int).toNat).map (fun i : Nat =>
        (((submitChunks (handleUploadInit noUploads ⟨"a.mp4", "10", 2⟩ "U" 0).1 "U"
          [⟨1, [3], 1⟩, ⟨0, [1, 2], 2⟩]).files.get? (chunkPath "U" i)).getD []).length)).sum :=
  assembled_is_concatenation noUploads _ ⟨"a.mp4", "10", 2⟩ "U" 0 rfl (by decide)
    [⟨1, [3], 1⟩, ⟨0, [1, 2], 2⟩] (by decide) "a.mp4" "TOK" 3 (by decide)

theorem isPrivateIP_v4 (a b c d : Nat)
    (hoct : a ≤ 255 ∧ b ≤ 255 ∧ c ≤ 255 ∧ d ≤ 255)
    (hpriv : a = 10 ∨ (a = 172 ∧ 16 ≤ b ∧ b ≤ 31) ∨ (a = 192 ∧ b = 168) ∨ a = 127
      ∨ (a = 169 ∧ b = 254)) :
    isPrivateIP (.v4 a b c d) = true := by
  obtain ⟨ha, hb, hc, hd⟩ := hoct
  simp only [isPrivateIP, privateNets, List.any_cons, IPNet.Contains, IP.value,
    Bool.or_eq_true, decide_eq_true_eq]
  norm_num
  omega

theorem String.length_le_utf8ByteSize (s : String) : s.length ≤ s.utf8ByteSize := by
  have h : ∀ l : List Char, l.length ≤ String.utf8ByteSize.go l := by
    intro l
    induction l with
    | nil => simp [String.utf8ByteSize.go]
    | cons c rest ih =>
      have hc := Char.utf8Size_pos c
      simp only [String.utf8ByteSize.go, List.length_cons]
      omega
  exact h s.data

theorem ValidateURL_too_long (lib : NetLib) (rawURL : String)
    (h : rawURL.utf8ByteSize > 2048) : ValidateURL lib rawURL = ⟨false, "URL is too long"⟩ := by
  have hne : rawURL ≠ "" := by
    rintro rfl
    revert h
    decide
  simp only [ValidateURL, hne, if_false, MaxURLLength, h, if_true]

theorem ValidateURL_error_ne_too_long (lib : NetLib) (rawURL : String)
    (h : rawURL.utf8ByteSize ≤ 2048) : (ValidateURL lib rawURL).Error ≠ "URL is too long" := by
  have h1 : ¬ rawURL.utf8ByteSize > MaxURLLength := by simp only [MaxURLLength]; omega
  unfold ValidateURL
  by_cases hne : rawURL = ""
  · simp only [hne, if_true]; decide
  · simp only [hne, if_false, h1]
    cases hp : lib.Parse rawURL with
    | none => simp only []; decide
    | some parsed =>
      simp only []
      split_ifs
      · decide
      · decide
      · decide

theorem ValidateURL_public (lib : NetLib) (rawURL : String) (parsed : ParsedURL)
    (hne : rawURL ≠ "") (hlen : rawURL.utf8ByteSize ≤ 2048)
    (hparse : lib.Parse rawURL = some parsed)
    (hscheme : parsed.Scheme = "http" ∨ parsed.Scheme = "https")
    (hpub : isPrivateHost lib (lib.ToLower parsed.Hostname) = false) :
    ValidateURL lib rawURL = ⟨true, ""⟩ := by
  have h1 : ¬ rawURL.utf8ByteSize > MaxURLLength := by simp only [MaxURLLength]; omega
  have h2 : ¬ (parsed.Scheme ≠ "http" ∧ parsed.Scheme ≠ "https") := by
    rintro ⟨ha, hb⟩
    rcases hscheme with h | h
    · exact ha h
    · exact hb h
  simp only [ValidateURL, hne, if_false, h1, hparse, h2, hpub, Bool.false_eq_true]

theorem ValidateURL_private (lib : NetLib) (rawURL : String) (parsed : ParsedURL)
    (hne : rawURL ≠ "") (hlen : rawURL.utf8ByteSize ≤ 2048)
    (hparse : lib.Parse rawURL = some parsed)
    (hscheme : parsed.Scheme = "http" ∨ parsed.Scheme = "https")
    (hpriv : isPrivateHost lib (lib.ToLower parsed.Hostname) = true) :
    ValidateURL lib rawURL = ⟨false, "Private/local URLs are not allowed"⟩ := by
  have h1 : ¬ rawURL.utf8ByteSize > MaxURLLength := by simp only [MaxURLLength]; omega
  have h2 : ¬ (parsed.Scheme ≠ "http" ∧ parsed.Scheme ≠ "https") := by
    rintro ⟨ha, hb⟩
    rcases hscheme with h | h
    · exact ha h
    · exact hb h
  simp only [ValidateURL, hne, if_false, h1, hparse, h2, hpriv, if_true]

theorem isPrivateHost_of_ParseIP (lib : NetLib) (hostname : String) (ip : IP)
    (hip : lib.ParseIP hostname = some ip) (hpriv : isPrivateIP ip = true) :
    isPrivateHost lib hostname = true := by
  unfold isPrivateHost
  split_ifs with h
  · rfl
  · simp only [hip, hpriv]

theorem utf8Len_replicate_a (n : Nat) : String.utf8Len (List.replicate n 'a') = n := by
  induction n with
  | zero => rfl
  | succ k ih =>
    rw [List.replicate_succ, String.utf8Len_cons, ih]
    rfl

theorem paddedURL_data (base : String) (n : Nat) :
    (paddedURL base n).data = base.data ++ List.replicate (n - base.length) 'a' := by
  simp [paddedURL]

theorem paddedURL_utf8ByteSize (base : String) (n : Nat) :
    (paddedURL base n).utf8ByteSize = base.utf8ByteSize + (n - base.length) := by
  show String.utf8Len (paddedURL base n).data = String.utf8Len base.data + _
  rw [paddedURL_data, String.utf8Len_append, utf8Len_replicate_a]

theorem paddedURL_length (base : String) (n : Nat) :
    (paddedURL base n).length = base.length + (n - base.length) := by
  show (paddedURL base n).data.length = base.data.length + _
  rw [paddedURL_data, List.length_append, List.length_replicate]

theorem sampleLib_Parse_private (n : Nat) :
    sampleLib.Parse (paddedURL "http://10.0.0.1/" n) = some ⟨"http", "10.0.0.1"⟩ := by
  have h : "http://10.0.0.1/".data.isPrefixOf (paddedURL "http://10.0.0.1/" n).data = true := by
    rw [paddedURL_data, List.isPrefixOf_iff_prefix]
    exact List.prefix_append _ _
  simp only [sampleLib, h, if_true]

theorem sampleLib_Parse_public (tail : String) (n : Nat) :
    sampleLib.Parse (paddedURL ("https://example.com/" ++ tail) n)
      = some ⟨"https", "example.com"⟩ := by
  have h1 : "http://10.0.0.1/".data.isPrefixOf
      (paddedURL ("https://example.com/" ++ tail) n).data = false := by
    rw [paddedURL_data, String.data_append]
    rfl
  have h2 : "https://example.com/".data.isPrefixOf
      (paddedURL ("https://example.com/" ++ tail) n).data = true := by
    rw [paddedURL_data, String.data_append, List.isPrefixOf_iff_prefix, List.append_assoc]
    exact List.prefix_append _ _
  simp only [sampleLib, h1, h2, if_true, Bool.false_eq_true, if_false]

/-- C17 fails: a URL of 2049 bytes under `http://10.0.0.1/` is an http URL whose
host is the literal private address 10.0.0.1, and `ValidateURL` answers
`URL is too long`, not `Private/local URLs are not allowed`. -/
theorem long_private_url_other_message :
    sampleLib.Parse (paddedURL "http://10.0.0.1/" 2049) = some ⟨"http", "10.0.0.1"⟩ ∧
    sampleLib.ParseIP (sampleLib.ToLower "10.0.0.1") = some (.v4 10 0 0 1) ∧
    ValidateURL sampleLib (paddedURL "http://10.0.0.1/" 2049) = ⟨false, "URL is too long"⟩ := by
  refine ⟨sampleLib_Parse_private 2049, by decide, ?_⟩
  apply ValidateURL_too_long
  rw [paddedURL_utf8ByteSize]
  decide

/-- C17 as the code has it: for every IPv4 address `a.b.c.d` lying in 10.0.0.0/8,
172.16.0.0/12, 192.168.0.0/16, 127.0.0.0/8 or 169.254.0.0/16, `ValidateURL`
applied to an http or https URL whose host is that literal address returns
invalid; the message is `Private/local URLs are not allowed` when the URL is at
most 2048 bytes long and `URL is too long` otherwise. -/
theorem private_ipv4_rejected (lib : NetLib) (rawURL : String) (parsed : ParsedURL)
    (a b c d : Nat) (hne : rawURL ≠ "")
    (hparse : lib.Parse rawURL = some parsed)
    (hscheme : parsed.Scheme = "http" ∨ parsed.Scheme = "https")
    (hip : lib.ParseIP (lib.ToLower parsed.Hostname) = some (.v4 a b c d))
    (hoct : a ≤ 255 ∧ b ≤ 255 ∧ c ≤ 255 ∧ d ≤ 255)
    (hpriv : a = 10 ∨ (a = 172 ∧ 16 ≤ b ∧ b ≤ 31) ∨ (a = 192 ∧ b = 168) ∨ a = 127
      ∨ (a = 169 ∧ b = 254)) :
    (ValidateURL lib rawURL).Valid = false ∧
    (rawURL.utf8ByteSize ≤ 2048 →
      ValidateURL lib rawURL = ⟨false, "Private/local URLs are not allowed"⟩) ∧
    (rawURL.utf8ByteSize > 2048 → ValidateURL lib rawURL = ⟨false, "URL is too long"⟩) := by
  have hshort : rawURL.utf8ByteSize ≤ 2048 →
      ValidateURL lib rawURL = ⟨false, "Private/local URLs are not allowed"⟩ :=
    fun hlen => ValidateURL_private lib rawURL parsed hne hlen hparse hscheme
      (isPrivateHost_of_ParseIP lib _ _ hip (isPrivateIP_v4 a b c d hoct hpriv))
  refine ⟨?_, hshort, ValidateURL_too_long lib rawURL⟩
  by_cases hlen : rawURL.utf8ByteSize ≤ 2048
  · rw [hshort hlen]
  · rw [ValidateURL_too_long lib rawURL (by omega)]

/-- C17 as the code has it, on `http://10.0.0.1/a`. -/
theorem private_ipv4_rejected_witness :
    ValidateURL sampleLib "http://10.0.0.1/a"
      = ⟨false, "Private/local URLs are not allowed"⟩ :=
  (private_ipv4_rejected sampleLib "http://10.0.0.1/a" ⟨"http", "10.0.0.1"⟩ 10 0 0 1
    (by decide) (by decide) (Or.inl rfl) (by decide) (by decide) (Or.inl rfl)).2.1 (by decide)

theorem isPrivateHost_sample_public :
    isPrivateHost sampleLib (sampleLib.ToLower "example.com") = false := by
  decide

/-- C18 fails: a URL of exactly 2048 characters under `https://example.com/`, a
public host, one of whose characters takes two bytes, is 2049 bytes long, and
`ValidateURL` answers `URL is too long`. -/
theorem url_of_2048_characters_rejected :
    (paddedURL "https://example.com/é" 2048).length = 2048 ∧
    sampleLib.Parse (paddedURL "https://example.com/é" 2048)
      = some ⟨"https", "example.com"⟩ ∧
    isPrivateHost sampleLib (sampleLib.ToLower "example.com") = false ∧
    ValidateURL sampleLib (paddedURL "https://example.com/é" 2048)
      = ⟨false, "URL is too long"⟩ := by
  refine ⟨?_, sampleLib_Parse_public "é" 2048, isPrivateHost_sample_public, ?_⟩
  · rw [paddedURL_length]; decide
  · apply ValidateURL_too_long
    rw [paddedURL_utf8ByteSize]
    decide

/-- C18 as the code has it, with the length counted in bytes as `len` does:
`ValidateURL` rejects every URL of more than 2048 bytes, so every URL of 2049 or
more characters, with `URL is too long`; it accepts a URL of exactly 2048 bytes
whose scheme is http or https and whose host is public; and the answer is
`URL is too long` if and only if the URL is longer than 2048 bytes. -/
theorem url_length_contract (lib : NetLib) (rawURL : String) :
    (rawURL.utf8ByteSize > 2048 → ValidateURL lib rawURL = ⟨false, "URL is too long"⟩) ∧
    (rawURL.length ≥ 2049 → ValidateURL lib rawURL = ⟨false, "URL is too long"⟩) ∧
    (∀ parsed, rawURL.utf8ByteSize = 2048 → lib.Parse rawURL = some parsed →
      (parsed.Scheme = "http" ∨ parsed.Scheme = "https") →
      isPrivateHost lib (lib.ToLower parsed.Hostname) = false →
      ValidateURL lib rawURL = ⟨true, ""⟩) ∧
    ((ValidateURL lib rawURL).Error = "URL is too long" ↔ rawURL.utf8ByteSize > 2048) := by
  refine ⟨ValidateURL_too_long lib rawURL, ?_, ?_, ?_⟩
  · intro h
    have := String.length_le_utf8ByteSize rawURL
    exact ValidateURL_too_long lib rawURL (by omega)
  · intro parsed hlen hparse hscheme hpub
    have hne : rawURL ≠ "" := by
      rintro rfl
      revert hlen
      decide
    exact ValidateURL_public lib rawURL parsed hne (by omega) hparse hscheme hpub
  · constructor
    · intro h
      by_contra hle
      exact ValidateURL_error_ne_too_long lib rawURL (by omega) h
    · intro h
      rw [ValidateURL_too_long lib rawURL h]

/-- C18 as the code has it, on the boundary: a URL of 2048 one-byte characters
under `https://example.com/` is accepted, the same URL with one more character
is rejected. -/
theorem url_length_contract_witness :
    ValidateURL sampleLib (paddedURL "https://example.com/" 2048) = ⟨true, ""⟩ ∧
    ValidateURL sampleLib (paddedURL "https://example.com/" 2049)
      = ⟨false, "URL is too long"⟩ :=
  ⟨(url_length_contract sampleLib (paddedURL "https://example.com/" 2048)).2.2.1
      ⟨"https", "example.com"⟩
      (by rw [paddedURL_utf8ByteSize]; decide)
      (sampleLib_Parse_public "" 2048) (Or.inr rfl) isPrivateHost_sample_public,
   (url_length_contract sampleLib (paddedURL "https://example.com/" 2049)).1
      (by rw [paddedURL_utf8ByteSize]; decide)⟩

/-! ## The convert endpoints -/

theorem handleConvertChunkedRequest_format (s : State) (body : ConvertChunkedBody)
    (clientID jobID : String) (disk : Option ℚ) (now : Int)
    (h : Contains AllowedFormats (defaultStr body.Format "mp4") = false) :
    handleConvertChunkedRequest s body clientID jobID disk now =
      (s, some ⟨400, false,
        "Invalid format. Allowed: mp4, webm, mkv, mov, mp3, m4a, opus, wav, flac"⟩) := by
  simp only [handleConvertChunkedRequest, convertChunkedValidation, h, if_true]
  rfl

/-- C19: `POST /api/convert` with the format `exe`, which is not in the allowed
list, on a fresh server: no response turns the request away, the convert counter
goes from 0 to 1 and the output path `J-converted.exe` is built; the same format
sent to `POST /api/convert-chunked` is answered 400 with the state untouched. -/
theorem convert_admits_disallowed_format :
    Contains AllowedFormats "exe" = false ∧
    (handleConvert init "exe" "" "" "J" (some 10) 0).response = none ∧
    (handleConvert init "exe" "" "" "J" (some 10) 0).outputPath
      = some "/var/tmp/yoink/convert/J-converted.exe" ∧
    init.count "convert" = 0 ∧
    (handleConvert init "exe" "" "" "J" (some 10) 0).state.count "convert" = 1 ∧
    handleConvertChunkedRequest init { Format := "exe" } "" "J" (some 10) 0 =
      (init, some ⟨400, false,
        "Invalid format. Allowed: mp4, webm, mkv, mov, mp3, m4a, opus, wav, flac"⟩) := by
  refine ⟨by decide, by decide, by decide, by decide, by decide, ?_⟩
  exact handleConvertChunkedRequest_format init _ "" "J" (some 10) 0 (by decide)

/-! ## Error exits -/

/-- C20 fails: with alerts switched on, the running download `J`, once
cancelled, ends in the error exit with the error `Download cancelled`, an alert
is posted and the response status is 500; the running compression `K`, once
cancelled, ends with `Cancelled`, an alert and 500 as well. -/
theorem cancelled_job_answers_500 :
    (handleDownloadFinish downloadAndCompress alertsOn "J"
        { cancelled := true, JobType := "download" } true (5 * Second)).map
        (fun e => (e.err, e.alertSent, e.status))
      = some ("Download cancelled", true, 500) ∧
    (handleCompressEncoded downloadAndCompress alertsOn "K"
        { cancelled := true, JobType := "compress" } none (5 * Second)).map
        (fun e => (e.err, e.alertSent, e.status))
      = some ("Cancelled", true, 500) := by
  decide

/-- C20 as the code has it: when a download or compress job ends because it was
cancelled (the `ProcessInfo` has its cancelled flag set), the error exit is
taken with the error `Download cancelled` or `Cancelled`, and the HTTP response
status is 500. -/
theorem cancelled_exit_contract (s : State) (a : AlertState)
    (downloadID compressID : String) (downloadInfo compressInfo : ProcessInfo) (now : Int)
    (hd : downloadInfo.cancelled = true) (hc : compressInfo.cancelled = true) :
    (∃ e, handleDownloadFinish s a downloadID downloadInfo true now = some e ∧
      e.err = "Download cancelled" ∧ e.status = 500) ∧
    (∀ waitErr, ∃ e, handleCompressEncoded s a compressID compressInfo waitErr now = some e ∧
      e.err = "Cancelled" ∧ e.status = 500) := by
  constructor
  · refine ⟨handleDownloadErrorExit s a downloadID "Download cancelled" now, ?_, rfl, rfl⟩
    simp [handleDownloadFinish, hd]
  · intro waitErr
    refine ⟨compressError s a compressID compressInfo "Cancelled" now, ?_, rfl, rfl⟩
    simp [handleCompressEncoded, runCrfEncode, hc]

/-- C20 as the code has it, on the running download `J` and the running
compression `K` of client `C`, both cancelled. -/
theorem cancelled_exit_contract_witness :
    (∃ e, handleDownloadFinish downloadAndCompress alertsOn "J"
        { cancelled := true, JobType := "download" } true (5 * Second) = some e ∧
      e.err = "Download cancelled" ∧ e.status = 500) ∧
    (∀ waitErr, ∃ e, handleCompressEncoded downloadAndCompress alertsOn "K"
        { cancelled := true, JobType := "compress" } waitErr (5 * Second) = some e ∧
      e.err = "Cancelled" ∧ e.status = 500) :=
  cancelled_exit_contract downloadAndCompress alertsOn "J" "K"
    { cancelled := true, JobType := "download" } { cancelled := true, JobType := "compress" }
    (5 * Second) rfl rfl

/-! ## The progress stream -/

theorem ResumedReachable.get?_none {r : ResumedJobs} (h : ResumedReachable r) (id : String) :
    r.get? id = none := by
  induction h generalizing id with
  | start => rfl
  | progress r id1 _ ih =>
    simp only [handleProgress, GetResumedJob, ih id1]
    exact ih id
  | delete r id1 _ ih =>
    unfold DeleteResumedJob
    by_cases hk : id = id1
    · subst hk
      exact GoMap.get?_del_self _ _
    · rw [GoMap.get?_del_ne _ hk]
      exact ih id

/-- The first frame of the progress stream is `connected` in every reachable
state of the registry of resumed jobs, whatever jobs are pending. -/
theorem handleProgress_connected {r : ResumedJobs} (h : ResumedReachable r) (id : String) :
    handleProgress r id = (r, ⟨"connected", "Connected to progress stream", none⟩) := by
  simp only [handleProgress, GetResumedJob, h.get?_none id]

/-- C21: the download `J` is registered as pending and its progress updated to
40; a new connection to the progress endpoint for `J`, with the registry of
resumed jobs as `init()` made it, gets `connected` as its first frame, with no
progress, not `resuming` with progress 40. -/
theorem pending_job_gets_connected_frame :
    (pendingAtForty.pendingJobs.get? "J").map (fun job => (job.Progress, job.Resumable))
      = some (40, true) ∧
    (handleProgress GoMap.empty "J").2
      = ⟨"connected", "Connected to progress stream", none⟩ := by
  constructor
  · simp [pendingAtForty, UpdatePendingJob, RegisterPendingJob, GoMap.get?_set_self]
  · rfl

/-! ## The tunnel fallback -/

/-- C22: with three rounds over three endpoints, the first eight attempts are
answered `HTTP 500` and the ninth returns a direct URL whose file downloads
without error, yet `DownloadViaCobalt` returns the error `HTTP 500`; when the
very first attempt succeeds it returns the file. -/
theorem later_success_is_discarded :
    cobaltAttempt "/var/tmp/yoink/downloads/J-cobalt.mp4" "mp4" none
        (lastAttemptSucceeds 2 "https://cessi-c.meowing.de")
      = .returned (.ok ⟨"/var/tmp/yoink/downloads/J-cobalt.mp4", "mp4",
          "https://tunnel.example/file"⟩) ∧
    DownloadViaCobalt lastAttemptSucceeds (fun _ => false) "J" false { }
      = .error "HTTP 500" ∧
    DownloadViaCobalt (fun _ _ => { }) (fun _ => false) "J" false { }
      = .ok ⟨"/var/tmp/yoink/downloads/J-cobalt.mp4", "mp4", "https://tunnel.example/file"⟩ := by
  refine ⟨rfl, rfl, rfl⟩

/-! ## The playlist pipeline -/

theorem playlistLoop_noFlags (entries : List PlaylistEntry) (flags : Int → ProcessInfo)
    (hc : ∀ i, (flags i).cancelled = false) (hf : ∀ i, (flags i).finishEarly = false)
    (s : Nat) :
    ∀ (m : Nat) (visited : List (Int × PlaylistEntry)), s + m ≤ entries.length →
      ∃ added, playlistLoop entries flags
          ((List.range' s m).map (fun j : Nat => (j : Int))) visited
          = .ok (visited ++ added) ∧
        added.map Prod.snd = (entries.drop s).take m ∧
        added.map Prod.fst = (List.range' s m).map (fun j : Nat => (j : Int) + 1) := by
  intro m
  induction m generalizing s with
  | zero =>
    intro visited _
    exact ⟨[], by simp [playlistLoop], by simp, by simp⟩
  | succ m ih =>
    intro visited hle
    have hs : s < entries.length := by omega
    have hget : entries.get? s = some (entries.get ⟨s, hs⟩) := List.get?_eq_get hs
    obtain ⟨added, h1, h2, h3⟩ := ih (s + 1) (visited ++ [((s : Int) + 1, entries.get ⟨s, hs⟩)])
      (by omega)
    refine ⟨((s : Int) + 1, entries.get ⟨s, hs⟩) :: added, ?_, ?_, ?_⟩
    · simp only [List.range'_succ, List.map_cons, playlistLoop, hc, hf, Bool.false_eq_true,
        if_false, Int.toNat_ofNat, hget]
      rw [h1, List.append_assoc]
      rfl
    · simp only [List.map_cons, h2]
      rw [List.drop_eq_getElem_cons hs, List.take_succ_cons]
      rfl
    · simp only [List.map_cons, h3, List.range'_succ]

theorem playlistStartIdx_bounds (resumeFrom n : Int) (hn : 0 ≤ n) :
    0 ≤ playlistStartIdx resumeFrom n ∧ playlistStartIdx resumeFrom n ≤ n := by
  unfold playlistStartIdx
  simp only []
  split_ifs <;> omega

theorem playlistStartIdx_cases (resumeFrom n : Int) (hr : 1 ≤ resumeFrom) :
    (resumeFrom ≤ n → playlistStartIdx resumeFrom n = resumeFrom - 1) ∧
    (n < resumeFrom → 1 ≤ n → playlistStartIdx resumeFrom n = n - 1) ∧
    (n = 0 → playlistStartIdx resumeFrom n = 0) := by
  unfold playlistStartIdx
  simp only []
  refine ⟨fun h => ?_, fun h h1 => ?_, fun h => ?_⟩ <;> split_ifs <;> omega

theorem map_range'_eq_map_range {α : Type} (f : Nat → α) (m : Nat) :
    ∀ s : Nat, (List.range' s m).map f = (List.range m).map (fun j => f (s + j)) := by
  induction m with
  | zero => intro s; rfl
  | succ m ih =>
    intro s
    rw [List.range'_succ, List.map_cons, ih (s + 1), List.range_succ_eq_map, List.map_cons,
      List.map_map]
    congr 1
    apply List.map_congr_left
    intro j _
    simp only [Function.comp]
    congr 1
    omega

theorem range_map_add_eq (s : Nat) (m : Nat) :
    (List.range m).map (fun j : Nat => (s : Int) + j)
      = (List.range' s m).map (fun j : Nat => (j : Int)) := by
  rw [map_range'_eq_map_range]
  apply List.map_congr_left
  intro j _
  push_cast
  rfl

/-- The per-video loop of `processPlaylistAsync` on a listing that passed the
size check, in a run that is neither cancelled nor finished early: it goes
through the entries from `startIdx` on, in order, numbered from `startIdx + 1`. -/
theorem processPlaylistAsync_visited (info : PlaylistInfo) (resumeFrom : Int)
    (flags : Int → ProcessInfo) (hsize : info.Count ≤ MaxPlaylistVideos)
    (hc : ∀ i, (flags i).cancelled = false) (hf : ∀ i, (flags i).finishEarly = false) :
    ∃ visited, processPlaylistAsync info resumeFrom flags = .ok visited ∧
      visited.map Prod.snd
        = info.Entries.drop (playlistStartIdx resumeFrom info.Entries.length).toNat ∧
      visited.map Prod.fst
        = (List.range (info.Entries.length
              - (playlistStartIdx resumeFrom info.Entries.length).toNat)).map
            (fun j : Nat => playlistStartIdx resumeFrom info.Entries.length + 1 + j) := by
  obtain ⟨h0, hle⟩ := playlistStartIdx_bounds resumeFrom info.Entries.length (by omega)
  generalize hs : playlistStartIdx resumeFrom info.Entries.length = sI at h0 hle
  obtain ⟨s, rfl⟩ := Int.eq_ofNat_of_zero_le h0
  have hsn : s ≤ info.Entries.length := by omega
  have hm : ((info.Entries.length : Int) - (s : Int)).toNat = info.Entries.length - s := by
    omega
  obtain ⟨added, h1, h2, h3⟩ := playlistLoop_noFlags info.Entries flags hc hf s
    (info.Entries.length - s) [] (by omega)
  refine ⟨added, ?_, ?_, ?_⟩
  · have hnot : ¬ info.Count > MaxPlaylistVideos := by omega
    simp only [processPlaylistAsync, hnot, if_false, hs, hm, range_map_add_eq]
    rw [h1]
    rfl
  · rw [h2, Int.toNat_ofNat]
    apply List.take_of_length_le
    simp
  · rw [h3, Int.toNat_ofNat, map_range'_eq_map_range]
    apply List.map_congr_left
    intro j _
    push_cast
    omega

theorem GetPlaylistInfo_Count (raw : rawPlaylist) :
    (GetPlaylistInfo raw).Count
      = if raw.PlaylistCount = 0 then (raw.Entries.length : Int) else raw.PlaylistCount := rfl

theorem playlistPipeline_too_large (raw : rawPlaylist) (ResumeFrom : Int)
    (flags : Int → ProcessInfo) (h : (GetPlaylistInfo raw).Count ≥ 1001) :
    playlistPipeline raw ResumeFrom flags
      = .error ("Playlist too large. Maximum 1000 videos allowed. This playlist has "
          ++ toString (GetPlaylistInfo raw).Count ++ " videos.") := by
  have hgt : (GetPlaylistInfo raw).Count > MaxPlaylistVideos := by
    simp only [MaxPlaylistVideos]; omega
  simp only [playlistPipeline, processPlaylistAsync, hgt, if_true]
  rfl

theorem playlistPipeline_passes (raw : rawPlaylist) (ResumeFrom : Int)
    (flags : Int → ProcessInfo) (h : (GetPlaylistInfo raw).Count ≤ 1000) :
    playlistPipeline raw ResumeFrom flags
      = playlistLoop raw.Entries flags
          ((List.range ((raw.Entries.length : Int)
              - playlistStartIdx (if ResumeFrom < 1 then 1 else ResumeFrom)
                  raw.Entries.length).toNat).map
            (fun j : Nat =>
              playlistStartIdx (if ResumeFrom < 1 then 1 else ResumeFrom) raw.Entries.length
                + j)) [] := by
  have hgt : ¬ (GetPlaylistInfo raw).Count > MaxPlaylistVideos := by
    simp only [MaxPlaylistVideos]; omega
  simp only [playlistPipeline, processPlaylistAsync, hgt, if_false]
  rfl

theorem listingOf_length (n : Nat) (count : Int) : (listingOf n count).Entries.length = n := by
  simp only [listingOf, List.length_replicate]

theorem listingOf_Count (n : Nat) (count : Int) :
    (GetPlaylistInfo (listingOf n count)).Count = if count = 0 then (n : Int) else count := by
  simp only [GetPlaylistInfo_Count, listingOf, List.length_replicate]

/-- C23 fails: a listing of 1001 entries whose `playlist_count` is 1000 passes
the size check and all its 1001 entries are gone through; a listing of exactly
1000 entries whose `playlist_count` is 1001 is rejected as too large. -/
theorem size_check_reads_playlist_count :
    (listingOf 1001 1000).Entries.length = 1001 ∧
    (∃ visited, playlistPipeline (listingOf 1001 1000) 1 noFlags = .ok visited ∧
      visited.length = 1001) ∧
    (listingOf 1000 1001).Entries.length = 1000 ∧
    playlistPipeline (listingOf 1000 1001) 1 noFlags
      = .error "Playlist too large. Maximum 1000 videos allowed. This playlist has 1001 videos." := by
  refine ⟨listingOf_length _ _, ?_, listingOf_length _ _, ?_⟩
  · obtain ⟨visited, h1, h2, _⟩ := processPlaylistAsync_visited
      (GetPlaylistInfo (listingOf 1001 1000)) 1 noFlags
      (by rw [listingOf_Count]; decide)
      (fun _ => rfl) (fun _ => rfl)
    refine ⟨visited, h1, ?_⟩
    have hlen := congrArg List.length h2
    rw [List.length_map] at hlen
    rw [hlen]
    have hn : (GetPlaylistInfo (listingOf 1001 1000)).Entries.length = 1001 :=
      listingOf_length 1001 1000
    simp only [List.length_drop, hn, playlistStartIdx]
    decide
  · rw [playlistPipeline_too_large _ _ _ (by rw [listingOf_Count]; decide), listingOf_Count]
    rfl

/-- C23 as the code has it: the size check of the playlist pipeline is made on
the count of the listing, which is its `playlist_count` when that is present and
not zero and the number of its entries otherwise; the listing passes the check
(the per-video loop is entered) when the count is at most 1000, and is rejected
with the `Playlist too large` error, no video being gone through, when the count
is 1001 or more. -/
theorem playlist_size_contract (raw : rawPlaylist) (ResumeFrom : Int)
    (flags : Int → ProcessInfo) :
    (GetPlaylistInfo raw).Count
      = (if raw.PlaylistCount = 0 then (raw.Entries.length : Int) else raw.PlaylistCount) ∧
    ((GetPlaylistInfo raw).Count ≤ 1000 →
      playlistPipeline raw ResumeFrom flags
        = playlistLoop raw.Entries flags
            ((List.range ((raw.Entries.length : Int)
                - playlistStartIdx (if ResumeFrom < 1 then 1 else ResumeFrom)
                    raw.Entries.length).toNat).map
              (fun j : Nat =>
                playlistStartIdx (if ResumeFrom < 1 then 1 else ResumeFrom)
                  raw.Entries.length + j)) []) ∧
    ((GetPlaylistInfo raw).Count ≥ 1001 →
      playlistPipeline raw ResumeFrom flags
        = .error ("Playlist too large. Maximum 1000 videos allowed. This playlist has "
            ++ toString (GetPlaylistInfo raw).Count ++ " videos.")) :=
  ⟨rfl, playlistPipeline_passes raw ResumeFrom flags,
    playlistPipeline_too_large raw ResumeFrom flags⟩

/-- C23 as the code has it, on listings without `playlist_count`: 1001 entries
are rejected as too large. -/
theorem playlist_size_contract_witness :
    playlistPipeline (listingOf 1001 0) 1 noFlags
      = .error ("Playlist too large. Maximum 1000 videos allowed. This playlist has "
          ++ toString (GetPlaylistInfo (listingOf 1001 0)).Count ++ " videos.") :=
  (playlist_size_contract (listingOf 1001 0) 1 noFlags).2.2
    (by rw [listingOf_Count]; decide)

/-- C24 fails: on a playlist of three entries with `resumeFrom = 5` the
per-video loop goes through entry 3, the last one; skipping the first four
entries would leave nothing to go through. -/
theorem resume_beyond_end_restarts_last :
    playlistPipeline threeVideos 5 noFlags = .ok [(3, { ID := "c" })] := by
  rfl

/-- C24 as the code has it: for every playlist with `n` entries that passed the
size check, in a run neither cancelled nor finished early, with `k` the value of
`resumeFrom` (values below 1 are taken as 1): when `k ≤ n` the per-video loop
skips exactly the first `k - 1` entries and goes through the entries
`k, k + 1, ..., n` in order; when `k > n` it goes through the last entry alone
(through nothing when the playlist is empty). -/
theorem playlist_resume_contract (raw : rawPlaylist) (ResumeFrom k : Int)
    (flags : Int → ProcessInfo) (hsize : (GetPlaylistInfo raw).Count ≤ 1000)
    (hc : ∀ i, (flags i).cancelled = false) (hf : ∀ i, (flags i).finishEarly = false)
    (hk : k = if ResumeFrom < 1 then 1 else ResumeFrom) :
    ∃ visited, playlistPipeline raw ResumeFrom flags = .ok visited ∧
      (k ≤ raw.Entries.length →
        visited.map Prod.snd = raw.Entries.drop (k - 1).toNat ∧
        visited.map Prod.fst
          = (List.range (raw.Entries.length - (k - 1).toNat)).map (fun j : Nat => k + j)) ∧
      ((raw.Entries.length : Int) < k →
        visited.map Prod.snd = raw.Entries.drop (raw.Entries.length - 1) ∧
        visited.map Prod.fst
          = (raw.Entries.drop (raw.Entries.length - 1)).map
              (fun _ => (raw.Entries.length : Int))) := by
  have hk1 : 1 ≤ k := by rw [hk]; split_ifs <;> omega
  obtain ⟨visited, h1, h2, h3⟩ := processPlaylistAsync_visited (GetPlaylistInfo raw) k flags
    (by simp only [MaxPlaylistVideos]; exact hsize) hc hf
  have hE : (GetPlaylistInfo raw).Entries = raw.Entries := rfl
  rw [hE] at h2 h3
  obtain ⟨ca, cb, cc⟩ := playlistStartIdx_cases k raw.Entries.length hk1
  refine ⟨visited, ?_, ?_, ?_⟩
  · simp only [playlistPipeline, ← hk]
    exact h1
  · intro hle
    rw [ca hle] at h2 h3
    refine ⟨h2, ?_⟩
    rw [h3]
    apply List.map_congr_left
    intro j _
    omega
  · intro hlt
    by_cases hn : raw.Entries.length = 0
    · rw [cc (by omega)] at h2 h3
      have hnil : raw.Entries = [] := List.length_eq_zero.mp hn
      simp only [hnil, List.length_nil, List.drop_nil, List.map_nil, Int.toNat_zero,
        List.range_zero, Nat.sub_self] at h2 h3 ⊢
      exact ⟨h2, h3⟩
    · have hpos : 1 ≤ (raw.Entries.length : Int) := by omega
      rw [cb hlt hpos] at h2 h3
      have ht : ((raw.Entries.length : Int) - 1).toNat = raw.Entries.length - 1 := by omega
      rw [ht] at h2 h3
      refine ⟨h2, ?_⟩
      rw [h3]
      have hsub : raw.Entries.length - (raw.Entries.length - 1) = 1 := by omega
      have hdrop : (raw.Entries.drop (raw.Entries.length - 1)).length = 1 := by
        rw [List.length_drop]; exact hsub
      obtain ⟨e, he⟩ := List.length_eq_one.mp hdrop
      rw [hsub, he]
      have hr1 : List.range 1 = [0] := rfl
      simp only [hr1, List.map_cons, List.map_nil, Nat.cast_zero, add_zero,
        List.cons.injEq, and_true]
      omega

/-- C24 as the code has it, on a playlist of three entries with
`resumeFrom = 2`: the loop goes through the entries 2 and 3. -/
theorem playlist_resume_contract_witness :
    ∃ visited, playlistPipeline threeVideos 2 noFlags = .ok visited ∧
      (2 ≤ (threeVideos.Entries.length : Int) →
        visited.map Prod.snd = threeVideos.Entries.drop ((2 : Int) - 1).toNat ∧
        visited.map Prod.fst
          = (List.range (threeVideos.Entries.length - ((2 : Int) - 1).toNat)).map
              (fun j : Nat => (2 : Int) + j)) ∧
      ((threeVideos.Entries.length : Int) < 2 →
        visited.map Prod.snd = threeVideos.Entries.drop (threeVideos.Entries.length - 1) ∧
        visited.map Prod.fst
          = (threeVideos.Entries.drop (threeVideos.Entries.length - 1)).map
              (fun _ => (threeVideos.Entries.length : Int))) :=
  playlist_resume_contract threeVideos 2 2 noFlags (by decide) (fun _ => rfl) (fun _ => rfl)
    (by decide)

/-! ## The error mapper -/

/-- C25 fails: `Playlist too large` and `PLAYLIST TOO LARGE` are equal after
lower-casing, and `ToUserError` returns each of them as it is. -/
theorem passed_through_messages_keep_case :
    asciiToLower "Playlist too large" = asciiToLower "PLAYLIST TOO LARGE" ∧
    ToUserError asciiToLower "Playlist too large" = "Playlist too large" ∧
    ToUserError asciiToLower "PLAYLIST TOO LARGE" = "PLAYLIST TOO LARGE" ∧
    ToUserError asciiToLower "Playlist too large"
      ≠ ToUserError asciiToLower "PLAYLIST TOO LARGE" := by
  decide

/-- The branches of `ToUserError`, read on the lower-cased message `msg`: when
`msg` matches one of the earlier patterns one fixed phrase is returned for every
message that lower-cases to `msg`; otherwise, when `msg` contains
`playlist too large` or `too many active jobs`, every such message is returned as
it is; otherwise the phrase is `Download failed`. -/
theorem ToUserError_cases (ToLower : String → String) (msg : String) :
    (matchesEarlierPattern msg = true ∧
      ∃ fixed, ∀ m, ToLower m = msg → ToUserError ToLower m = fixed) ∨
    (matchesEarlierPattern msg = false ∧
      (stringsContains msg "playlist too large" = true ∨
        stringsContains msg "too many active jobs" = true) ∧
      ∀ m, ToLower m = msg → ToUserError ToLower m = m) ∨
    (matchesEarlierPattern msg = false ∧
      stringsContains msg "playlist too large" = false ∧
      stringsContains msg "too many active jobs" = false ∧
      ∀ m, ToLower m = msg → ToUserError ToLower m = "Download failed") := by
  by_cases c1 : (stringsContains msg "cancelled" || stringsContains msg "canceled") = true
  · exact Or.inl ⟨by
      simp only [matchesEarlierPattern, List.any_cons, id, c1, Bool.true_or, Bool.or_true], "Download cancelled", fun m hm => by
      unfold ToUserError; rw [hm]; dsimp only
      rw [if_pos c1]⟩
  by_cases c2 : (stringsContains msg "content.video.unavailable"
      || stringsContains msg "video unavailable" || stringsContains msg "private video"
      || stringsContains msg "this content is private") = true
  · exact Or.inl ⟨by
      simp only [matchesEarlierPattern, List.any_cons, id, c2, Bool.true_or, Bool.or_true], "This video is unavailable or has been removed", fun m hm => by
      unfold ToUserError; rw [hm]; dsimp only
      rw [if_neg c1, if_pos c2]⟩
  by_cases c3 : (stringsContains msg "content.video.live"
      || stringsContains msg "live stream") = true
  · exact Or.inl ⟨by
      simp only [matchesEarlierPattern, List.any_cons, id, c3, Bool.true_or, Bool.or_true], "Live streams can't be downloaded yet", fun m hm => by
      unfold ToUserError; rw [hm]; dsimp only
      rw [if_neg c1, if_neg c2, if_pos c3]⟩
  by_cases c4 : (stringsContains msg "content.video.age"
      || stringsContains msg "age-restricted" || stringsContains msg "age restricted") = true
  · exact Or.inl ⟨by
      simp only [matchesEarlierPattern, List.any_cons, id, c4, Bool.true_or, Bool.or_true], "This video is age-restricted", fun m hm => by
      unfold ToUserError; rw [hm]; dsimp only
      rw [if_neg c1, if_neg c2, if_neg c3, if_pos c4]⟩
  by_cases c5 : (stringsContains msg "content.too_long" || stringsContains msg "too_long") = true
  · exact Or.inl ⟨by
      simp only [matchesEarlierPattern, List.any_cons, id, c5, Bool.true_or, Bool.or_true], "Video is too long (3+ hours)", fun m hm => by
      unfold ToUserError; rw [hm]; dsimp only
      rw [if_neg c1, if_neg c2, if_neg c3, if_neg c4, if_pos c5]⟩
  by_cases c6 : (stringsContains msg "api.youtube.login"
      || stringsContains msg "youtube.login") = true
  · exact Or.inl ⟨by
      simp only [matchesEarlierPattern, List.any_cons, id, c6, Bool.true_or, Bool.or_true], "YouTube requires login for this video", fun m hm => by
      unfold ToUserError; rw [hm]; dsimp only
      rw [if_neg c1, if_neg c2, if_neg c3, if_neg c4, if_neg c5, if_pos c6]⟩
  by_cases c7 : (stringsContains msg "api.rate_limited") = true
  · exact Or.inl ⟨by
      simp only [matchesEarlierPattern, List.any_cons, id, c7, Bool.true_or, Bool.or_true], "Rate limited, try again in a minute", fun m hm => by
      unfold ToUserError; rw [hm]; dsimp only
      rw [if_neg c1, if_neg c2, if_neg c3, if_neg c4, if_neg c5, if_neg c6, if_pos c7]⟩
  by_cases c8 : (stringsContains msg "api.link.unsupported") = true
  · exact Or.inl ⟨by
      simp only [matchesEarlierPattern, List.any_cons, id, c8, Bool.true_or, Bool.or_true], "This link type isn't supported", fun m hm => by
      unfold ToUserError; rw [hm]; dsimp only
      rw [if_neg c1, if_neg c2, if_neg c3, if_neg c4, if_neg c5, if_neg c6, if_neg c7, if_pos
        c8]⟩
  by_cases c9 : (stringsContains msg "sign in to confirm"
      || stringsContains msg "sign in to verify") = true
  · exact Or.inl ⟨by
      simp only [matchesEarlierPattern, List.any_cons, id, c9, Bool.true_or, Bool.or_true], "YouTube is blocking this request, try again later", fun m hm => by
      unfold ToUserError; rw [hm]; dsimp only
      rw [if_neg c1, if_neg c2, if_neg c3, if_neg c4, if_neg c5, if_neg c6, if_neg c7, if_neg
        c8, if_pos c9]⟩
  by_cases c10 : (stringsContains msg "geo restricted" || stringsContains msg "geo-restricted"
      || stringsContains msg "not available in your country") = true
  · exact Or.inl ⟨by
      simp only [matchesEarlierPattern, List.any_cons, id, c10, Bool.true_or, Bool.or_true], "This video isn't available in the server's region", fun m hm => by
      unfold ToUserError; rw [hm]; dsimp only
      rw [if_neg c1, if_neg c2, if_neg c3, if_neg c4, if_neg c5, if_neg c6, if_neg c7, if_neg
        c8, if_neg c9, if_pos c10]⟩
  by_cases c11 : (stringsContains msg "copyright") = true
  · exact Or.inl ⟨by
      simp only [matchesEarlierPattern, List.any_cons, id, c11, Bool.true_or, Bool.or_true], "This video was removed for copyright", fun m hm => by
      unfold ToUserError; rw [hm]; dsimp only
      rw [if_neg c1, if_neg c2, if_neg c3, if_neg c4, if_neg c5, if_neg c6, if_neg c7, if_neg
        c8, if_neg c9, if_neg c10, if_pos c11]⟩
  by_cases c12 : (stringsContains msg "members only" || stringsContains msg "members-only") = true
  · exact Or.inl ⟨by
      simp only [matchesEarlierPattern, List.any_cons, id, c12, Bool.true_or, Bool.or_true], "This is a members-only video", fun m hm => by
      unfold ToUserError; rw [hm]; dsimp only
      rw [if_neg c1, if_neg c2, if_neg c3, if_neg c4, if_neg c5, if_neg c6, if_neg c7, if_neg
        c8, if_neg c9, if_neg c10, if_neg c11, if_pos c12]⟩
  by_cases c13 : (stringsContains msg "premium") = true
  · exact Or.inl ⟨by
      simp only [matchesEarlierPattern, List.any_cons, id, c13, Bool.true_or, Bool.or_true], "This video requires YouTube Premium", fun m hm => by
      unfold ToUserError; rw [hm]; dsimp only
      rw [if_neg c1, if_neg c2, if_neg c3, if_neg c4, if_neg c5, if_neg c6, if_neg c7, if_neg
        c8, if_neg c9, if_neg c10, if_neg c11, if_neg c12, if_pos c13]⟩
  by_cases c14 : (stringsContains msg "http error 403"
      || stringsContains msg "403 forbidden") = true
  · exact Or.inl ⟨by
      simp only [matchesEarlierPattern, List.any_cons, id, c14, Bool.true_or, Bool.or_true], "Access denied, the site is blocking downloads", fun m hm => by
      unfold ToUserError; rw [hm]; dsimp only
      rw [if_neg c1, if_neg c2, if_neg c3, if_neg c4, if_neg c5, if_neg c6, if_neg c7, if_neg
        c8, if_neg c9, if_neg c10, if_neg c11, if_neg c12, if_neg c13, if_pos c14]⟩
  by_cases c15 : (stringsContains msg "http error 404"
      || stringsContains msg "404 not found") = true
  · exact Or.inl ⟨by
      simp only [matchesEarlierPattern, List.any_cons, id, c15, Bool.true_or, Bool.or_true], "Video not found, it may have been deleted", fun m hm => by
      unfold ToUserError; rw [hm]; dsimp only
      rw [if_neg c1, if_neg c2, if_neg c3, if_neg c4, if_neg c5, if_neg c6, if_neg c7, if_neg
        c8, if_neg c9, if_neg c10, if_neg c11, if_neg c12, if_neg c13, if_neg c14, if_pos c15]⟩
  by_cases c16 : (stringsContains msg "unsupported url") = true
  · exact Or.inl ⟨by
      simp only [matchesEarlierPattern, List.any_cons, id, c16, Bool.true_or, Bool.or_true], "This website isn't supported", fun m hm => by
      unfold ToUserError; rw [hm]; dsimp only
      rw [if_neg c1, if_neg c2, if_neg c3, if_neg c4, if_neg c5, if_neg c6, if_neg c7, if_neg
        c8, if_neg c9, if_neg c10, if_neg c11, if_neg c12, if_neg c13, if_neg c14, if_neg c15,
        if_pos c16]⟩
  by_cases c17 : (stringsContains msg "no video formats"
      || stringsContains msg "requested format not available") = true
  · exact Or.inl ⟨by
      simp only [matchesEarlierPattern, List.any_cons, id, c17, Bool.true_or, Bool.or_true], "No downloadable formats found", fun m hm => by
      unfold ToUserError; rw [hm]; dsimp only
      rw [if_neg c1, if_neg c2, if_neg c3, if_neg c4, if_neg c5, if_neg c6, if_neg c7, if_neg
        c8, if_neg c9, if_neg c10, if_neg c11, if_neg c12, if_neg c13, if_neg c14, if_neg c15,
        if_neg c16, if_pos c17]⟩
  by_cases c18 : (stringsContains msg "rate" && !stringsContains msg "format") = true
  · exact Or.inl ⟨by
      simp only [matchesEarlierPattern, List.any_cons, id, c18, Bool.true_or, Bool.or_true], "Rate limited, please wait and try again", fun m hm => by
      unfold ToUserError; rw [hm]; dsimp only
      rw [if_neg c1, if_neg c2, if_neg c3, if_neg c4, if_neg c5, if_neg c6, if_neg c7, if_neg
        c8, if_neg c9, if_neg c10, if_neg c11, if_neg c12, if_neg c13, if_neg c14, if_neg c15,
        if_neg c16, if_neg c17, if_pos c18]⟩
  by_cases c19 : (stringsContains msg "econnreset" || stringsContains msg "fetch failed"
      || (stringsContains msg "connection" && !stringsContains msg "connected")) = true
  · exact Or.inl ⟨by
      simp only [matchesEarlierPattern, List.any_cons, id, c19, Bool.true_or, Bool.or_true], "Connection dropped, try again", fun m hm => by
      unfold ToUserError; rw [hm]; dsimp only
      rw [if_neg c1, if_neg c2, if_neg c3, if_neg c4, if_neg c5, if_neg c6, if_neg c7, if_neg
        c8, if_neg c9, if_neg c10, if_neg c11, if_neg c12, if_neg c13, if_neg c14, if_neg c15,
        if_neg c16, if_neg c17, if_neg c18, if_pos c19]⟩
  by_cases c20 : (stringsContains msg "etimedout" || stringsContains msg "timed out"
      || stringsContains msg "timeout") = true
  · exact Or.inl ⟨by
      simp only [matchesEarlierPattern, List.any_cons, id, c20, Bool.true_or, Bool.or_true], "Connection timed out, try again", fun m hm => by
      unfold ToUserError; rw [hm]; dsimp only
      rw [if_neg c1, if_neg c2, if_neg c3, if_neg c4, if_neg c5, if_neg c6, if_neg c7, if_neg
        c8, if_neg c9, if_neg c10, if_neg c11, if_neg c12, if_neg c13, if_neg c14, if_neg c15,
        if_neg c16, if_neg c17, if_neg c18, if_neg c19, if_pos c20]⟩
  by_cases c21 : (stringsContains msg "enotfound" || stringsContains msg "dns") = true
  · exact Or.inl ⟨by
      simp only [matchesEarlierPattern, List.any_cons, id, c21, Bool.true_or, Bool.or_true], "Couldn't reach the server, try again", fun m hm => by
      unfold ToUserError; rw [hm]; dsimp only
      rw [if_neg c1, if_neg c2, if_neg c3, if_neg c4, if_neg c5, if_neg c6, if_neg c7, if_neg
        c8, if_neg c9, if_neg c10, if_neg c11, if_neg c12, if_neg c13, if_neg c14, if_neg c15,
        if_neg c16, if_neg c17, if_neg c18, if_neg c19, if_neg c20, if_pos c21]⟩
  by_cases c22 : (stringsContains msg "processing failed"
      || stringsContains msg "encoding failed") = true
  · exact Or.inl ⟨by
      simp only [matchesEarlierPattern, List.any_cons, id, c22, Bool.true_or, Bool.or_true], "Processing failed", fun m hm => by
      unfold ToUserError; rw [hm]; dsimp only
      rw [if_neg c1, if_neg c2, if_neg c3, if_neg c4, if_neg c5, if_neg c6, if_neg c7, if_neg
        c8, if_neg c9, if_neg c10, if_neg c11, if_neg c12, if_neg c13, if_neg c14, if_neg c15,
        if_neg c16, if_neg c17, if_neg c18, if_neg c19, if_neg c20, if_neg c21, if_pos c22]⟩
  by_cases c23 : (stringsContains msg "download interrupted") = true
  · exact Or.inl ⟨by
      simp only [matchesEarlierPattern, List.any_cons, id, c23, Bool.true_or, Bool.or_true], "Download interrupted", fun m hm => by
      unfold ToUserError; rw [hm]; dsimp only
      rw [if_neg c1, if_neg c2, if_neg c3, if_neg c4, if_neg c5, if_neg c6, if_neg c7, if_neg
        c8, if_neg c9, if_neg c10, if_neg c11, if_neg c12, if_neg c13, if_neg c14, if_neg c15,
        if_neg c16, if_neg c17, if_neg c18, if_neg c19, if_neg c20, if_neg c21, if_neg c22,
        if_pos c23]⟩
  by_cases c24 : (stringsContains msg "no videos were successfully downloaded") = true
  · exact Or.inl ⟨by
      simp only [matchesEarlierPattern, List.any_cons, id, c24, Bool.true_or, Bool.or_true], "No videos were successfully downloaded", fun m hm => by
      unfold ToUserError; rw [hm]; dsimp only
      rw [if_neg c1, if_neg c2, if_neg c3, if_neg c4, if_neg c5, if_neg c6, if_neg c7, if_neg
        c8, if_neg c9, if_neg c10, if_neg c11, if_neg c12, if_neg c13, if_neg c14, if_neg c15,
        if_neg c16, if_neg c17, if_neg c18, if_neg c19, if_neg c20, if_neg c21, if_neg c22,
        if_neg c23, if_pos c24]⟩
  by_cases c25 : (stringsContains msg "downloaded file not found"
      || stringsContains msg "file not found") = true
  · exact Or.inl ⟨by
      simp only [matchesEarlierPattern, List.any_cons, id, c25, Bool.true_or, Bool.or_true], "Download failed", fun m hm => by
      unfold ToUserError; rw [hm]; dsimp only
      rw [if_neg c1, if_neg c2, if_neg c3, if_neg c4, if_neg c5, if_neg c6, if_neg c7, if_neg
        c8, if_neg c9, if_neg c10, if_neg c11, if_neg c12, if_neg c13, if_neg c14, if_neg c15,
        if_neg c16, if_neg c17, if_neg c18, if_neg c19, if_neg c20, if_neg c21, if_neg c22,
        if_neg c23, if_neg c24, if_pos c25]⟩
  have hearly : matchesEarlierPattern msg = false := by
    simp only [matchesEarlierPattern, List.any_cons, List.any_nil, id, Bool.eq_false_iff.mpr
      c1, Bool.eq_false_iff.mpr c2, Bool.eq_false_iff.mpr c3, Bool.eq_false_iff.mpr c4,
      Bool.eq_false_iff.mpr c5, Bool.eq_false_iff.mpr c6, Bool.eq_false_iff.mpr c7,
      Bool.eq_false_iff.mpr c8, Bool.eq_false_iff.mpr c9, Bool.eq_false_iff.mpr c10,
      Bool.eq_false_iff.mpr c11, Bool.eq_false_iff.mpr c12, Bool.eq_false_iff.mpr c13,
      Bool.eq_false_iff.mpr c14, Bool.eq_false_iff.mpr c15, Bool.eq_false_iff.mpr c16,
      Bool.eq_false_iff.mpr c17, Bool.eq_false_iff.mpr c18, Bool.eq_false_iff.mpr c19,
      Bool.eq_false_iff.mpr c20, Bool.eq_false_iff.mpr c21, Bool.eq_false_iff.mpr c22,
      Bool.eq_false_iff.mpr c23, Bool.eq_false_iff.mpr c24, Bool.eq_false_iff.mpr c25,
      Bool.or_self]
  by_cases c26 : (stringsContains msg "playlist too large") = true
  · exact Or.inr (Or.inl ⟨hearly, Or.inl c26, fun m hm => by
      unfold ToUserError; rw [hm]; dsimp only
      rw [if_neg c1, if_neg c2, if_neg c3, if_neg c4, if_neg c5, if_neg c6, if_neg c7, if_neg
        c8, if_neg c9, if_neg c10, if_neg c11, if_neg c12, if_neg c13, if_neg c14, if_neg c15,
        if_neg c16, if_neg c17, if_neg c18, if_neg c19, if_neg c20, if_neg c21, if_neg c22,
        if_neg c23, if_neg c24, if_neg c25, if_pos c26]⟩)
  by_cases c27 : (stringsContains msg "too many active jobs") = true
  · exact Or.inr (Or.inl ⟨hearly, Or.inr c27, fun m hm => by
      unfold ToUserError; rw [hm]; dsimp only
      rw [if_neg c1, if_neg c2, if_neg c3, if_neg c4, if_neg c5, if_neg c6, if_neg c7, if_neg
        c8, if_neg c9, if_neg c10, if_neg c11, if_neg c12, if_neg c13, if_neg c14, if_neg c15,
        if_neg c16, if_neg c17, if_neg c18, if_neg c19, if_neg c20, if_neg c21, if_neg c22,
        if_neg c23, if_neg c24, if_neg c25, if_neg c26, if_pos c27]⟩)
  exact Or.inr (Or.inr ⟨hearly, Bool.eq_false_iff.mpr c26, Bool.eq_false_iff.mpr c27,
    fun m hm => by
      unfold ToUserError; rw [hm]; dsimp only
      rw [if_neg c1, if_neg c2, if_neg c3, if_neg c4, if_neg c5, if_neg c6, if_neg c7, if_neg
        c8, if_neg c9, if_neg c10, if_neg c11, if_neg c12, if_neg c13, if_neg c14, if_neg c15,
        if_neg c16, if_neg c17, if_neg c18, if_neg c19, if_neg c20, if_neg c21, if_neg c22,
        if_neg c23, if_neg c24, if_neg c25, if_neg c26, if_neg c27]⟩)

/-- C25 as the code has it: `ToUserError` matches on the lower-cased message.
For all messages `m1` and `m2` that are equal after lower-casing: when the
lower-cased message contains `playlist too large` or `too many active jobs` and
matches no earlier pattern, `ToUserError` returns each message unchanged, in its
own case; in every other case `ToUserError(m1) = ToUserError(m2)`. -/
theorem to_user_error_case_contract (ToLower : String → String) (m1 m2 : String)
    (h : ToLower m1 = ToLower m2) :
    (passesThrough (ToLower m1) = true →
      ToUserError ToLower m1 = m1 ∧ ToUserError ToLower m2 = m2) ∧
    (passesThrough (ToLower m1) = false →
      ToUserError ToLower m1 = ToUserError ToLower m2) := by
  rcases ToUserError_cases ToLower (ToLower m1) with
    ⟨he, fixed, hf⟩ | ⟨he, hc, hm⟩ | ⟨he, ha, hb, hf⟩
  · constructor
    · intro hp
      simp [passesThrough, he] at hp
    · intro _
      exact (hf m1 rfl).trans (hf m2 h.symm).symm
  · constructor
    · intro _
      exact ⟨hm m1 rfl, hm m2 h.symm⟩
    · intro hp
      rcases hc with hc | hc <;> simp [passesThrough, he, hc] at hp
  · constructor
    · intro hp
      simp [passesThrough, he, ha, hb] at hp
    · intro _
      exact (hf m1 rfl).trans (hf m2 h.symm).symm

/-- C25 as the code has it, on `Playlist too large` and `PLAYLIST TOO LARGE`,
each returned as it is, and on `Video Unavailable` and `VIDEO UNAVAILABLE`,
which get the same phrase. -/
theorem to_user_error_case_contract_witness :
    (ToUserError asciiToLower "Playlist too large" = "Playlist too large" ∧
      ToUserError asciiToLower "PLAYLIST TOO LARGE" = "PLAYLIST TOO LARGE") ∧
    ToUserError asciiToLower "Video Unavailable"
      = ToUserError asciiToLower "VIDEO UNAVAILABLE" :=
  ⟨(to_user_error_case_contract asciiToLower "Playlist too large" "PLAYLIST TOO LARGE"
      (by decide)).1 (by decide),
   (to_user_error_case_contract asciiToLower "Video Unavailable" "VIDEO UNAVAILABLE"
      (by decide)).2 (by decide)⟩

/-! ## Encoding parameters -/

theorem resolutions_eq :
    resolutions = [⟨1920, 1080, 2500⟩, ⟨1280, 720, 1500⟩, ⟨854, 480, 800⟩, ⟨640, 360, 400⟩] := by
  decide

theorem SelectResolution_fitting (width height b : Int) (result : ResolutionResult)
    (h : selectFitting width height b
      [⟨1920, 1080, 2500⟩, ⟨1280, 720, 1500⟩, ⟨854, 480, 800⟩, ⟨640, 360, 400⟩] = some result) :
    SelectResolution width height b = result := by
  unfold SelectResolution
  rw [resolutions_eq, h]

theorem SelectResolution_1080 (width height b : Int)
    (c1 : ¬ (width < 1920 ∧ height < 1080) ∧ b ≥ 2500) :
    SelectResolution width height b = ⟨1920, 1080, decide (width > 1920)⟩ := by
  apply SelectResolution_fitting
  simp only [selectFitting]
  rw [if_neg c1.1, if_pos c1.2]

theorem SelectResolution_720 (width height b : Int)
    (c1 : ¬ (¬ (width < 1920 ∧ height < 1080) ∧ b ≥ 2500))
    (c2 : ¬ (width < 1280 ∧ height < 720) ∧ b ≥ 1500) :
    SelectResolution width height b = ⟨1280, 720, decide (width > 1280)⟩ := by
  apply SelectResolution_fitting
  simp only [selectFitting]
  rw [if_neg c2.1, if_pos c2.2]
  split_ifs with h1 h2
  · rfl
  · exact absurd ⟨h1, h2⟩ c1
  · rfl

theorem SelectResolution_480 (width height b : Int)
    (c2 : ¬ (¬ (width < 1280 ∧ height < 720) ∧ b ≥ 1500))
    (c3 : ¬ (width < 854 ∧ height < 480) ∧ b ≥ 800) :
    SelectResolution width height b = ⟨854, 480, decide (width > 854)⟩ := by
  have n1 : ¬ b ≥ 2500 ∨ width < 1920 ∧ height < 1080 := by omega
  apply SelectResolution_fitting
  simp only [selectFitting]
  rw [if_neg c3.1, if_pos c3.2]
  split_ifs <;> first | rfl | (exfalso; omega)

theorem SelectResolution_360 (width height b : Int)
    (c3 : ¬ (¬ (width < 854 ∧ height < 480) ∧ b ≥ 800))
    (c4 : ¬ (width < 640 ∧ height < 360) ∧ b ≥ 400) :
    SelectResolution width height b = ⟨640, 360, decide (width > 640)⟩ := by
  apply SelectResolution_fitting
  simp only [selectFitting]
  rw [if_neg c4.1, if_pos c4.2]
  split_ifs <;> first | rfl | (exfalso; omega)

/-- C26: for every source that is at least 640 pixels wide or at least 360 pixels
tall and every available bitrate of at least 400 kbit/s, `SelectResolution`
returns a row `r` of the table (1920x1080 from 2500k, 1280x720 from 1500k,
854x480 from 800k, 640x360 from 400k) whose threshold is at most the bitrate and
which the source is not smaller than in both dimensions, no row with these two
properties is higher than `r`, and `NeedsScale` is true exactly when the source
is wider than `r`. -/
theorem select_resolution_contract (width height b : Int)
    (hsrc : 640 ≤ width ∨ 360 ≤ height) (hb : 400 ≤ b) :
    resolutions = [⟨1920, 1080, 2500⟩, ⟨1280, 720, 1500⟩, ⟨854, 480, 800⟩, ⟨640, 360, 400⟩] ∧
    ∃ r ∈ resolutions,
      SelectResolution width height b = ⟨r.W, r.H, decide (width > r.W)⟩ ∧
      r.MinBitrate ≤ b ∧ ¬ (width < r.W ∧ height < r.H) ∧
      (∀ q ∈ resolutions, q.MinBitrate ≤ b → ¬ (width < q.W ∧ height < q.H) →
        q.W ≤ r.W ∧ q.H ≤ r.H) ∧
      ((SelectResolution width height b).NeedsScale = true ↔ width > r.W) := by
  refine ⟨resolutions_eq, ?_⟩
  rw [resolutions_eq]
  by_cases c1 : ¬ (width < 1920 ∧ height < 1080) ∧ b ≥ 2500
  · refine ⟨⟨1920, 1080, 2500⟩, by simp, ?_⟩
    have hsel := SelectResolution_1080 width height b c1
    rw [hsel]
    refine ⟨rfl, c1.2, c1.1, ?_, by simp⟩
    intro q hq h1 h2
    simp only [List.mem_cons, List.mem_singleton, List.not_mem_nil, or_false] at hq
    rcases hq with rfl | rfl | rfl | rfl <;> simp
  by_cases c2 : ¬ (width < 1280 ∧ height < 720) ∧ b ≥ 1500
  · refine ⟨⟨1280, 720, 1500⟩, by simp, ?_⟩
    have hsel := SelectResolution_720 width height b c1 c2
    rw [hsel]
    refine ⟨rfl, c2.2, c2.1, ?_, by simp⟩
    intro q hq h1 h2
    simp only [List.mem_cons, List.mem_singleton, List.not_mem_nil, or_false] at hq
    rcases hq with rfl | rfl | rfl | rfl
    · exfalso; exact c1 ⟨h2, h1⟩
    all_goals simp
  by_cases c3 : ¬ (width < 854 ∧ height < 480) ∧ b ≥ 800
  · refine ⟨⟨854, 480, 800⟩, by simp, ?_⟩
    have hsel := SelectResolution_480 width height b c2 c3
    rw [hsel]
    refine ⟨rfl, c3.2, c3.1, ?_, by simp⟩
    intro q hq h1 h2
    simp only [List.mem_cons, List.mem_singleton, List.not_mem_nil, or_false] at hq
    rcases hq with rfl | rfl | rfl | rfl
    · exfalso; exact c1 ⟨h2, h1⟩
    · exfalso; exact c2 ⟨h2, h1⟩
    all_goals simp
  · refine ⟨⟨640, 360, 400⟩, by simp, ?_⟩
    have c4 : ¬ (width < 640 ∧ height < 360) := by omega
    have hsel := SelectResolution_360 width height b c3 ⟨c4, hb⟩
    rw [hsel]
    refine ⟨rfl, hb, c4, ?_, by simp⟩
    intro q hq h1 h2
    simp only [List.mem_cons, List.mem_singleton, List.not_mem_nil, or_false] at hq
    rcases hq with rfl | rfl | rfl | rfl
    · exfalso; exact c1 ⟨h2, h1⟩
    · exfalso; exact c2 ⟨h2, h1⟩
    · exfalso; exact c3 ⟨h2, h1⟩
    · simp

/-- C26 on a 1920x1080 source with 1600 kbit/s available (the row 1280x720 is
the one returned, and the source has to be scaled). -/
theorem select_resolution_contract_witness :
    resolutions = [⟨1920, 1080, 2500⟩, ⟨1280, 720, 1500⟩, ⟨854, 480, 800⟩, ⟨640, 360, 400⟩] ∧
    ∃ r ∈ resolutions,
      SelectResolution 1920 1080 1600 = ⟨r.W, r.H, decide ((1920 : Int) > r.W)⟩ ∧
      r.MinBitrate ≤ 1600 ∧ ¬ ((1920 : Int) < r.W ∧ (1080 : Int) < r.H) ∧
      (∀ q ∈ resolutions, q.MinBitrate ≤ 1600 → ¬ ((1920 : Int) < q.W ∧ (1080 : Int) < q.H) →
        q.W ≤ r.W ∧ q.H ≤ r.H) ∧
      ((SelectResolution 1920 1080 1600).NeedsScale = true ↔ (1920 : Int) > r.W) :=
  select_resolution_contract 1920 1080 1600 (Or.inl (by decide)) (by decide)

theorem Float64.round_nonpos (neg : Bool) (n d : Nat) (e : Int) (h : neg = true ∨ n = 0) :
    (Float64.round neg n d e).nonpos = true := by
  unfold Float64.round
  by_cases hn : n = 0
  · simp [hn, Float64.nonpos]
  · have hneg : neg = true := h.resolve_right hn
    simp only [hn, if_false]
    split_ifs <;> simp [Float64.nonpos, hneg]

theorem Float64.scaled_nonpos_iff (neg : Bool) (m : Nat) (k : Int) :
    Float64.scaled neg m k ≤ 0 ↔ neg = true ∨ m = 0 := by
  have hpow : 0 < 2 ^ k.toNat := pow_pos (by norm_num) _
  unfold Float64.scaled
  cases neg with
  | true =>
    simp only [if_true, true_or, iff_true]
    omega
  | false =>
    simp only [Bool.false_eq_true, if_false, false_or]
    constructor
    · intro h
      have h0 : m * 2 ^ k.toNat = 0 := by omega
      rcases Nat.mul_eq_zero.mp h0 with h1 | h1
      · exact h1
      · omega
    · intro h
      simp [h]

theorem Float64.pos_of_checks (x : Float64) (h1 : x.isNaN = false)
    (h2 : x.le (Float64.ofInt 0) = false) : x.pos = true := by
  have h0 : Float64.ofInt 0 = .fin false 0 0 := rfl
  rw [h0] at h2
  cases x with
  | nan => simp [Float64.isNaN] at h1
  | inf neg => cases neg <;> simp_all [Float64.le, Float64.pos]
  | fin neg m e =>
    simp only [Float64.le, decide_eq_false_iff_not, not_le] at h2
    have hz : Float64.scaled false 0 (0 - min e 0) = 0 := by simp [Float64.scaled]
    rw [hz] at h2
    have := (Float64.scaled_nonpos_iff neg m (e - min e 0)).not.mp (by omega)
    push_neg at this
    simp only [Float64.pos, Bool.and_eq_true, Bool.not_eq_true', decide_eq_true_eq]
    exact ⟨by simpa using this.1, this.2⟩

theorem Float64.sub_nonpos_of_le (x y : Float64) (h : x.le y = true) :
    (x.sub y).nonpos = true := by
  cases x with
  | nan => simp [Float64.le] at h
  | inf a =>
    cases y with
    | nan => simp [Float64.le] at h
    | inf b => cases a <;> cases b <;> simp_all [Float64.le, Float64.sub, Float64.nonpos]
    | fin b m2 e2 => simp_all [Float64.le, Float64.sub, Float64.nonpos]
  | fin a m1 e1 =>
    cases y with
    | nan => simp [Float64.le] at h
    | inf b => simp_all [Float64.le, Float64.sub, Float64.nonpos]
    | fin b m2 e2 =>
      simp only [Float64.le, decide_eq_true_eq] at h
      simp only [Float64.sub]
      split_ifs with hz
      · simp [Float64.nonpos]
      · apply Float64.round_nonpos
        left
        simp only [decide_eq_true_eq]
        omega

theorem Float64.mul_nonpos (x c : Float64) (hx : x.nonpos = true) (hc : c.pos = true) :
    (x.mul c).nonpos = true := by
  cases c with
  | nan => simp [Float64.pos] at hc
  | inf b =>
    simp only [Float64.pos, Bool.not_eq_true'] at hc
    subst hc
    cases x with
    | nan => rfl
    | inf a => simpa [Float64.mul, Float64.nonpos] using hx
    | fin a m e =>
      simp only [Float64.mul]
      split_ifs with hm
      · rfl
      · simpa [Float64.nonpos, hm] using hx
  | fin b m2 e2 =>
    simp only [Float64.pos, Bool.and_eq_true, Bool.not_eq_true', decide_eq_true_eq] at hc
    obtain ⟨hb, hm2⟩ := hc
    subst hb
    cases x with
    | nan => rfl
    | inf a =>
      simp only [Float64.mul, hm2, if_false]
      simpa [Float64.nonpos] using hx
    | fin a m1 e1 =>
      simp only [Float64.mul]
      apply Float64.round_nonpos
      simp only [Float64.nonpos, Bool.or_eq_true, decide_eq_true_eq] at hx
      rcases hx with h | h
      · left; simp [h]
      · right; simp [h]

theorem Float64.div_nonpos (x c : Float64) (hx : x.nonpos = true) (hc : c.pos = true) :
    (x.div c).nonpos = true := by
  cases c with
  | nan => simp [Float64.pos] at hc
  | inf b =>
    simp only [Float64.pos, Bool.not_eq_true'] at hc
    subst hc
    cases x with
    | nan => rfl
    | inf a => rfl
    | fin a m e => simp [Float64.div, Float64.nonpos]
  | fin b m2 e2 =>
    simp only [Float64.pos, Bool.and_eq_true, Bool.not_eq_true', decide_eq_true_eq] at hc
    obtain ⟨hb, hm2⟩ := hc
    subst hb
    cases x with
    | nan => rfl
    | inf a => simpa [Float64.div, Float64.nonpos] using hx
    | fin a m1 e1 =>
      simp only [Float64.div, hm2, if_false]
      apply Float64.round_nonpos
      simp only [Float64.nonpos, Bool.or_eq_true, decide_eq_true_eq] at hx
      rcases hx with h | h
      · left; simp [h]
      · right; exact h

theorem Float64.floor_toInt_nonpos (x : Float64) (v : Int) (hx : x.nonpos = true)
    (hv : x.floor.toInt = some v) : v ≤ 0 := by
  cases x with
  | nan => simp [Float64.floor, Float64.toInt] at hv
  | inf a => simp [Float64.floor, Float64.toInt] at hv
  | fin neg m e =>
    simp only [Float64.nonpos, Bool.or_eq_true, decide_eq_true_eq] at hx
    simp only [Float64.floor] at hv
    split_ifs at hv with h1 h2
    · simp only [Float64.toInt, h1, if_true] at hv
      split_ifs at hv with h3 h4
      · cases hv; omega
      · cases hv
        rcases hx with h | h
        · exact absurd h h3
        · subst h; simp
    · simp only [Float64.toInt, ge_iff_le, le_refl, if_true] at hv
      split_ifs at hv
      cases hv; omega
    · simp only [Float64.toInt, ge_iff_le, le_refl, if_true] at hv
      split_ifs at hv with h3 h4
      · cases hv; omega
      · cases hv
        rcases hx with h | h
        · exact absurd h h3
        · subst h; simp

theorem Float64.floor_toInt_pos_iff (x : Float64) (v : Int)
    (hv : x.floor.toInt = some v) :
    0 < v ↔ (Float64.fin false 1 0).le x = true := by
  cases x with
  | nan => simp [Float64.floor, Float64.toInt] at hv
  | inf a => simp [Float64.floor, Float64.toInt] at hv
  | fin neg m e =>
    simp only [Float64.le, decide_eq_true_eq]
    simp only [Float64.floor] at hv
    by_cases he : e ≥ 0
    · have hmin : min 0 e = 0 := by omega
      simp only [he, if_true, Float64.toInt] at hv
      simp only [hmin, sub_zero, Float64.scaled, Bool.false_eq_true, if_false, Int.toNat_zero,
        pow_zero, mul_one]
      cases neg with
      | true =>
        simp only [if_true] at hv ⊢
        split_ifs at hv
        cases hv
        omega
      | false =>
        simp only [Bool.false_eq_true, if_false] at hv ⊢
        split_ifs at hv
        cases hv
        omega
    · have hmin : min 0 e = e := by omega
      have hk : (0 - e).toNat = (-e).toNat := by congr 1; omega
      have hpow : 0 < 2 ^ (-e).toNat := pow_pos (by norm_num) _
      simp only [hmin, sub_self, Float64.scaled, Bool.false_eq_true, if_false, Int.toNat_zero,
        pow_zero, mul_one, one_mul, hk]
      simp only [he, if_false] at hv
      split_ifs at hv with h2
      · simp only [Float64.toInt, ge_iff_le, le_refl, if_true] at hv
        split_ifs at hv
        cases hv
        simp only [h2.1, if_true]
        constructor
        · intro h; omega
        · intro h; omega
      · simp only [Float64.toInt, ge_iff_le, le_refl, if_true, Int.toNat_zero, pow_zero,
          mul_one] at hv
        cases neg with
        | true =>
          simp only [if_true] at hv ⊢
          generalize m / 2 ^ (-e).toNat = q at hv
          split_ifs at hv
          cases hv
          constructor
          · intro h; omega
          · intro h; omega
        | false =>
          simp only [Bool.false_eq_true, if_false] at hv ⊢
          have hdiv := Nat.div_pos_iff (a := m) (Nat.pos_iff_ne_zero.mp hpow)
          generalize hq : m / 2 ^ (-e).toNat = q at hv hdiv
          split_ifs at hv
          cases hv
          constructor
          · intro h
            have := hdiv.mp (by omega)
            omega
          · intro h
            have := hdiv.mpr (by omega)
            omega

theorem Float64.floor_toInt_defined (x : Float64)
    (hlo : (Float64.fin true 1 63).le x = true)
    (hhi : (Float64.fin false 1 63).le x = false) :
    ∃ v, x.floor.toInt = some v := by
  cases x with
  | nan => simp [Float64.le] at hlo
  | inf a => cases a <;> simp_all [Float64.le]
  | fin neg m e =>
    simp only [Float64.le, decide_eq_true_eq] at hlo
    simp only [Float64.le, decide_eq_false_iff_not, not_le] at hhi
    have key : ∀ t : Int, (-(2 : Int) ^ 63 ≤ t ∧ t < (2 : Int) ^ 63) →
        (if -(2 : Int) ^ 63 ≤ t ∧ t < (2 : Int) ^ 63 then some t else none) = some t := by
      intro t ht
      rw [if_pos ht]
    simp only [Float64.floor]
    by_cases he : e ≥ 0
    · simp only [he, if_true, Float64.toInt]
      refine ⟨_, key _ ?_⟩
      by_cases h63 : e ≤ 63
      · have hmin : min 63 e = e := by omega
        rw [hmin] at hlo hhi
        simp only [sub_self, Float64.scaled, Bool.false_eq_true, if_false, if_true,
          Int.toNat_zero, pow_zero, mul_one, one_mul] at hlo hhi
        have hsplit : (2 : Nat) ^ 63 = 2 ^ (63 - e).toNat * 2 ^ e.toNat := by
          rw [← pow_add]
          congr 1
          omega
        have hpe : 0 < 2 ^ e.toNat := pow_pos (by norm_num) _
        cases neg with
        | true =>
          simp only [if_true] at hlo hhi ⊢
          have h1 : m ≤ 2 ^ (63 - e).toNat := by omega
          have h2 : m * 2 ^ e.toNat ≤ 2 ^ (63 - e).toNat * 2 ^ e.toNat :=
            Nat.mul_le_mul_right _ h1
          rw [← hsplit] at h2
          generalize m * 2 ^ e.toNat = T at h2 ⊢
          norm_num at h2 ⊢
          omega
        | false =>
          simp only [Bool.false_eq_true, if_false] at hlo hhi ⊢
          have h1 : m < 2 ^ (63 - e).toNat := by omega
          have h2 : m * 2 ^ e.toNat < 2 ^ (63 - e).toNat * 2 ^ e.toNat :=
            Nat.mul_lt_mul_of_pos_right h1 hpe
          rw [← hsplit] at h2
          generalize m * 2 ^ e.toNat = T at h2 ⊢
          norm_num at h2 ⊢
          omega
      · have hmin : min 63 e = 63 := by omega
        rw [hmin] at hlo hhi
        simp only [sub_self, Float64.scaled, Bool.false_eq_true, if_false, if_true,
          Int.toNat_zero, pow_zero, mul_one] at hlo hhi
        have hk : (e - 63).toNat = (e - 63).toNat - 1 + 1 := by omega
        have hm : m = 0 := by
          by_contra hm0
          have hp : 2 ≤ 2 ^ (e - 63).toNat := by
            rw [hk, pow_succ]
            have : 0 < 2 ^ ((e - 63).toNat - 1) := pow_pos (by norm_num) _
            omega
          have h3 : 1 * 2 ≤ m * 2 ^ (e - 63).toNat :=
            Nat.mul_le_mul (Nat.pos_of_ne_zero hm0) hp
          cases neg with
          | true =>
            simp only [if_true] at hlo
            omega
          | false =>
            simp only [Bool.false_eq_true, if_false] at hhi
            omega
        subst hm
        cases neg <;> simp
    · have hmin : min 63 e = e := by omega
      rw [hmin] at hlo hhi
      have hk : (63 - e).toNat = 63 + (-e).toNat := by omega
      have hpow : 0 < 2 ^ (-e).toNat := pow_pos (by norm_num) _
      simp only [sub_self, Float64.scaled, Bool.false_eq_true, if_false, if_true,
        Int.toNat_zero, pow_zero, mul_one, one_mul, hk, pow_add] at hlo hhi
      simp only [he, if_false]
      generalize 2 ^ (-e).toNat = P at hlo hhi hpow ⊢
      split_ifs with h2
      · simp only [Float64.toInt, ge_iff_le, le_refl, if_true, Int.toNat_zero, pow_zero,
          mul_one]
        refine ⟨_, key _ ?_⟩
        obtain ⟨hn, hr⟩ := h2
        subst hn
        simp only [if_true] at hlo
        have hmle : m ≤ 2 ^ 63 * P := by omega
        have hq : m / P < 2 ^ 63 := by
          rw [Nat.div_lt_iff_lt_mul hpow]
          rcases Nat.lt_or_eq_of_le hmle with h | h
          · exact h
          · exfalso
            apply hr
            rw [h]
            exact Nat.mul_mod_left _ _
        generalize m / P = q at hq
        norm_num at hq ⊢
        omega
      · simp only [Float64.toInt, ge_iff_le, le_refl, if_true, Int.toNat_zero, pow_zero,
          mul_one]
        refine ⟨_, key _ ?_⟩
        cases neg with
        | true =>
          simp only [if_true] at hlo ⊢
          have hmle : m ≤ 2 ^ 63 * P := by omega
          have hq : m / P ≤ 2 ^ 63 := by
            calc m / P ≤ (2 ^ 63 * P) / P := Nat.div_le_div_right hmle
              _ = 2 ^ 63 := Nat.mul_div_cancel _ hpow
          generalize m / P = q at hq
          norm_num at hq ⊢
          omega
        | false =>
          simp only [Bool.false_eq_true, if_false] at hhi ⊢
          have hmlt : m < 2 ^ 63 * P := by omega
          have hq : m / P < 2 ^ 63 := by
            rw [Nat.div_lt_iff_lt_mul hpow]
            exact hmlt
          generalize m / P = q at hq
          norm_num at hq ⊢
          omega

set_option maxRecDepth 100000 in
theorem CalculateTargetBitrate_1_1000 :
    CalculateTargetBitrate (Float64.ofInt 1) (Float64.ofInt 1000) 96 = some (-89) := by
  rfl

set_option maxRecDepth 100000 in
theorem compressSizeMode_1_1000_50 :
    compressSizeMode (Float64.ofInt 1) (Float64.ofInt 1000) (Float64.ofInt 50)
      = .twoPass (some (-89)) := by
  rfl

set_option maxRecDepth 100000 in
theorem CalculateTargetBitrate_25_60 :
    CalculateTargetBitrate (Float64.ofInt 25) (Float64.ofInt 60) 96 = some 3224 := by
  rfl

set_option maxRecDepth 100000 in
theorem videoKbps_25_60 :
    (Float64.fin false 1 0).le (videoKbps (Float64.ofInt 25) (Float64.ofInt 60) 96) = true := by
  rfl

set_option maxRecDepth 100000 in
/-- The model on durations that are not binary fractions, with the values the
compiled function returns: each `float64` operation is rounded as in Go. -/
theorem CalculateTargetBitrate_samples :
    CalculateTargetBitrate (Float64.ofInt 5) (Float64.round false 4096 1000 0) 96 = some 9632 ∧
    CalculateTargetBitrate (Float64.ofInt 25) (Float64.round false 16384 1000 0) 96
      = some 12064 ∧
    CalculateTargetBitrate (Float64.ofInt 25) (Float64.round false 304 100 0) 96 = some 65440 ∧
    CalculateTargetBitrate (Float64.ofInt 25) (Float64.round false 2048 1000 0) 96
      = some 97184 ∧
    CalculateTargetBitrate (Float64.ofInt 5) (Float64.round false 512 1000 0) 96
      = some 77728 := by
  refine ⟨?_, ?_, ?_, ?_, ?_⟩ <;> rfl

/-- C27 fails: a target of 1 MB for a video of 1000 seconds whose file has 50 MB
takes the two-pass path, and the video bitrate handed to the encoder is
-89 kbit/s. -/
theorem small_target_negative_bitrate :
    CalculateTargetBitrate (Float64.ofInt 1) (Float64.ofInt 1000) 96 = some (-89) ∧
    compressSizeMode (Float64.ofInt 1) (Float64.ofInt 1000) (Float64.ofInt 50)
      = .twoPass (some (-89)) :=
  ⟨CalculateTargetBitrate_1_1000, compressSizeMode_1_1000_50⟩

/-- C27 as the code has it: whenever size-mode compression takes the two-pass
path (target size above 0 MB, duration above 0 s, source file larger than the
target), the video bitrate handed to the encoder is
`CalculateTargetBitrate(targetMB, duration, 96)`, the integer part
`int(math.Floor(x))` of the `float64` value `x = (targetMB * 1024 * 1024 * 0.95
- 12000 * duration) * 8 / duration / 1000`, which is an integer of the type
`int` whenever `-2^63 ≤ x < 2^63`; it is positive exactly when `x` is at least 1,
and it is zero or negative whenever `targetMB * 1024 * 1024 * 0.95` does not
exceed `12000 * duration`. -/
theorem two_pass_bitrate_contract (targetMB duration sourceMB : Float64)
    (ht1 : targetMB.isNaN = false) (ht2 : targetMB.le (Float64.ofInt 0) = false)
    (hd1 : duration.isNaN = false) (hd2 : duration.le (Float64.ofInt 0) = false)
    (hs : sourceMB.le targetMB = false) :
    compressSizeMode targetMB duration sourceMB
      = .twoPass (CalculateTargetBitrate targetMB duration 96) ∧
    CalculateTargetBitrate targetMB duration 96
      = (videoKbps targetMB duration 96).floor.toInt ∧
    ((Float64.fin true 1 63).le (videoKbps targetMB duration 96) = true →
      (Float64.fin false 1 63).le (videoKbps targetMB duration 96) = false →
      ∃ v, CalculateTargetBitrate targetMB duration 96 = some v) ∧
    (∀ v, CalculateTargetBitrate targetMB duration 96 = some v →
      (0 < v ↔ (Float64.fin false 1 0).le (videoKbps targetMB duration 96) = true)) ∧
    ((targetBytes targetMB).le (audioBytes duration 96) = true →
      ∀ v, CalculateTargetBitrate targetMB duration 96 = some v → v ≤ 0) := by
  refine ⟨?_, rfl, ?_, ?_, ?_⟩
  · simp [compressSizeMode, ht1, ht2, hd1, hd2, hs]
  · intro hlo hhi
    exact Float64.floor_toInt_defined _ hlo hhi
  · intro v hv
    exact Float64.floor_toInt_pos_iff _ v hv
  · intro hle v hv
    have hdpos := Float64.pos_of_checks duration hd1 hd2
    have h1 := Float64.sub_nonpos_of_le _ _ hle
    have h2 := Float64.mul_nonpos _ (Float64.ofInt 8) h1 (by rfl)
    have h3 := Float64.div_nonpos _ duration h2 hdpos
    have h4 := Float64.div_nonpos _ (Float64.ofInt 1000) h3 (by rfl)
    exact Float64.floor_toInt_nonpos _ v h4 hv

/-- C27 as the code has it, on a target of 25 MB for a video of 60 seconds whose
file has 100 MB: the two-pass path is taken with 3224 kbit/s, a positive
bitrate. -/
theorem two_pass_bitrate_contract_witness :
    compressSizeMode (Float64.ofInt 25) (Float64.ofInt 60) (Float64.ofInt 100)
      = .twoPass (some 3224) ∧
    (0 : Int) < 3224 :=
  ⟨(two_pass_bitrate_contract (Float64.ofInt 25) (Float64.ofInt 60) (Float64.ofInt 100)
      (by rfl) (by rfl) (by rfl) (by rfl) (by rfl)).1.trans
        (congrArg CompressPlan.twoPass CalculateTargetBitrate_25_60),
   ((two_pass_bitrate_contract (Float64.ofInt 25) (Float64.ofInt 60) (Float64.ofInt 100)
      (by rfl) (by rfl) (by rfl) (by rfl) (by rfl)).2.2.2.1 3224
        CalculateTargetBitrate_25_60).mpr videoKbps_25_60⟩

/-! ## Artifacts that no sweeper takes -/

theorem forEachBotDownloadVisit_sub (fn : String → BotDownload → Files → Bool × Files)
    (acc : GoMap BotDownload × Files) (k t : String) (d : BotDownload)
    (h : (forEachBotDownloadVisit fn acc k).1.get? t = some d) : acc.1.get? t = some d := by
  by_cases htk : t = k
  · subst htk
    unfold forEachBotDownloadVisit at h
    cases hk : acc.1.get? t with
    | none => simp [hk] at h
    | some dl =>
      simp only [hk] at h
      by_cases h1 : (fn t dl acc.2).1 = true
      · simp [h1] at h
      · simp only [h1, Bool.false_eq_true, if_false] at h
        rw [hk] at h
        exact h
  · rw [forEachBotDownloadVisit_get?_ne fn acc htk] at h
    exact h

/-- A sweep whose callback removes the file of each entry it deletes leaves a
file alone that no deleted entry points to. -/
theorem sweepFold_files (p : BotDownload → Bool) (f : String) (ks : List String) :
    ∀ acc : GoMap BotDownload × Files,
      (∀ t d, acc.1.get? t = some d → p d = true → d.FilePath ≠ f) →
      (ks.foldl (forEachBotDownloadVisit
          (fun _ dl fs => if p dl = true then (true, fs.del dl.FilePath) else (false, fs)))
        acc).2.get? f = acc.2.get? f := by
  induction ks with
  | nil => intro acc _; rfl
  | cons k rest ih =>
    intro acc hacc
    rw [List.foldl_cons, ih]
    · unfold forEachBotDownloadVisit
      cases hk : acc.1.get? k with
      | none => rfl
      | some dl =>
        by_cases h1 : p dl = true
        · simp only [h1, if_true]
          exact GoMap.get?_del_ne _ (fun h => hacc k dl hk h1 h.symm)
        · simp only [h1, Bool.false_eq_true, if_false]
    · intro t d ht hp
      exact hacc t d (forEachBotDownloadVisit_sub _ acc k t d ht) hp

theorem sweepCycle_keeps (p : BotDownload → Bool) (botDownloads : GoMap BotDownload)
    (files : Files) (token : String) (dl : BotDownload)
    (hget : botDownloads.get? token = some dl) (hkeep : p dl = false)
    (hpath : ∀ t d, botDownloads.get? t = some d → t ≠ token → d.FilePath ≠ dl.FilePath) :
    (ForEachBotDownload botDownloads
        (fun _ dl fs => if p dl = true then (true, fs.del dl.FilePath) else (false, fs))
        files).1.get? token = some dl ∧
    (ForEachBotDownload botDownloads
        (fun _ dl fs => if p dl = true then (true, fs.del dl.FilePath) else (false, fs))
        files).2.get? dl.FilePath = files.get? dl.FilePath ∧
    (∀ t d, (ForEachBotDownload botDownloads
        (fun _ dl fs => if p dl = true then (true, fs.del dl.FilePath) else (false, fs))
        files).1.get? t = some d → botDownloads.get? t = some d) := by
  have hreg := ForEachBotDownload_get?
    (fun _ dl fs => if p dl = true then (true, fs.del dl.FilePath) else (false, fs))
    (fun _ d => p d)
    (fun t d fs => by by_cases h : p d = true <;> simp [h]) botDownloads files
  refine ⟨?_, ?_, ?_⟩
  · rw [hreg token, hget]
    simp [hkeep]
  · unfold ForEachBotDownload
    apply sweepFold_files p dl.FilePath
    intro t d ht hp
    by_cases htk : t = token
    · subst htk
      rw [hget] at ht
      cases ht
      rw [hkeep] at hp
      cases hp
    · exact hpath t d ht htk
  · intro t d ht
    rw [hreg t] at ht
    cases hb : botDownloads.get? t with
    | none => rw [hb] at ht; cases ht
    | some d0 =>
      rw [hb] at ht
      by_cases h : p d0 = true
      · simp [h] at ht
      · simp only [Option.some_bind, h, Bool.false_eq_true, if_false] at ht
        exact ht

theorem botPlaylistStored_paths (t : String) (d : BotDownload)
    (ht : botPlaylistStored.1.get? t = some d) (hne : t ≠ "P") :
    d.FilePath ≠ "/var/tmp/yoink/bot/p.zip" := by
  unfold botPlaylistStored SetBotDownload at ht
  rw [GoMap.get?_set_ne _ _ hne] at ht
  by_cases hT : t = "T"
  · subst hT
    rw [GoMap.get?_set_self] at ht
    cases ht
    decide
  · rw [GoMap.get?_set_ne _ _ hT] at ht
    cases ht

/-- C29: an artifact flagged is-playlist but not is-web-playlist, whose file no
other entry points to, is never evicted by a sweeper: whatever its age, after
any run of cycles of the 30-second short-TTL sweep and the 60-second playlist
sweep, at any times, its registry entry is in place unchanged and its file is as
it was. -/
theorem playlist_artifact_never_swept (sweeps : List (Bool × Int))
    (botDownloads : GoMap BotDownload) (files : Files) (token : String) (dl : BotDownload)
    (hget : botDownloads.get? token = some dl)
    (hp : dl.IsPlaylist = true) (hw : dl.IsWebPlaylist = false)
    (hpath : ∀ t d, botDownloads.get? t = some d → t ≠ token → d.FilePath ≠ dl.FilePath) :
    (runArtifactSweeps botDownloads files sweeps).1.get? token = some dl ∧
    (runArtifactSweeps botDownloads files sweeps).2.get? dl.FilePath
      = files.get? dl.FilePath := by
  induction sweeps generalizing botDownloads files with
  | nil => exact ⟨hget, rfl⟩
  | cons step rest ih =>
    obtain ⟨short, now⟩ := step
    have h1 : botDownloadExpired now dl = false := by simp [botDownloadExpired, hp]
    have h2 : playlistDownloadExpired now dl = false := by simp [playlistDownloadExpired, hw]
    cases short with
    | true =>
      obtain ⟨ka, kb, kc⟩ := sweepCycle_keeps (botDownloadExpired now) botDownloads files
        token dl hget h1 hpath
      have := ih (botDownloadExpiryCycle botDownloads files now).1
        (botDownloadExpiryCycle botDownloads files now).2 ka
        (fun t d ht hne => hpath t d (kc t d ht) hne)
      simp only [runArtifactSweeps, if_true]
      exact ⟨this.1, this.2.trans kb⟩
    | false =>
      obtain ⟨ka, kb, kc⟩ := sweepCycle_keeps (playlistDownloadExpired now) botDownloads files
        token dl hget h2 hpath
      have := ih (playlistDownloadExpiryCycle botDownloads files now).1
        (playlistDownloadExpiryCycle botDownloads files now).2 ka
        (fun t d ht hne => hpath t d (kc t d ht) hne)
      simp only [runArtifactSweeps, Bool.false_eq_true, if_false]
      exact ⟨this.1, this.2.trans kb⟩

/-- C29 on the zip of a bot playlist stored at time 0: a short-TTL sweep after
400 seconds, a playlist sweep after 13 hours and a short-TTL sweep after 14 hours
leave its entry and its file in place (the plain artifact beside it is gone
after the first of them). -/
theorem playlist_artifact_never_swept_witness :
    ((runArtifactSweeps botPlaylistStored.1 botPlaylistStored.2
        [(true, 400 * Second), (false, 13 * 3600 * Second), (true, 14 * 3600 * Second)]).1.get?
      "P" = some { FilePath := "/var/tmp/yoink/bot/p.zip", FileName := "p.zip",
                   MimeType := "application/zip", IsPlaylist := true } ∧
    (runArtifactSweeps botPlaylistStored.1 botPlaylistStored.2
        [(true, 400 * Second), (false, 13 * 3600 * Second), (true, 14 * 3600 * Second)]).2.get?
      "/var/tmp/yoink/bot/p.zip" = botPlaylistStored.2.get? "/var/tmp/yoink/bot/p.zip") ∧
    (runArtifactSweeps botPlaylistStored.1 botPlaylistStored.2
        [(true, 400 * Second)]).1.get? "T" = none :=
  ⟨playlist_artifact_never_swept
      [(true, 400 * Second), (false, 13 * 3600 * Second), (true, 14 * 3600 * Second)]
      botPlaylistStored.1 botPlaylistStored.2 "P"
      { FilePath := "/var/tmp/yoink/bot/p.zip", FileName := "p.zip",
        MimeType := "application/zip", IsPlaylist := true }
      (by decide) rfl rfl botPlaylistStored_paths,
   by decide⟩

/-! ## Time parameters -/

theorem ParseFloat_clock_start : ParseFloat "00:00:10" = 0 := by
  simp [ParseFloat, splitOnChar, isDigits]

theorem ParseFloat_clock_end : ParseFloat "00:00:20" = 0 := by
  simp [ParseFloat, splitOnChar, isDigits]

theorem ParseFloat_ten : ParseFloat "10" = 10 := by
  simp [ParseFloat, splitOnChar, isDigits, readDecimal]

theorem ParseFloat_twenty : ParseFloat "20" = 20 := by
  simp [ParseFloat, splitOnChar, isDigits, readDecimal]

/-- C28: `ValidateTimeParam` accepts `00:00:10` and `00:00:20`, and
`POST /api/convert` with this start and end time is answered 400 with
`endTime must be greater than startTime`, although the end is ten seconds after
the start; the same moments written as the seconds `10` and `20` pass. -/
theorem clock_times_rejected :
    ValidateTimeParam "00:00:10" = "00:00:10" ∧
    ValidateTimeParam "00:00:20" = "00:00:20" ∧
    handleConvertTimes "00:00:10" "00:00:20"
      = some ⟨400, false, "endTime must be greater than startTime"⟩ ∧
    handleConvertTimes "10" "20" = none := by
  have h1 : ValidateTimeParam "00:00:10" = "00:00:10" := by decide
  have h2 : ValidateTimeParam "00:00:20" = "00:00:20" := by decide
  have h3 : ValidateTimeParam "10" = "10" := by decide
  have h4 : ValidateTimeParam "20" = "20" := by decide
  refine ⟨h1, h2, ?_, ?_⟩
  · simp only [handleConvertTimes, h1, h2, ParseFloat_clock_start, ParseFloat_clock_end]
    decide
  · simp only [handleConvertTimes, h3, h4, ParseFloat_ten, ParseFloat_twenty]
    norm_num

/-! ## The denoise filter -/

theorem closest_of_420_ascending :
    ([360, 480, 720, 1080, 1440, 2160].foldl (closestStep 420) (360, none)).1 = 360 := by
  decide

theorem closest_of_420_swapped :
    ([480, 360, 720, 1080, 1440, 2160].foldl (closestStep 420) (360, none)).1 = 480 := by
  decide

/-- C30: with `denoise = auto`, preset denoise `auto`, a source 420 pixels high
(as far from 360 as from 480) and a source bitrate of 3 Mbit/s, `GetDenoiseFilter`
returns the heavy filter when the loop over the map meets 360 before 480 and the
moderate filter when it meets 480 first; both orders go through the six keys of
the map. -/
theorem denoise_filter_depends_on_map_order :
    List.Perm [360, 480, 720, 1080, 1440, 2160] expectedBitrateKeys ∧
    List.Perm [480, 360, 720, 1080, 1440, 2160] expectedBitrateKeys ∧
    GetDenoiseFilter [360, 480, 720, 1080, 1440, 2160] "auto" 420 3 "auto"
      = "hqdn3d=6:4:9:6" ∧
    GetDenoiseFilter [480, 360, 720, 1080, 1440, 2160] "auto" 420 3 "auto"
      = "hqdn3d=4:3:6:4.5" := by
  refine ⟨List.Perm.refl _, List.Perm.swap _ _ _, ?_, ?_⟩
  · simp only [GetDenoiseFilter, closest_of_420_ascending]
    norm_num [expectedBitrate, DenoiseFilters]
    decide
  · simp only [GetDenoiseFilter, closest_of_420_swapped]
    norm_num [expectedBitrate, DenoiseFilters]
    decide

end Yoink
